import Mathlib

/-!
# Period statistics engine of rto-go

A shallow embedding of `calc/quarter_calc.go`, `calc/workday.go` and of the
map builders of `data/badge_entry.go`, `data/holiday.go`, `data/vacation.go`.

Conventions of the embedding.

* A `time.Time` handled by the engine is a calendar date at midnight UTC (the
  dates come from `time.Parse("2006-01-02", _)`, and `now` is truncated to its
  date by the engine).  It is represented by its day number, the number of days
  since 1970-01-01 (`Int`).  In the loops over the dates of a period
  `AddDate(0, 0, 1)` is `+ 1`; `After` is `>`, `Before` is `<`, `Equal` is `=`.
* A string used as a date key is a `DateKey`: `DateKey.ymd d` is the text
  `YYYY-MM-DD` that `Format("2006-01-02")` prints for the date `d` (distinct
  dates print distinct texts), `DateKey.raw s` is a text `s` that is not the
  print of any date.
* A Go map is the list of its entries, one entry per key; `range` visits the
  entries in list order.
* Go `int` is 64 bits wide.  Every counter of the loop is bounded by the number
  of days of the period, which is below `2 ^ 48` for any two `time.Time`
  values: the counters, their sums and their differences are embedded in `Int`
  as they are.  The figures derived from the goal are not bounded so: a
  conversion `int(x)` is `toInt`, the truncation of `x` when that is a value of
  `int` and `minInt64` otherwise (the conversion of amd64), the subtractions
  `daysRequired - daysBadgedIn` and `daysBadgedIn - expectedBadgeIns` are taken
  modulo `2 ^ 64` (`wrap64`), and `now.AddDate(0, 0, estimatedDays)` is
  `AddDate`, the Unix time that `time.Date` computes in 64-bit arithmetic.
* A `float64` is the rational number it denotes.  Every float operation is the
  exact operation followed by `f64`, rounding to the nearest number with a
  53 bit significand, ties to even.  The operands of the engine are quotients
  and products of 64 bit integers, far inside the exponent range of binary64,
  so neither overflow nor gradual underflow occurs.
-/

set_option maxRecDepth 100000

namespace Rto

/-! ## float64 -/

/-- Number of binary digits of `n`, by halving, with `fuel` steps at most. -/
def bitLenAux : Nat → Nat → Nat
  | 0, _ => 0
  | fuel + 1, n => if n = 0 then 0 else bitLenAux fuel (n / 2) + 1

/-- Number of binary digits of `n` (`0` for `0`). -/
def bitLen (n : Nat) : Nat := bitLenAux n n

/-- Binary exponent of a positive rational `x`: the `e` with
`2 ^ e ≤ x < 2 ^ (e + 1)`. -/
def binExp (x : ℚ) : Int :=
  let e : Int := (bitLen x.num.natAbs : Int) - (bitLen x.den : Int)
  if (2 : ℚ) ^ e ≤ x then e else e - 1

/-- Nearest integer, ties to the even neighbour. -/
def roundHalfEven (y : ℚ) : Int :=
  let f : Int := ⌊y⌋
  let r : ℚ := y - (f : ℚ)
  if r < 1 / 2 then f
  else if 1 / 2 < r then f + 1
  else if f % 2 = 0 then f else f + 1

/-- Rounding of a positive rational to 53 significant bits. -/
def f64pos (x : ℚ) : ℚ :=
  let s : Int := 52 - binExp x
  (roundHalfEven (x * (2 : ℚ) ^ s) : ℚ) * (2 : ℚ) ^ (-s)

/-- Rounding of a rational to the nearest binary64 number (ties to even). -/
def f64 (x : ℚ) : ℚ :=
  if x = 0 then 0 else if 0 < x then f64pos x else -f64pos (-x)

/-- Go conversion `float64(n)` of an `int`. -/
def float64 (n : Int) : ℚ := f64 (n : ℚ)

/-- Go `a * b` on `float64`. -/
def fmul (a b : ℚ) : ℚ := f64 (a * b)

/-- Go `a / b` on `float64`, for `b ≠ 0`. -/
def fdiv (a b : ℚ) : ℚ := f64 (a / b)

/-- Go `math.Ceil`. -/
def mathCeil (x : ℚ) : ℚ := ((⌈x⌉ : Int) : ℚ)

/-- Go `math.Round`: nearest integer, ties away from zero. -/
def mathRound (x : ℚ) : ℚ :=
  if 0 ≤ x then ((⌊x + 1 / 2⌋ : Int) : ℚ) else -((⌊-x + 1 / 2⌋ : Int) : ℚ)

/-- Truncation of a rational toward zero. -/
def truncInt (x : ℚ) : Int := if 0 ≤ x then ⌊x⌋ else ⌈x⌉

/-! ## 64-bit integers -/

/-- The least value of a Go `int`, `math.MinInt64`. -/
def minInt64 : Int := -(2 ^ 63)

/-- The greatest value of a Go `int`, `math.MaxInt64`. -/
def maxInt64 : Int := 2 ^ 63 - 1

/-- The value that a Go `int` holds after an operation whose exact result is
`n`: the representative of `n` modulo `2 ^ 64` between `minInt64` and
`maxInt64` (two's complement). -/
def wrap64 (n : Int) : Int := (n + 2 ^ 63) % 2 ^ 64 - 2 ^ 63

/-- Go conversion `int(x)` of a `float64`: truncation toward zero.  When the
truncated value is not a value of `int` the result depends on the
implementation; it is here the one of amd64, whose conversion instruction then
yields `minInt64`. -/
def toInt (x : ℚ) : Int :=
  if minInt64 ≤ truncInt x ∧ truncInt x ≤ maxInt64 then truncInt x else minInt64

/-! ## Dates and date keys -/

/-- Day number of the civil date `y-m-d` (proleptic Gregorian calendar),
counted from 1970-01-01.  Used to write concrete dates. -/
def civil (y m d : Int) : Int :=
  let y1 := if m ≤ 2 then y - 1 else y
  let era := y1 / 400
  let yoe := y1 - era * 400
  let mp := (m + 9) % 12
  let doy := (153 * mp + 2) / 5 + d - 1
  let doe := yoe * 365 + yoe / 4 - yoe / 100 + doy
  era * 146097 + doe - 719468

/-- Go `time.Weekday` of a date: `0` is Sunday, `6` is Saturday. -/
def weekday (d : Int) : Int := (d + 4) % 7

/-- A string used as a date key. -/
inductive DateKey where
  | ymd (d : Int)
  | raw (s : String)
  deriving DecidableEq, Repr

/-- Go `t.Format("2006-01-02")`. -/
def formatDate (d : Int) : DateKey := DateKey.ymd d

/-- Day number of 0000-01-01, the first date `time.Parse` reads with the
layout `2006-01-02` (the year field has exactly four digits). -/
def minParseDay : Int := -719528

/-- Day number of 9999-12-31, the last date `time.Parse` reads with the
layout `2006-01-02`. -/
def maxParseDay : Int := 2932896

/-- Go `time.Parse(BadgeDateFormat, s)`: `none` stands for an error. -/
def parseDate : DateKey → Option Int
  | DateKey.ymd d => if minParseDay ≤ d ∧ d ≤ maxParseDay then some d else none
  | DateKey.raw _ => none

/-- The successive values of `d` in `for d := start; ...; d = d.AddDate(0, 0, 1)`,
for `n` rounds. -/
def daysFrom (start : Int) : Nat → List Int
  | 0 => []
  | n + 1 => start :: daysFrom (start + 1) n

/-- The values of `d` in `for d := start; !d.After(end); d = d.AddDate(0, 0, 1)`. -/
def dateRange (start stop : Int) : List Int :=
  daysFrom start (stop - start + 1).toNat

/-- The number of seconds of a day, `secondsPerDay` of package `time`. -/
def secondsPerDay : Int := 86400

/-- Go `t.AddDate(0, 0, days)` for a date `t` at midnight UTC and any `days`,
as the Unix time of the result in seconds.  `time.Date` adds `days` to the day
number and multiplies by `secondsPerDay` in 64-bit arithmetic, so the result is
`midnightUTC (t + days)` wrapped to 64 bits; it is a date at midnight only as
long as nothing wraps. -/
def AddDate (t days : Int) : Int := wrap64 ((t + days) * secondsPerDay)

/-! ## Go maps -/

/-- A Go map: the list of its entries, one per key. -/
abbrev GoMap (α β : Type) := List (α × β)

/-- Go `v, ok := m[k]`. -/
def GoMap.get? {α β : Type} [DecidableEq α] : GoMap α β → α → Option β
  | [], _ => none
  | (k1, v1) :: rest, k => if k1 = k then some v1 else GoMap.get? rest k

/-- Go `m[k] = v`. -/
def GoMap.set {α β : Type} [DecidableEq α] : GoMap α β → α → β → GoMap α β
  | [], k, v => [(k, v)]
  | (k1, v1) :: rest, k, v =>
    if k1 = k then (k, v) :: rest else (k1, v1) :: GoMap.set rest k v

/-! ## Workday calendar (`calc/workday.go`) -/

/-- Status flags of a single calendar day. -/
structure Workday where
  Date : Int
  WorkDate : DateKey
  IsWorkday : Bool
  IsBadgedIn : Bool
  IsFlexCredit : Bool
  IsHoliday : Bool
  IsVacation : Bool
  deriving DecidableEq, Repr

/-- Whether the date is Monday through Friday. -/
def IsWeekday (date : Int) : Bool :=
  let w := weekday date
  w != 6 && w != 0

/-- The map of date key to `Workday` for all weekdays in `[start, stop]`. -/
def CreateWorkdayMap (start stop : Int) : GoMap DateKey Workday :=
  (dateRange start stop).foldl
    (fun m d =>
      if !IsWeekday d then m
      else
        let key := formatDate d
        m.set key
          { Date := d, WorkDate := key, IsWorkday := true, IsBadgedIn := false,
            IsFlexCredit := false, IsHoliday := false, IsVacation := false })
    []

/-! ## Data containers (`data/*.go`) -/

/-- A single badge-in event.  `DateTime` is the instant of the event in Unix
seconds; the engine does not read it. -/
structure BadgeEntry where
  EntryDate : DateKey
  DateTime : Int
  Office : String
  IsBadgedIn : Bool
  IsFlexCredit : Bool
  deriving DecidableEq, Repr

/-- The in-memory container of all badge entries. -/
structure BadgeEntryData where
  entries : List BadgeEntry
  deriving DecidableEq, Repr

/-- The empty container, `NewBadgeEntryData()`. -/
def NewBadgeEntryData : BadgeEntryData := { entries := [] }

/-- Appends a badge entry. -/
def BadgeEntryData.Add (b : BadgeEntryData) (entry : BadgeEntry) : BadgeEntryData :=
  { entries := b.entries ++ [entry] }

/-- Whether a badge entry exists for the date key. -/
def BadgeEntryData.Has (b : BadgeEntryData) (key : DateKey) : Bool :=
  b.entries.any (fun e => decide (e.EntryDate = key))

/-- The badge entry for the date key, if it exists: the first one stored. -/
def BadgeEntryData.Get (b : BadgeEntryData) (key : DateKey) : Option BadgeEntry :=
  b.entries.find? (fun e => decide (e.EntryDate = key))

/-- The map of date key to badge entry for the entries dated in `[start, stop]`. -/
def BadgeEntryData.GetBadgeMap (b : BadgeEntryData) (start stop : Int) :
    GoMap DateKey BadgeEntry :=
  b.entries.foldl
    (fun m entry =>
      match parseDate entry.EntryDate with
      | none => m
      | some t => if !(t < start) && !(t > stop) then m.set entry.EntryDate entry else m)
    []

/-- A single holiday. -/
structure Holiday where
  Name : String
  Date : DateKey
  deriving DecidableEq, Repr

/-- The in-memory container of holidays. -/
structure HolidayData where
  holidays : List Holiday
  deriving DecidableEq, Repr

/-- The empty container, `NewHolidayData()`. -/
def NewHolidayData : HolidayData := { holidays := [] }

/-- Appends a holiday. -/
def HolidayData.Add (h : HolidayData) (holiday : Holiday) : HolidayData :=
  { holidays := h.holidays ++ [holiday] }

/-- The map of date key to holiday. -/
def HolidayData.GetHolidayMap (h : HolidayData) : GoMap DateKey Holiday :=
  h.holidays.foldl (fun m holiday => m.set holiday.Date holiday) []

/-- A single vacation period. -/
structure Vacation where
  Destination : String
  StartDate : DateKey
  EndDate : DateKey
  Approved : Bool
  deriving DecidableEq, Repr

/-- The in-memory container of vacations. -/
structure VacationData where
  vacations : List Vacation
  deriving DecidableEq, Repr

/-- The empty container, `NewVacationData()`. -/
def NewVacationData : VacationData := { vacations := [] }

/-- Appends a vacation. -/
def VacationData.Add (v : VacationData) (vacation : Vacation) : VacationData :=
  { vacations := v.vacations ++ [vacation] }

/-- Expands all vacation date ranges into individual date keys, weekdays only. -/
def VacationData.GetVacationMap (v : VacationData) : GoMap DateKey Vacation :=
  v.vacations.foldl
    (fun m vac =>
      match parseDate vac.StartDate with
      | none => m
      | some start =>
        match parseDate vac.EndDate with
        | none => m
        | some stop =>
          (dateRange start stop).foldl
            (fun m d =>
              if weekday d = 6 ∨ weekday d = 0 then m
              else m.set (formatDate d) vac)
            m)
    []

/-- The configuration of a single time period, with its dates parsed. -/
structure TimePeriod where
  Key : String
  Name : String
  StartDateRaw : DateKey
  EndDateRaw : DateKey
  StartDate : Int
  EndDate : Int
  deriving DecidableEq, Repr

/-! ## Period statistics (`calc/quarter_calc.go`) -/

/-- All computed statistics of a single time period.  `StartDate` and `EndDate`
are day numbers; `ProjectedCompletionDate` is the Unix time in seconds of the
`time.Time` that `AddDate` returns, which is a date at midnight only as long as
the addition of the days does not wrap. -/
structure PeriodStats where
  Name : String
  StartDate : Int
  EndDate : Int
  DaysBadgedIn : Int
  FlexDays : Int
  DaysThusFar : Int
  DaysLeft : Int
  TotalDays : Int
  AvailableWorkdays : Int
  TotalCalendarDays : Int
  DaysRequired : Int
  DaysStillNeeded : Int
  DaysOff : Int
  Holidays : Int
  VacationDays : Int
  DaysAheadOfPace : Int
  RemainingMissableDays : Int
  CurrentAverage : ℚ
  RequiredFutureAverage : ℚ
  ComplianceStatus : String
  ProjectedCompletionDate : Option Int
  WorkdayStats : GoMap DateKey Workday

/-- The local variables that the loop over the workday map updates, together
with the workday map itself.  The map holds pointers to its records: an
assignment to a field of `wd` updates the record of the map under `dateKey`,
and `wdMap[dateKey] = wd` stores the pointer that is already there. -/
structure LoopState where
  availableWorkdays : Int
  totalDays : Int
  daysBadgedIn : Int
  flexDays : Int
  daysThusFar : Int
  holidayCount : Int
  vacationDays : Int
  wdMap : GoMap DateKey Workday

/-- The badge lookup that the loop body performs on a qualifying day:
`if entry, ok := badgeMap[dateKey]; ok && entry.IsBadgedIn { ... }`. -/
def badgeLookup (badgeMap : GoMap DateKey BadgeEntry) (dateKey : DateKey)
    (wd : Workday) (st : LoopState) : LoopState :=
  match badgeMap.get? dateKey with
  | none => st
  | some entry =>
    if entry.IsBadgedIn then
      if entry.IsFlexCredit then
        { st with
          daysBadgedIn := st.daysBadgedIn + 1
          flexDays := st.flexDays + 1
          wdMap := st.wdMap.set dateKey { wd with IsBadgedIn := true, IsFlexCredit := true } }
      else
        { st with
          daysBadgedIn := st.daysBadgedIn + 1
          wdMap := st.wdMap.set dateKey { wd with IsBadgedIn := true } }
    else st

/-- One round of `for dateKey, wd := range wdMap`. -/
def loopBody (now : Int) (badgeMap : GoMap DateKey BadgeEntry)
    (holidayMap : GoMap DateKey Holiday) (vacationMap : GoMap DateKey Vacation)
    (st : LoopState) (dateKey : DateKey) (wd : Workday) : LoopState :=
  if (holidayMap.get? dateKey).isSome then
    { st with
      holidayCount := st.holidayCount + 1
      availableWorkdays := st.availableWorkdays + 1
      wdMap := st.wdMap.set dateKey { wd with IsHoliday := true } }
  else
    let st := { st with availableWorkdays := st.availableWorkdays + 1 }
    if (vacationMap.get? dateKey).isSome then
      { st with
        vacationDays := st.vacationDays + 1
        wdMap := st.wdMap.set dateKey { wd with IsVacation := true } }
    else
      let st := { st with totalDays := st.totalDays + 1 }
      if wd.Date > now then badgeLookup badgeMap dateKey wd st
      else if wd.Date = now then badgeLookup badgeMap dateKey wd st
      else badgeLookup badgeMap dateKey wd { st with daysThusFar := st.daysThusFar + 1 }

/-- The state before the first round of the loop. -/
def initState (wdMap : GoMap DateKey Workday) : LoopState :=
  { availableWorkdays := 0, totalDays := 0, daysBadgedIn := 0, flexDays := 0,
    daysThusFar := 0, holidayCount := 0, vacationDays := 0, wdMap := wdMap }

/-- The loop `for dateKey, wd := range wdMap`, visiting `entries`. -/
def runLoop (now : Int) (badgeMap : GoMap DateKey BadgeEntry)
    (holidayMap : GoMap DateKey Holiday) (vacationMap : GoMap DateKey Vacation)
    (entries : List (DateKey × Workday)) (st : LoopState) : LoopState :=
  entries.foldl (fun st e => loopBody now badgeMap holidayMap vacationMap st e.1 e.2) st

/-- The compliance status of the counters; `periodEnd` and `today` are not read. -/
def determineComplianceStatus
    (daysBadgedIn daysRequired daysAheadOfPace daysStillNeeded daysLeft : Int)
    (_periodEnd _today : Int) : String :=
  if daysBadgedIn ≥ daysRequired then "Achieved"
  else if daysAheadOfPace = 0 ∧ daysBadgedIn = 0 then "On Track"
  else if daysStillNeeded > daysLeft then "Impossible"
  else if daysAheadOfPace < 0 then "At Risk"
  else "On Track"

/-- The part of `CalculatePeriodStats` after the loop: the derived figures.
The counters of the loop are bounded by the number of days of the period, so
their sums and differences are the exact ones, and `daysLeft - daysStillNeeded`
lies between `-maxInt64` and `daysLeft`.  `daysRequired - daysBadgedIn` and
`daysBadgedIn - expectedBadgeIns` involve a figure derived from the goal and
are taken at 64 bits. -/
def deriveStats (period : TimePeriod) (goalPct : Int) (now : Int)
    (totalCalendarDays : Int) (st : LoopState) : PeriodStats :=
  let daysLeft := st.totalDays - st.daysThusFar
  let daysRequired :=
    toInt (mathCeil (fdiv (fmul (float64 st.totalDays) (float64 goalPct)) 100))
  let daysStillNeeded :=
    if wrap64 (daysRequired - st.daysBadgedIn) < 0 then 0
    else wrap64 (daysRequired - st.daysBadgedIn)
  let daysOff := st.daysThusFar - st.daysBadgedIn
  let daysAheadOfPace :=
    if st.daysThusFar > 0 ∧ st.totalDays > 0 then
      wrap64 (st.daysBadgedIn -
        toInt (mathRound (fdiv (fmul (float64 st.daysThusFar) (float64 daysRequired))
          (float64 st.totalDays))))
    else 0
  let remainingMissable := daysLeft - daysStillNeeded
  let currentAverage :=
    if st.daysThusFar > 0 then fdiv (float64 st.daysBadgedIn) (float64 st.daysThusFar)
    else 0
  let requiredFutureAverage :=
    if daysLeft > 0 then fdiv (float64 daysStillNeeded) (float64 daysLeft) else 0
  let complianceStatus :=
    determineComplianceStatus st.daysBadgedIn daysRequired daysAheadOfPace
      daysStillNeeded daysLeft period.EndDate now
  let projectedDate : Option Int :=
    if st.daysBadgedIn > 0 ∧ st.daysThusFar > 0 ∧ daysStillNeeded > 0 then
      let rate := fdiv (float64 st.daysBadgedIn) (float64 st.daysThusFar)
      if rate > 0 then
        some (AddDate now (toInt (mathCeil (fdiv (float64 daysStillNeeded) rate))))
      else none
    else none
  { Name := period.Name
    StartDate := period.StartDate
    EndDate := period.EndDate
    DaysBadgedIn := st.daysBadgedIn
    FlexDays := st.flexDays
    DaysThusFar := st.daysThusFar
    DaysLeft := daysLeft
    TotalDays := st.totalDays
    AvailableWorkdays := st.availableWorkdays
    TotalCalendarDays := totalCalendarDays
    DaysRequired := daysRequired
    DaysStillNeeded := daysStillNeeded
    DaysOff := daysOff
    Holidays := st.holidayCount
    VacationDays := st.vacationDays
    DaysAheadOfPace := daysAheadOfPace
    RemainingMissableDays := remainingMissable
    CurrentAverage := currentAverage
    RequiredFutureAverage := requiredFutureAverage
    ComplianceStatus := complianceStatus
    ProjectedCompletionDate := projectedDate
    WorkdayStats := st.wdMap }

/-- Full statistics of a time period.  `today` is the optional override of the
reference date, `clock` the date that `time.Now()` reports.  The result is the
pair of Go: the statistics and the error, which is always `nil`. -/
def CalculatePeriodStats (period : TimePeriod) (badges : BadgeEntryData)
    (holidays : HolidayData) (vacations : VacationData) (goalPct : Int)
    (today : Option Int) (clock : Int) : PeriodStats × Option String :=
  let now := match today with
    | some t => t
    | none => clock
  let start := period.StartDate
  let stop := period.EndDate
  let wdMap := CreateWorkdayMap start stop
  let badgeMap := badges.GetBadgeMap start stop
  let holidayMap := holidays.GetHolidayMap
  let vacationMap := vacations.GetVacationMap
  let totalCalendarDays : Int := (dateRange start stop).foldl (fun n _ => n + 1) 0
  let st := runLoop now badgeMap holidayMap vacationMap wdMap (initState wdMap)
  (deriveStats period goalPct now totalCalendarDays st, none)

/-- Aggregate statistics across all time periods of a year: the statistics of
the synthetic period from the least start date to the greatest end date, named
"Year".  The result is the pair of Go; on an empty list both parts are `nil`. -/
def CalculateYearStats (periods : List TimePeriod) (badges : BadgeEntryData)
    (holidays : HolidayData) (vacations : VacationData) (goalPct : Int)
    (today : Option Int) (clock : Int) : Option PeriodStats × Option String :=
  match periods with
  | [] => (none, none)
  | first :: _ =>
    let bounds : Int × Int :=
      periods.foldl
        (fun se tp =>
          let start := if tp.StartDate < se.1 then tp.StartDate else se.1
          let stop := if tp.EndDate > se.2 then tp.EndDate else se.2
          (start, stop))
        (first.StartDate, first.EndDate)
    let syntheticTP : TimePeriod :=
      { Key := "Year", Name := "Year", StartDate := bounds.1, EndDate := bounds.2,
        StartDateRaw := formatDate bounds.1, EndDateRaw := formatDate bounds.2 }
    match CalculatePeriodStats syntheticTP badges holidays vacations goalPct today clock with
    | (_, some err) => (none, some err)
    | (stats, none) => (some { stats with Name := "Year" }, none)

/-! ## Predicates used to state the properties -/

/-- The date key is a key of the holiday map. -/
def isHolidayKey (holidayMap : GoMap DateKey Holiday) (k : DateKey) : Bool :=
  (holidayMap.get? k).isSome

/-- The date key is a key of the vacation map and not of the holiday map. -/
def isVacationKey (holidayMap : GoMap DateKey Holiday)
    (vacationMap : GoMap DateKey Vacation) (k : DateKey) : Bool :=
  !(holidayMap.get? k).isSome && (vacationMap.get? k).isSome

/-- The date key is a key of neither the holiday map nor the vacation map:
a weekday with such a key is a qualifying day. -/
def isQualifyingKey (holidayMap : GoMap DateKey Holiday)
    (vacationMap : GoMap DateKey Vacation) (k : DateKey) : Bool :=
  !(holidayMap.get? k).isSome && !(vacationMap.get? k).isSome

/-- The badge map holds an entry with `IsBadgedIn` under the date key. -/
def isBadgedKey (badgeMap : GoMap DateKey BadgeEntry) (k : DateKey) : Bool :=
  match badgeMap.get? k with
  | some entry => entry.IsBadgedIn
  | none => false

/-- The badge map holds an entry with `IsBadgedIn` and `IsFlexCredit` under the
date key. -/
def isFlexKey (badgeMap : GoMap DateKey BadgeEntry) (k : DateKey) : Bool :=
  match badgeMap.get? k with
  | some entry => entry.IsBadgedIn && entry.IsFlexCredit
  | none => false

/-- The reference date of a call: the override when present, else the clock. -/
def refDate (today : Option Int) (clock : Int) : Int :=
  match today with
  | some t => t
  | none => clock

/-! ## Concrete inputs -/

/-- A time period with its dates parsed, as `ParseDates` leaves it. -/
def parsedPeriod (key name : String) (start stop : Int) : TimePeriod :=
  { Key := key, Name := name, StartDateRaw := formatDate start, EndDateRaw := formatDate stop,
    StartDate := start, EndDate := stop }

/-- The badge entry `BadgeEntry{EntryDate: d, IsBadgedIn: true}` of the tests. -/
def badgedOn (d : Int) : BadgeEntry :=
  { EntryDate := formatDate d, DateTime := 0, Office := "", IsBadgedIn := true,
    IsFlexCredit := false }

/-- The weekend 2025-01-04 (Saturday) to 2025-01-05 (Sunday). -/
def weekendPeriod : TimePeriod := parsedPeriod "WE" "Weekend" (civil 2025 1 4) (civil 2025 1 5)

/-- The single day 2025-01-02, a Thursday. -/
def oneDayPeriod : TimePeriod := parsedPeriod "D1" "Thursday" (civil 2025 1 2) (civil 2025 1 2)

/-- Monday 2025-01-06 to Monday 2025-02-24: 36 weekdays. -/
def sevenWeekPeriod : TimePeriod :=
  parsedPeriod "P7" "Seven weeks" (civil 2025 1 6) (civil 2025 2 24)

/-- Badge-ins on 2025-01-06, 2025-01-07 and 2025-01-08. -/
def threeBadges : BadgeEntryData :=
  ((NewBadgeEntryData.Add (badgedOn (civil 2025 1 6))).Add (badgedOn (civil 2025 1 7))).Add
    (badgedOn (civil 2025 1 8))

/-- The first quarter of 2025, `makeQ1()` of the tests. -/
def q1Period : TimePeriod := parsedPeriod "Q1_2025" "Q1" (civil 2025 1 1) (civil 2025 3 31)

/-- The second quarter of 2025. -/
def q2Period : TimePeriod := parsedPeriod "Q2_2025" "Q2" (civil 2025 4 1) (civil 2025 6 30)

/-- The first half of 2025 as one period. -/
def halfYearPeriod : TimePeriod := parsedPeriod "H1_2025" "H1" (civil 2025 1 1) (civil 2025 6 30)

/-- The single holiday 2025-01-01. -/
def newYearHoliday : HolidayData :=
  { holidays := [{ Name := "New Year", Date := formatDate (civil 2025 1 1) }] }

/-- Monday 2025-01-06 to Wednesday 2025-01-08. -/
def threeDayPeriod : TimePeriod := parsedPeriod "P3" "Three days" (civil 2025 1 6) (civil 2025 1 8)

/-- A vacation from 2025-01-01 to 2025-01-03. -/
def newYearVacation : VacationData :=
  NewVacationData.Add
    { Destination := "Home", StartDate := formatDate (civil 2025 1 1),
      EndDate := formatDate (civil 2025 1 3), Approved := true }

/-! ## The records of the workday map after the loop -/

/-- The record of a weekday after its round of the loop: the flags that the
loop body sets on the record `wd` stored under the key `k`. -/
def visitedRecord (badgeMap : GoMap DateKey BadgeEntry) (holidayMap : GoMap DateKey Holiday)
    (vacationMap : GoMap DateKey Vacation) (k : DateKey) (wd : Workday) : Workday :=
  if isHolidayKey holidayMap k then { wd with IsHoliday := true }
  else if isVacationKey holidayMap vacationMap k then { wd with IsVacation := true }
  else if isFlexKey badgeMap k then { wd with IsBadgedIn := true, IsFlexCredit := true }
  else if isBadgedKey badgeMap k then { wd with IsBadgedIn := true }
  else wd

/-! ## Further concrete inputs -/

/-- A badge entry with the given flags, as the tests build them. -/
def badgeEntryOn (d : Int) (office : String) (badgedIn flexCredit : Bool) : BadgeEntry :=
  { EntryDate := formatDate d, DateTime := 0, Office := office, IsBadgedIn := badgedIn,
    IsFlexCredit := flexCredit }

/-- The badge entries of `TestFlexCreditCounting`, a badge-in on 2025-01-02 and
flex credits on 2025-01-03 and 2025-01-06, followed by an entry for 2025-01-07
that has the flex flag without the badged-in flag. -/
def flexBadges : BadgeEntryData :=
  (((NewBadgeEntryData.Add (badgeEntryOn (civil 2025 1 2) "HQ" true false)).Add
    (badgeEntryOn (civil 2025 1 3) "Flex" true true)).Add
    (badgeEntryOn (civil 2025 1 6) "Flex" true true)).Add
    (badgeEntryOn (civil 2025 1 7) "Flex" false true)

/-- Two stored entries for 2025-01-02: a badge-in at "HQ", then an entry for
"Home" without the badged-in flag. -/
def duplicateBadges : BadgeEntryData :=
  (NewBadgeEntryData.Add (badgeEntryOn (civil 2025 1 2) "HQ" true false)).Add
    (badgeEntryOn (civil 2025 1 2) "Home" false false)

/-- The vacation of `TestGetVacationMapExcludesWeekends`: Monday 2025-01-06 to
Sunday 2025-01-12. -/
def mountainsVacation : Vacation :=
  { Destination := "Mountains", StartDate := formatDate (civil 2025 1 6),
    EndDate := formatDate (civil 2025 1 12), Approved := false }

/-- The vacation of `TestGetVacationMapInvalidDates`: neither date parses. -/
def badVacation : Vacation :=
  { Destination := "Bad", StartDate := DateKey.raw "not-a-date",
    EndDate := DateKey.raw "also-bad", Approved := false }

/-- The badge entries of `TestWorkdayStatsMap`, preceded by a badge-in stored
for the holiday 2025-01-01. -/
def holidayBadges : BadgeEntryData :=
  (NewBadgeEntryData.Add (badgedOn (civil 2025 1 1))).Add (badgedOn (civil 2025 1 2))

/-- The vacation of `TestWorkdayStatsMap`: the single day 2025-01-06. -/
def mondayVacation : VacationData :=
  NewVacationData.Add
    { Destination := "A", StartDate := formatDate (civil 2025 1 6),
      EndDate := formatDate (civil 2025 1 6), Approved := false }

/-- The record of the holiday 2025-01-01: `IsHoliday` is its only flag. -/
def newYearRecord : Workday :=
  { Date := civil 2025 1 1, WorkDate := formatDate (civil 2025 1 1), IsWorkday := true,
    IsBadgedIn := false, IsFlexCredit := false, IsHoliday := true, IsVacation := false }

theorem bitLenAux_spec (fuel : Nat) : ∀ n : Nat, n ≤ fuel →
    n < 2 ^ bitLenAux fuel n ∧ (n ≠ 0 → 2 ^ (bitLenAux fuel n - 1) ≤ n) := by
  induction fuel with
  | zero =>
    intro n hn
    have h0 : n = 0 := by omega
    subst h0
    simp [bitLenAux]
  | succ k ih =>
    intro n hn
    by_cases h0 : n = 0
    · subst h0
      simp [bitLenAux]
    · have hle : n / 2 ≤ k := by omega
      obtain ⟨h1, h2⟩ := ih (n / 2) hle
      simp only [bitLenAux, h0, if_false]
      constructor
      · rw [pow_succ]
        omega
      · intro _
        simp only [Nat.add_sub_cancel]
        by_cases h3 : n / 2 = 0
        · have hb : bitLenAux k (n / 2) = 0 := by
            cases k with
            | zero => rfl
            | succ j => simp [bitLenAux, h3]
          rw [hb]
          simp
          omega
        · have h4 := h2 h3
          have hpos : 1 ≤ bitLenAux k (n / 2) := by
            cases k with
            | zero => omega
            | succ j => simp [bitLenAux, h3]
          have : bitLenAux k (n / 2) = (bitLenAux k (n / 2) - 1) + 1 := by omega
          rw [this, pow_succ]
          omega

theorem lt_two_pow_bitLen (n : Nat) : n < 2 ^ bitLen n :=
  (bitLenAux_spec n n le_rfl).1

theorem two_pow_bitLen_le (n : Nat) (h : n ≠ 0) : 2 ^ (bitLen n - 1) ≤ n :=
  (bitLenAux_spec n n le_rfl).2 h

theorem bitLen_pos (n : Nat) (h : n ≠ 0) : 1 ≤ bitLen n := by
  by_contra hc
  have h0 : bitLen n = 0 := by omega
  have := lt_two_pow_bitLen n
  rw [h0] at this
  omega

theorem two_zpow_binExp_le (x : ℚ) (hx : 0 < x) : (2 : ℚ) ^ binExp x ≤ x := by
  unfold binExp
  simp only
  split_ifs with h
  · exact h
  · have hnum : 0 < x.num := Rat.num_pos.mpr hx
    have hn0 : x.num.natAbs ≠ 0 := by
      intro hc
      have := Int.natAbs_eq_zero.mp hc
      omega
    have h1 := two_pow_bitLen_le x.num.natAbs hn0
    have h2 := lt_two_pow_bitLen x.den
    have hb := bitLen_pos x.num.natAbs hn0
    have hxeq : x = (x.num.natAbs : ℚ) / (x.den : ℚ) := by
      have hz : ((x.num.natAbs : ℕ) : ℤ) = x.num := Int.natAbs_of_nonneg hnum.le
      have : (x.num.natAbs : ℚ) = (x.num : ℚ) := by
        calc (x.num.natAbs : ℚ) = (((x.num.natAbs : ℕ) : ℤ) : ℚ) := (Int.cast_natCast _).symm
          _ = (x.num : ℚ) := by rw [hz]
      rw [this]
      exact (Rat.num_div_den x).symm
    have hdpos : (0 : ℚ) < (x.den : ℚ) := by exact_mod_cast x.den_pos
    have e1 : ((bitLen x.num.natAbs : ℤ) - (bitLen x.den : ℤ) - 1)
        = (((bitLen x.num.natAbs - 1 : ℕ) : ℤ)) - ((bitLen x.den : ℕ) : ℤ) := by
      omega
    rw [e1, zpow_sub₀ (by norm_num : (2 : ℚ) ≠ 0), zpow_natCast, zpow_natCast]
    have h1q : ((2 : ℚ) ^ (bitLen x.num.natAbs - 1)) ≤ (x.num.natAbs : ℚ) := by
      exact_mod_cast h1
    have h2q : (x.den : ℚ) ≤ (2 : ℚ) ^ (bitLen x.den) := by
      exact_mod_cast h2.le
    have hp : (0 : ℚ) < (2 : ℚ) ^ (bitLen x.den) := by positivity
    calc (2 : ℚ) ^ (bitLen x.num.natAbs - 1) / (2 : ℚ) ^ (bitLen x.den)
        ≤ (x.num.natAbs : ℚ) / (2 : ℚ) ^ (bitLen x.den) := by
          exact div_le_div_of_nonneg_right h1q hp.le
      _ ≤ (x.num.natAbs : ℚ) / (x.den : ℚ) := by
          exact div_le_div_of_nonneg_left (by positivity) hdpos h2q
      _ = x := hxeq.symm

theorem roundHalfEven_abs_sub_le (y : ℚ) : |(roundHalfEven y : ℚ) - y| ≤ 1 / 2 := by
  unfold roundHalfEven
  simp only
  have hf1 : ((⌊y⌋ : ℤ) : ℚ) ≤ y := Int.floor_le y
  have hf2 : y < ((⌊y⌋ : ℤ) : ℚ) + 1 := Int.lt_floor_add_one y
  rw [abs_le]
  split_ifs with h1 h2 h3
  · constructor <;> linarith
  · push_cast
    constructor <;> linarith
  · constructor <;> linarith
  · push_cast
    push_neg at h1 h2
    constructor <;> linarith

theorem roundHalfEven_intCast (n : ℤ) : roundHalfEven (n : ℚ) = n := by
  unfold roundHalfEven
  simp

theorem f64pos_abs_sub_le (x : ℚ) (hx : 0 < x) :
    |f64pos x - x| ≤ x * (2 : ℚ) ^ (-53 : ℤ) := by
  unfold f64pos
  simp only
  have hA := two_zpow_binExp_le x hx
  set e := binExp x with he
  set s : ℤ := 52 - e with hs
  have h2 : (2 : ℚ) ≠ 0 := by norm_num
  have hpos : (0 : ℚ) < (2 : ℚ) ^ (-s) := by positivity
  have hxe : x = (x * (2 : ℚ) ^ s) * (2 : ℚ) ^ (-s) := by
    rw [mul_assoc, ← zpow_add₀ h2]
    simp
  have hr := roundHalfEven_abs_sub_le (x * (2 : ℚ) ^ s)
  have key : (roundHalfEven (x * (2 : ℚ) ^ s) : ℚ) * (2 : ℚ) ^ (-s) - x
      = ((roundHalfEven (x * (2 : ℚ) ^ s) : ℚ) - x * (2 : ℚ) ^ s) * (2 : ℚ) ^ (-s) := by
    rw [sub_mul, ← hxe]
  rw [key, abs_mul, abs_of_pos hpos]
  have hstep : (2 : ℚ) ^ (-s) * (1 / 2) = (2 : ℚ) ^ e * (2 : ℚ) ^ (-53 : ℤ) := by
    rw [← zpow_add₀ h2]
    have : (1 / 2 : ℚ) = (2 : ℚ) ^ (-1 : ℤ) := by norm_num
    rw [this, ← zpow_add₀ h2]
    congr 1
    omega
  calc |(roundHalfEven (x * (2 : ℚ) ^ s) : ℚ) - x * (2 : ℚ) ^ s| * (2 : ℚ) ^ (-s)
      ≤ (1 / 2) * (2 : ℚ) ^ (-s) := by
        exact mul_le_mul_of_nonneg_right hr hpos.le
    _ = (2 : ℚ) ^ e * (2 : ℚ) ^ (-53 : ℤ) := by rw [mul_comm, hstep]
    _ ≤ x * (2 : ℚ) ^ (-53 : ℤ) := by
        exact mul_le_mul_of_nonneg_right hA (by positivity)

theorem f64pos_exact (m : ℕ) (k : ℤ) (hm0 : 0 < m) (hm : m < 2 ^ 53) :
    f64pos ((m : ℚ) * (2 : ℚ) ^ k) = (m : ℚ) * (2 : ℚ) ^ k := by
  have h2 : (2 : ℚ) ≠ 0 := by norm_num
  have hx : (0 : ℚ) < (m : ℚ) * (2 : ℚ) ^ k := by positivity
  have hA := two_zpow_binExp_le _ hx
  unfold f64pos
  simp only
  set e := binExp ((m : ℚ) * (2 : ℚ) ^ k) with he
  have hlt : (2 : ℚ) ^ e < (2 : ℚ) ^ (53 + k) := by
    have hmq : (m : ℚ) < (2 : ℚ) ^ (53 : ℤ) := by
      have : (m : ℚ) < ((2 ^ 53 : ℕ) : ℚ) := Nat.cast_lt.mpr hm
      rw [Nat.cast_pow] at this
      exact_mod_cast this
    calc (2 : ℚ) ^ e ≤ (m : ℚ) * (2 : ℚ) ^ k := hA
      _ < (2 : ℚ) ^ (53 : ℤ) * (2 : ℚ) ^ k := by
          exact mul_lt_mul_of_pos_right hmq (by positivity)
      _ = (2 : ℚ) ^ (53 + k) := by rw [← zpow_add₀ h2]
  have helt : e < 53 + k := (zpow_lt_zpow_iff_right₀ (by norm_num : (1 : ℚ) < 2)).mp hlt
  obtain ⟨j, hj⟩ : ∃ j : ℕ, (j : ℤ) = k + (52 - e) := ⟨(k + (52 - e)).toNat, by omega⟩
  have hy : (m : ℚ) * (2 : ℚ) ^ k * (2 : ℚ) ^ (52 - e) = (((m * 2 ^ j : ℕ) : ℤ) : ℚ) := by
    rw [mul_assoc, ← zpow_add₀ h2, ← hj, zpow_natCast]
    push_cast
    rfl
  rw [hy, roundHalfEven_intCast, ← hy, mul_assoc, mul_assoc, ← zpow_add₀ h2, ← zpow_add₀ h2]
  congr 2
  omega

theorem f64_zero : f64 0 = 0 := by
  simp [f64]

theorem f64_neg (x : ℚ) : f64 (-x) = -f64 x := by
  unfold f64
  rcases lt_trichotomy x 0 with h | h | h
  · have h1 : ¬ (-x = 0) := by intro hc; linarith [neg_eq_zero.mp hc]
    have h2 : (0 : ℚ) < -x := by linarith
    have h3 : ¬ (x = 0) := ne_of_lt h
    have h4 : ¬ (0 < x) := not_lt.mpr h.le
    simp [h1, h2, h3, h4]
  · subst h
    simp
  · have h1 : ¬ (-x = 0) := by intro hc; linarith [neg_eq_zero.mp hc]
    have h2 : ¬ (0 : ℚ) < -x := by linarith
    have h3 : ¬ (x = 0) := ne_of_gt h
    simp [h1, h2, h3, h]

theorem f64_of_pos (x : ℚ) (hx : 0 < x) : f64 x = f64pos x := by
  unfold f64
  simp [ne_of_gt hx, hx]

theorem f64_abs_sub_le (x : ℚ) : |f64 x - x| ≤ |x| * (2 : ℚ) ^ (-53 : ℤ) := by
  rcases lt_trichotomy x 0 with h | h | h
  · have hneg : (0 : ℚ) < -x := by linarith
    have h1 := f64pos_abs_sub_le (-x) hneg
    have h2 : f64 x = -f64pos (-x) := by
      have := f64_neg (-x)
      rw [neg_neg] at this
      rw [this, f64_of_pos _ hneg]
    rw [h2, abs_of_neg h]
    have : -f64pos (-x) - x = -(f64pos (-x) - -x) := by ring
    rw [this, abs_neg]
    exact h1
  · subst h
    simp [f64_zero]
  · rw [f64_of_pos x h, abs_of_pos h]
    exact f64pos_abs_sub_le x h

theorem f64_lower (x : ℚ) (hx : 0 ≤ x) : x * (1 - (2 : ℚ) ^ (-53 : ℤ)) ≤ f64 x := by
  have h := f64_abs_sub_le x
  rw [abs_of_nonneg hx, abs_le] at h
  linarith [h.1]

theorem f64_upper (x : ℚ) (hx : 0 ≤ x) : f64 x ≤ x * (1 + (2 : ℚ) ^ (-53 : ℤ)) := by
  have h := f64_abs_sub_le x
  rw [abs_of_nonneg hx, abs_le] at h
  linarith [h.2]

theorem f64_pos (x : ℚ) (hx : 0 < x) : 0 < f64 x := by
  have h := f64_lower x hx.le
  have hu : (0 : ℚ) < 1 - (2 : ℚ) ^ (-53 : ℤ) := by norm_num
  have : 0 < x * (1 - (2 : ℚ) ^ (-53 : ℤ)) := mul_pos hx hu
  linarith

theorem f64_nonneg (x : ℚ) (hx : 0 ≤ x) : 0 ≤ f64 x := by
  rcases eq_or_lt_of_le hx with h | h
  · rw [← h, f64_zero]
  · exact (f64_pos x h).le

theorem f64_natCast (m : ℕ) (hm : m < 2 ^ 53) : f64 (m : ℚ) = (m : ℚ) := by
  rcases Nat.eq_zero_or_pos m with h | h
  · subst h
    simp [f64_zero]
  · have hx : (0 : ℚ) < (m : ℚ) := by exact_mod_cast h
    rw [f64_of_pos _ hx]
    have := f64pos_exact m 0 h hm
    simpa using this

theorem float64_exact (n : ℤ) (h1 : -(2 : ℤ) ^ 53 < n) (h2 : n < (2 : ℤ) ^ 53) :
    float64 n = (n : ℚ) := by
  unfold float64
  rcases le_or_lt 0 n with h | h
  · obtain ⟨m, rfl⟩ := Int.eq_ofNat_of_zero_le h
    have hm : m < 2 ^ 53 := by exact_mod_cast h2
    simpa using f64_natCast m hm
  · obtain ⟨m, hm⟩ := Int.eq_ofNat_of_zero_le (by omega : 0 ≤ -n)
    have hn : n = -(m : ℤ) := by omega
    subst hn
    have hm2 : m < 2 ^ 53 := by
      have : (m : ℤ) < (2 : ℤ) ^ 53 := by omega
      exact_mod_cast this
    push_cast
    rw [f64_neg, f64_natCast m hm2]

/-! ## Lemmas on the loop over the workday map -/

theorem badgeLookup_fields (bm : GoMap DateKey BadgeEntry) (k : DateKey) (wd : Workday)
    (st : LoopState) :
    (badgeLookup bm k wd st).availableWorkdays = st.availableWorkdays ∧
    (badgeLookup bm k wd st).totalDays = st.totalDays ∧
    (badgeLookup bm k wd st).daysThusFar = st.daysThusFar ∧
    (badgeLookup bm k wd st).holidayCount = st.holidayCount ∧
    (badgeLookup bm k wd st).vacationDays = st.vacationDays ∧
    (badgeLookup bm k wd st).daysBadgedIn
      = st.daysBadgedIn + (if isBadgedKey bm k then 1 else 0) ∧
    (badgeLookup bm k wd st).flexDays = st.flexDays + (if isFlexKey bm k then 1 else 0) := by
  unfold badgeLookup isBadgedKey isFlexKey
  cases hb : GoMap.get? bm k with
  | none => simp
  | some entry =>
    cases h1 : entry.IsBadgedIn <;> cases h2 : entry.IsFlexCredit <;> simp [h1, h2]

theorem loopBody_fields (now : Int) (bm : GoMap DateKey BadgeEntry)
    (hm : GoMap DateKey Holiday) (vm : GoMap DateKey Vacation)
    (st : LoopState) (k : DateKey) (wd : Workday) :
    (loopBody now bm hm vm st k wd).availableWorkdays = st.availableWorkdays + 1 ∧
    (loopBody now bm hm vm st k wd).holidayCount
      = st.holidayCount + (if isHolidayKey hm k then 1 else 0) ∧
    (loopBody now bm hm vm st k wd).vacationDays
      = st.vacationDays + (if isVacationKey hm vm k then 1 else 0) ∧
    (loopBody now bm hm vm st k wd).totalDays
      = st.totalDays + (if isQualifyingKey hm vm k then 1 else 0) ∧
    (loopBody now bm hm vm st k wd).daysThusFar
      = st.daysThusFar + (if isQualifyingKey hm vm k && decide (wd.Date < now) then 1 else 0) ∧
    (loopBody now bm hm vm st k wd).daysBadgedIn
      = st.daysBadgedIn + (if isQualifyingKey hm vm k && isBadgedKey bm k then 1 else 0) ∧
    (loopBody now bm hm vm st k wd).flexDays
      = st.flexDays + (if isQualifyingKey hm vm k && isFlexKey bm k then 1 else 0) := by
  unfold loopBody isHolidayKey isVacationKey isQualifyingKey
  by_cases hh : (GoMap.get? hm k).isSome = true
  · simp [hh]
  · by_cases hv : (GoMap.get? vm k).isSome = true
    · simp [hh, hv]
    · simp only [hh, hv, if_false, Bool.not_false, Bool.and_self, Bool.true_and,
        Bool.false_eq_true, Bool.not_true, Bool.and_false]
      by_cases h1 : wd.Date > now
      · have h1' : ¬ wd.Date < now := by omega
        obtain ⟨a1, a2, a3, a4, a5, a6, a7⟩ :=
          badgeLookup_fields bm k wd
            { st with availableWorkdays := st.availableWorkdays + 1,
                      totalDays := st.totalDays + 1 }
        simp [h1, h1', a1, a2, a3, a4, a5, a6, a7]
      · by_cases h2 : wd.Date = now
        · have h1' : ¬ wd.Date < now := by omega
          obtain ⟨a1, a2, a3, a4, a5, a6, a7⟩ :=
            badgeLookup_fields bm k wd
              { st with availableWorkdays := st.availableWorkdays + 1,
                        totalDays := st.totalDays + 1 }
          simp [h1, h2, a1, a2, a3, a4, a5, a6, a7]
        · have h1' : wd.Date < now := by omega
          obtain ⟨a1, a2, a3, a4, a5, a6, a7⟩ :=
            badgeLookup_fields bm k wd
              { st with availableWorkdays := st.availableWorkdays + 1,
                        totalDays := st.totalDays + 1,
                        daysThusFar := st.daysThusFar + 1 }
          simp [h1, h2, h1', a1, a2, a3, a4, a5, a6, a7]

theorem runLoop_nil (now : Int) (bm : GoMap DateKey BadgeEntry)
    (hm : GoMap DateKey Holiday) (vm : GoMap DateKey Vacation) (st : LoopState) :
    runLoop now bm hm vm [] st = st := rfl

theorem runLoop_cons (now : Int) (bm : GoMap DateKey BadgeEntry)
    (hm : GoMap DateKey Holiday) (vm : GoMap DateKey Vacation) (st : LoopState)
    (e : DateKey × Workday) (es : List (DateKey × Workday)) :
    runLoop now bm hm vm (e :: es) st
      = runLoop now bm hm vm es (loopBody now bm hm vm st e.1 e.2) := rfl

theorem runLoop_fields (now : Int) (bm : GoMap DateKey BadgeEntry)
    (hm : GoMap DateKey Holiday) (vm : GoMap DateKey Vacation)
    (es : List (DateKey × Workday)) : ∀ st : LoopState,
    (runLoop now bm hm vm es st).availableWorkdays = st.availableWorkdays + (es.length : Int) ∧
    (runLoop now bm hm vm es st).holidayCount
      = st.holidayCount + ((es.countP (fun e => isHolidayKey hm e.1) : Nat) : Int) ∧
    (runLoop now bm hm vm es st).vacationDays
      = st.vacationDays + ((es.countP (fun e => isVacationKey hm vm e.1) : Nat) : Int) ∧
    (runLoop now bm hm vm es st).totalDays
      = st.totalDays + ((es.countP (fun e => isQualifyingKey hm vm e.1) : Nat) : Int) ∧
    (runLoop now bm hm vm es st).daysThusFar
      = st.daysThusFar
        + ((es.countP (fun e => isQualifyingKey hm vm e.1 && decide (e.2.Date < now)) : Nat) : Int) ∧
    (runLoop now bm hm vm es st).daysBadgedIn
      = st.daysBadgedIn
        + ((es.countP (fun e => isQualifyingKey hm vm e.1 && isBadgedKey bm e.1) : Nat) : Int) ∧
    (runLoop now bm hm vm es st).flexDays
      = st.flexDays
        + ((es.countP (fun e => isQualifyingKey hm vm e.1 && isFlexKey bm e.1) : Nat) : Int) := by
  induction es with
  | nil =>
    intro st
    simp [runLoop_nil]
  | cons e es ih =>
    intro st
    obtain ⟨b1, b2, b3, b4, b5, b6, b7⟩ := loopBody_fields now bm hm vm st e.1 e.2
    obtain ⟨c1, c2, c3, c4, c5, c6, c7⟩ := ih (loopBody now bm hm vm st e.1 e.2)
    rw [runLoop_cons]
    simp only [List.countP_cons, List.length_cons]
    refine ⟨?_, ?_, ?_, ?_, ?_, ?_, ?_⟩
    · rw [c1, b1]; push_cast; ring
    · rw [c2, b2]; split_ifs <;> push_cast <;> ring
    · rw [c3, b3]; split_ifs <;> push_cast <;> ring
    · rw [c4, b4]; split_ifs <;> push_cast <;> ring
    · rw [c5, b5]; split_ifs <;> push_cast <;> ring
    · rw [c6, b6]; split_ifs <;> push_cast <;> ring
    · rw [c7, b7]; split_ifs <;> push_cast <;> ring

/-! ## Lemmas on the workday calendar -/

theorem GoMap.set_fresh {α β : Type} [DecidableEq α] (m : GoMap α β) (k : α) (v : β)
    (h : ∀ e ∈ m, e.1 ≠ k) : GoMap.set m k v = m ++ [(k, v)] := by
  induction m with
  | nil => rfl
  | cons e m ih =>
    obtain ⟨k1, v1⟩ := e
    have h1 : k1 ≠ k := h (k1, v1) (List.mem_cons_self _ _)
    have h2 : ∀ e ∈ m, e.1 ≠ k := fun e he => h e (List.mem_cons_of_mem _ he)
    simp [GoMap.set, h1, ih h2]

theorem mem_daysFrom (n : Nat) : ∀ (s d : Int), d ∈ daysFrom s n ↔ s ≤ d ∧ d < s + n := by
  induction n with
  | zero =>
    intro s d
    simp only [daysFrom, List.not_mem_nil, false_iff]
    push_cast
    omega
  | succ n ih =>
    intro s d
    simp only [daysFrom, List.mem_cons, ih]
    push_cast
    omega

theorem nodup_daysFrom (n : Nat) : ∀ s : Int, (daysFrom s n).Nodup := by
  induction n with
  | zero => intro s; simp [daysFrom]
  | succ n ih =>
    intro s
    simp only [daysFrom, List.nodup_cons]
    refine ⟨?_, ih (s + 1)⟩
    rw [mem_daysFrom]
    omega

theorem length_daysFrom (n : Nat) : ∀ s : Int, (daysFrom s n).length = n := by
  induction n with
  | zero => intro s; rfl
  | succ n ih => intro s; simp [daysFrom, ih]

theorem mem_dateRange (s e d : Int) : d ∈ dateRange s e ↔ s ≤ d ∧ d ≤ e := by
  unfold dateRange
  rw [mem_daysFrom]
  omega

theorem nodup_dateRange (s e : Int) : (dateRange s e).Nodup :=
  nodup_daysFrom _ _

theorem length_dateRange (s e : Int) : (dateRange s e).length = (e - s + 1).toNat :=
  length_daysFrom _ _

theorem toFinset_dateRange (s e : Int) : (dateRange s e).toFinset = Finset.Icc s e := by
  ext d
  simp [mem_dateRange]

theorem IsWeekday_iff (d : Int) : IsWeekday d = true ↔ 1 ≤ weekday d ∧ weekday d ≤ 5 := by
  unfold IsWeekday weekday
  simp only [Bool.and_eq_true, bne_iff_ne, ne_eq]
  omega

theorem createWorkdayMap_fold (ds : List Int) : ∀ acc : GoMap DateKey Workday,
    ds.Nodup → (∀ d ∈ ds, ∀ e ∈ acc, e.1 ≠ formatDate d) →
    ds.foldl
      (fun m d =>
        if !IsWeekday d then m
        else
          let key := formatDate d
          GoMap.set m key
            { Date := d, WorkDate := key, IsWorkday := true, IsBadgedIn := false,
              IsFlexCredit := false, IsHoliday := false, IsVacation := false })
      acc
    = acc ++ (ds.filter (fun d => IsWeekday d)).map
        (fun d => (formatDate d,
          { Date := d, WorkDate := formatDate d, IsWorkday := true, IsBadgedIn := false,
            IsFlexCredit := false, IsHoliday := false, IsVacation := false })) := by
  induction ds with
  | nil => intro acc _ _; simp
  | cons d ds ih =>
    intro acc hnd hfresh
    have hnd1 : d ∉ ds := (List.nodup_cons.mp hnd).1
    have hnd2 : ds.Nodup := (List.nodup_cons.mp hnd).2
    simp only [List.foldl_cons]
    by_cases hw : IsWeekday d = true
    · have hset := GoMap.set_fresh acc (formatDate d)
        { Date := d, WorkDate := formatDate d, IsWorkday := true, IsBadgedIn := false,
          IsFlexCredit := false, IsHoliday := false, IsVacation := false }
        (fun e he => hfresh d (List.mem_cons_self _ _) e he)
      simp only [hw, Bool.not_true, Bool.false_eq_true, if_false]
      rw [hset, ih _ hnd2]
      · simp [List.filter_cons, hw]
      · intro d1 hd1 e he
        rcases List.mem_append.mp he with h | h
        · exact hfresh d1 (List.mem_cons_of_mem _ hd1) e h
        · simp only [List.mem_singleton] at h
          subst h
          simp only [formatDate, ne_eq, DateKey.ymd.injEq]
          intro hc
          exact hnd1 (hc ▸ hd1)
    · have hw1 : IsWeekday d = false := by simpa using hw
      simp only [hw1, Bool.not_false, if_true]
      rw [ih _ hnd2 (fun d1 hd1 e he => hfresh d1 (List.mem_cons_of_mem _ hd1) e he)]
      simp [List.filter_cons, hw1]

theorem CreateWorkdayMap_eq (s e : Int) :
    CreateWorkdayMap s e
      = ((dateRange s e).filter (fun d => IsWeekday d)).map
        (fun d => (formatDate d,
          { Date := d, WorkDate := formatDate d, IsWorkday := true, IsBadgedIn := false,
            IsFlexCredit := false, IsHoliday := false, IsVacation := false })) := by
  unfold CreateWorkdayMap
  rw [createWorkdayMap_fold _ [] (nodup_dateRange s e) (by simp)]
  simp

theorem length_CreateWorkdayMap (s e : Int) :
    (CreateWorkdayMap s e).length
      = ((Finset.Icc s e).filter (fun d => 1 ≤ weekday d ∧ weekday d ≤ 5)).card := by
  rw [CreateWorkdayMap_eq, List.length_map, ← toFinset_dateRange,
    ← List.toFinset_card_of_nodup ((nodup_dateRange s e).filter _), List.toFinset_filter]
  congr 1
  ext d
  simp [IsWeekday_iff]

theorem foldl_count (ds : List Int) : ∀ n : Int,
    ds.foldl (fun n _ => n + 1) n = n + (ds.length : Int) := by
  induction ds with
  | nil => intro n; simp
  | cons d ds ih =>
    intro n
    simp only [List.foldl_cons, ih, List.length_cons]
    push_cast
    ring

theorem countP_CreateWorkdayMap (s e : Int) (P : DateKey → Int → Bool) :
    (CreateWorkdayMap s e).countP (fun en => P en.1 en.2.Date)
      = ((Finset.Icc s e).filter
          (fun d => (1 ≤ weekday d ∧ weekday d ≤ 5) ∧ P (formatDate d) d = true)).card := by
  rw [CreateWorkdayMap_eq, List.countP_map, List.countP_eq_length_filter, List.filter_filter,
    ← toFinset_dateRange, ← List.toFinset_card_of_nodup ((nodup_dateRange s e).filter _),
    List.toFinset_filter]
  congr 1
  ext d
  simp [IsWeekday_iff, and_comm]

theorem CalculatePeriodStats_fst (p : TimePeriod) (b : BadgeEntryData) (h : HolidayData)
    (v : VacationData) (g : Int) (today : Option Int) (clock : Int) :
    (CalculatePeriodStats p b h v g today clock).1
      = deriveStats p g (refDate today clock)
          ((dateRange p.StartDate p.EndDate).foldl (fun n _ => n + 1) 0)
          (runLoop (refDate today clock) (b.GetBadgeMap p.StartDate p.EndDate)
            h.GetHolidayMap v.GetVacationMap (CreateWorkdayMap p.StartDate p.EndDate)
            (initState (CreateWorkdayMap p.StartDate p.EndDate))) := by
  cases today <;> rfl

/-! ## Claims -/

/-- C1: `determineComplianceStatus` does not read `periodEnd` and `today`, and
returns "Achieved" if `badgedIn ≥ required`; otherwise "On Track" if
`aheadOfPace = 0` and `badgedIn = 0`; otherwise "Impossible" if
`stillNeeded > daysLeft`; otherwise "At Risk" if `aheadOfPace < 0`; otherwise
"On Track". -/
theorem C1_determineComplianceStatus_precedence
    (badgedIn required aheadOfPace stillNeeded daysLeft periodEnd today : Int) :
    determineComplianceStatus badgedIn required aheadOfPace stillNeeded daysLeft
        periodEnd today
      = (if badgedIn ≥ required then "Achieved"
         else if aheadOfPace = 0 ∧ badgedIn = 0 then "On Track"
         else if stillNeeded > daysLeft then "Impossible"
         else if aheadOfPace < 0 then "At Risk"
         else "On Track") := by
  unfold determineComplianceStatus
  rfl

theorem deriveStats_achieved_iff (p : TimePeriod) (g now tc : Int) (st : LoopState) :
    (deriveStats p g now tc st).ComplianceStatus = "Achieved" ↔
      (deriveStats p g now tc st).DaysBadgedIn ≥ (deriveStats p g now tc st).DaysRequired := by
  simp only [deriveStats, determineComplianceStatus]
  constructor
  · intro h
    by_contra hc
    rw [if_neg hc] at h
    split_ifs at h <;> exact absurd h (by decide)
  · intro h
    rw [if_pos h]

theorem initState_fields (m : GoMap DateKey Workday) :
    (initState m).availableWorkdays = 0 ∧ (initState m).holidayCount = 0 ∧
    (initState m).vacationDays = 0 ∧ (initState m).totalDays = 0 ∧
    (initState m).daysThusFar = 0 ∧ (initState m).daysBadgedIn = 0 ∧
    (initState m).flexDays = 0 := by
  simp [initState]

theorem countP_partition3 {α : Type} (es : List α) (p q r : α → Bool)
    (h : ∀ a, (p a = true ∧ q a = false ∧ r a = false) ∨ (p a = false ∧ q a = true ∧ r a = false)
      ∨ (p a = false ∧ q a = false ∧ r a = true)) :
    es.length = es.countP p + es.countP q + es.countP r := by
  induction es with
  | nil => simp
  | cons a es ih =>
    simp only [List.length_cons, List.countP_cons]
    rcases h a with ⟨h1, h2, h3⟩ | ⟨h1, h2, h3⟩ | ⟨h1, h2, h3⟩ <;> simp [h1, h2, h3] <;> omega

theorem key_trichotomy (hm : GoMap DateKey Holiday) (vm : GoMap DateKey Vacation) (k : DateKey) :
    (isHolidayKey hm k = true ∧ isVacationKey hm vm k = false ∧ isQualifyingKey hm vm k = false)
    ∨ (isHolidayKey hm k = false ∧ isVacationKey hm vm k = true ∧ isQualifyingKey hm vm k = false)
    ∨ (isHolidayKey hm k = false ∧ isVacationKey hm vm k = false
        ∧ isQualifyingKey hm vm k = true) := by
  unfold isHolidayKey isVacationKey isQualifyingKey
  cases (GoMap.get? hm k).isSome <;> cases (GoMap.get? vm k).isSome <;> simp

/-- C7: the result of `CalculatePeriodStats` satisfies
`TotalDays = AvailableWorkdays - Holidays - VacationDays`, and `TotalDays` is the
number of the weekdays of the period whose date key is neither a key of the
holiday map nor a key of the vacation map. -/
theorem C7_totalDays_is_available_minus_off (p : TimePeriod) (b : BadgeEntryData)
    (h : HolidayData) (v : VacationData) (g : Int) (today : Option Int) (clock : Int) :
    (CalculatePeriodStats p b h v g today clock).1.TotalDays
      = (CalculatePeriodStats p b h v g today clock).1.AvailableWorkdays
        - (CalculatePeriodStats p b h v g today clock).1.Holidays
        - (CalculatePeriodStats p b h v g today clock).1.VacationDays ∧
    (CalculatePeriodStats p b h v g today clock).1.TotalDays
      = (((Finset.Icc p.StartDate p.EndDate).filter
          (fun d => (1 ≤ weekday d ∧ weekday d ≤ 5) ∧
            isQualifyingKey h.GetHolidayMap v.GetVacationMap (formatDate d) = true)).card : Int) := by
  rw [CalculatePeriodStats_fst]
  simp only [deriveStats]
  obtain ⟨c1, c2, c3, c4, -, -, -⟩ :=
    runLoop_fields (refDate today clock) (b.GetBadgeMap p.StartDate p.EndDate)
      h.GetHolidayMap v.GetVacationMap (CreateWorkdayMap p.StartDate p.EndDate)
      (initState (CreateWorkdayMap p.StartDate p.EndDate))
  obtain ⟨i1, i2, i3, i4, -, -, -⟩ := initState_fields (CreateWorkdayMap p.StartDate p.EndDate)
  constructor
  · rw [c1, c2, c3, c4, i1, i2, i3, i4]
    have hpart := countP_partition3 (CreateWorkdayMap p.StartDate p.EndDate)
      (fun e => isHolidayKey h.GetHolidayMap e.1)
      (fun e => isVacationKey h.GetHolidayMap v.GetVacationMap e.1)
      (fun e => isQualifyingKey h.GetHolidayMap v.GetVacationMap e.1)
      (fun e => key_trichotomy _ _ e.1)
    omega
  · rw [c4, i4, zero_add]
    have := countP_CreateWorkdayMap p.StartDate p.EndDate
      (fun k _ => isQualifyingKey h.GetHolidayMap v.GetVacationMap k)
    rw [this]

/-- C8: `TotalCalendarDays` is the inclusive number of calendar days from the
start to the end of the period (`0` when the start is after the end), and
`AvailableWorkdays` is the number of Monday to Friday dates in the period,
whatever the holidays, vacations and badges. -/
theorem C8_calendar_and_available_days (p : TimePeriod) (b : BadgeEntryData)
    (h : HolidayData) (v : VacationData) (g : Int) (today : Option Int) (clock : Int) :
    (CalculatePeriodStats p b h v g today clock).1.TotalCalendarDays
      = (if p.StartDate > p.EndDate then 0 else p.EndDate - p.StartDate + 1) ∧
    (CalculatePeriodStats p b h v g today clock).1.TotalCalendarDays
      = ((Finset.Icc p.StartDate p.EndDate).card : Int) ∧
    (CalculatePeriodStats p b h v g today clock).1.AvailableWorkdays
      = (((Finset.Icc p.StartDate p.EndDate).filter
          (fun d => 1 ≤ weekday d ∧ weekday d ≤ 5)).card : Int) := by
  rw [CalculatePeriodStats_fst]
  simp only [deriveStats]
  obtain ⟨c1, -⟩ :=
    runLoop_fields (refDate today clock) (b.GetBadgeMap p.StartDate p.EndDate)
      h.GetHolidayMap v.GetVacationMap (CreateWorkdayMap p.StartDate p.EndDate)
      (initState (CreateWorkdayMap p.StartDate p.EndDate))
  obtain ⟨i1, -⟩ := initState_fields (CreateWorkdayMap p.StartDate p.EndDate)
  refine ⟨?_, ?_, ?_⟩
  · rw [foldl_count, length_dateRange]
    split_ifs with hc <;> omega
  · rw [foldl_count, length_dateRange, Int.card_Icc]
    omega
  · rw [c1, i1, zero_add, length_CreateWorkdayMap]

theorem GetBadgeMap_empty (s e : Int) : NewBadgeEntryData.GetBadgeMap s e = [] := rfl

theorem isBadgedKey_nil (k : DateKey) : isBadgedKey [] k = false := rfl

/-- C4 (amended): with an empty badge collection and `today` equal to the start
date of the period, `CalculatePeriodStats` returns `DaysBadgedIn = 0` and
`DaysThusFar = 0`; the status is "On Track" when `DaysRequired` is positive and
"Achieved" when `DaysRequired ≤ 0`. -/
theorem C4_no_badges_at_period_start (p : TimePeriod) (h : HolidayData) (v : VacationData)
    (g : Int) (clock : Int) :
    (CalculatePeriodStats p NewBadgeEntryData h v g (some p.StartDate) clock).1.DaysBadgedIn = 0 ∧
    (CalculatePeriodStats p NewBadgeEntryData h v g (some p.StartDate) clock).1.DaysThusFar = 0 ∧
    (CalculatePeriodStats p NewBadgeEntryData h v g (some p.StartDate) clock).1.ComplianceStatus
      = (if (CalculatePeriodStats p NewBadgeEntryData h v g (some p.StartDate) clock).1.DaysRequired
            ≤ 0 then "Achieved" else "On Track") := by
  rw [CalculatePeriodStats_fst]
  obtain ⟨-, -, -, -, c5, c6, -⟩ :=
    runLoop_fields (refDate (some p.StartDate) clock)
      (NewBadgeEntryData.GetBadgeMap p.StartDate p.EndDate)
      h.GetHolidayMap v.GetVacationMap (CreateWorkdayMap p.StartDate p.EndDate)
      (initState (CreateWorkdayMap p.StartDate p.EndDate))
  obtain ⟨-, -, -, -, i5, i6, -⟩ := initState_fields (CreateWorkdayMap p.StartDate p.EndDate)
  have hB : (runLoop (refDate (some p.StartDate) clock)
      (NewBadgeEntryData.GetBadgeMap p.StartDate p.EndDate)
      h.GetHolidayMap v.GetVacationMap (CreateWorkdayMap p.StartDate p.EndDate)
      (initState (CreateWorkdayMap p.StartDate p.EndDate))).daysBadgedIn = 0 := by
    rw [c6, i6, GetBadgeMap_empty]
    simp [isBadgedKey_nil]
  have hT : (runLoop (refDate (some p.StartDate) clock)
      (NewBadgeEntryData.GetBadgeMap p.StartDate p.EndDate)
      h.GetHolidayMap v.GetVacationMap (CreateWorkdayMap p.StartDate p.EndDate)
      (initState (CreateWorkdayMap p.StartDate p.EndDate))).daysThusFar = 0 := by
    rw [c5, i5, zero_add]
    have := countP_CreateWorkdayMap p.StartDate p.EndDate
      (fun k d => isQualifyingKey h.GetHolidayMap v.GetVacationMap k
        && decide (d < refDate (some p.StartDate) clock))
    rw [this]
    have hempty : (Finset.Icc p.StartDate p.EndDate).filter
        (fun d => (1 ≤ weekday d ∧ weekday d ≤ 5) ∧
          (isQualifyingKey h.GetHolidayMap v.GetVacationMap (formatDate d)
            && decide (d < refDate (some p.StartDate) clock)) = true) = ∅ := by
      rw [Finset.filter_eq_empty_iff]
      intro d hd
      rw [Finset.mem_Icc] at hd
      simp only [refDate, Bool.and_eq_true, decide_eq_true_eq, not_and, not_lt]
      intro _ _
      exact hd.1
    rw [hempty]
    simp
  simp only [deriveStats, determineComplianceStatus]
  rw [hB, hT]
  refine ⟨rfl, rfl, ?_⟩
  simp only [gt_iff_lt, lt_self_iff_false, false_and, if_false, and_self, if_true, ge_iff_le]

/-! ## Lemmas on the derived figures -/

theorem f64_nonpos (x : ℚ) (hx : x ≤ 0) : f64 x ≤ 0 := by
  have h := f64_nonneg (-x) (by linarith)
  rw [f64_neg] at h
  linarith

theorem truncInt_intCast (n : ℤ) : truncInt (n : ℚ) = n := by
  unfold truncInt
  split_ifs <;> simp

theorem truncInt_mathCeil (x : ℚ) : truncInt (mathCeil x) = ⌈x⌉ := by
  unfold mathCeil
  exact truncInt_intCast _

theorem truncInt_mathRound_of_nonneg (x : ℚ) (hx : 0 ≤ x) :
    truncInt (mathRound x) = ⌊x + 1 / 2⌋ := by
  unfold mathRound
  rw [if_pos hx]
  exact truncInt_intCast _

theorem wrap64_of_range (n : ℤ) (h1 : minInt64 ≤ n) (h2 : n ≤ maxInt64) : wrap64 n = n := by
  unfold wrap64
  unfold minInt64 at h1
  unfold maxInt64 at h2
  omega

theorem wrap64_range (n : ℤ) : minInt64 ≤ wrap64 n ∧ wrap64 n ≤ maxInt64 := by
  unfold wrap64 minInt64 maxInt64
  omega

theorem toInt_of_range (x : ℚ) (h1 : minInt64 ≤ truncInt x) (h2 : truncInt x ≤ maxInt64) :
    toInt x = truncInt x := by
  unfold toInt
  rw [if_pos ⟨h1, h2⟩]

theorem toInt_le_of_truncInt_le (x : ℚ) (c : ℤ) (h : truncInt x ≤ c) (hc : minInt64 ≤ c) :
    toInt x ≤ c := by
  unfold toInt
  split_ifs with h1
  · exact h
  · exact hc

theorem toInt_mono_of_truncInt_le (x y : ℚ) (h : truncInt x ≤ truncInt y)
    (hy : truncInt y ≤ maxInt64) : toInt x ≤ toInt y := by
  by_cases h1 : minInt64 ≤ truncInt y
  · rw [toInt_of_range y h1 hy]
    exact toInt_le_of_truncInt_le x _ h h1
  · have h2 : ¬ (minInt64 ≤ truncInt x ∧ truncInt x ≤ maxInt64) := fun hc => h1 (by omega)
    have h3 : ¬ (minInt64 ≤ truncInt y ∧ truncInt y ≤ maxInt64) := fun hc => h1 hc.1
    have ex : toInt x = minInt64 := if_neg h2
    have ey : toInt y = minInt64 := if_neg h3
    rw [ex, ey]

theorem abs_f64_le (x : ℚ) : |f64 x| ≤ |x| * (1 + (2 : ℚ) ^ (-53 : ℤ)) := by
  have h := f64_abs_sub_le x
  have h2 : |f64 x| ≤ |f64 x - x| + |x| := by
    have := abs_add (f64 x - x) x
    simpa using this
  linarith

theorem truncInt_abs_le (x : ℚ) (c : ℤ) (h : |x| ≤ (c : ℚ)) : -c ≤ truncInt x ∧ truncInt x ≤ c := by
  unfold truncInt
  have h1 := abs_le.mp h
  split_ifs with h0
  · constructor
    · have : (0 : ℤ) ≤ ⌊x⌋ := Int.floor_nonneg.mpr h0
      have hc : (0 : ℚ) ≤ (c : ℚ) := le_trans (abs_nonneg x) h
      have hc2 : (0 : ℤ) ≤ c := by exact_mod_cast hc
      omega
    · have : ((⌊x⌋ : ℤ) : ℚ) ≤ (c : ℚ) := le_trans (Int.floor_le x) h1.2
      exact_mod_cast this
  · constructor
    · have : ((-c : ℤ) : ℚ) ≤ x := by
        push_cast
        exact h1.1
      rw [Int.le_ceil_iff]
      linarith
    · push_neg at h0
      have : ⌈x⌉ ≤ 0 := Int.ceil_le.mpr (by exact_mod_cast h0.le)
      have hc : (0 : ℚ) ≤ (c : ℚ) := le_trans (abs_nonneg x) h
      have hc2 : (0 : ℤ) ≤ c := by exact_mod_cast hc
      omega

theorem float64_of_bounded (n : ℤ) (h0 : 0 ≤ n) (h1 : n ≤ (2 : ℤ) ^ 48) :
    float64 n = (n : ℚ) := by
  apply float64_exact
  · have : (0 : ℤ) < (2 : ℤ) ^ 53 := by norm_num
    omega
  · have : (2 : ℤ) ^ 48 < (2 : ℤ) ^ 53 := by norm_num
    omega

theorem f64_hundred_mul (T : ℤ) (h0 : 0 ≤ T) (h1 : T ≤ (2 : ℤ) ^ 48) :
    f64 ((T : ℚ) * 100) = (T : ℚ) * 100 := by
  rcases eq_or_lt_of_le h0 with h | h
  · rw [← h]
    simp [f64_zero]
  · obtain ⟨m, rfl⟩ := Int.eq_ofNat_of_zero_le h0
    have hm0 : 0 < 25 * m := by omega
    have hm : 25 * m < 2 ^ 53 := by
      have : (m : ℤ) ≤ (2 : ℤ) ^ 48 := h1
      have h2 : m ≤ 2 ^ 48 := by exact_mod_cast this
      have : (2 : ℕ) ^ 53 = 32 * 2 ^ 48 := by norm_num
      omega
    have hx : (0 : ℚ) < ((m : ℤ) : ℚ) * 100 := by
      have : (0 : ℚ) < ((m : ℤ) : ℚ) := by exact_mod_cast h
      linarith
    rw [f64_of_pos _ hx]
    have hex := f64pos_exact (25 * m) 2 hm0 hm
    have heq : (((25 * m : ℕ)) : ℚ) * (2 : ℚ) ^ (2 : ℤ) = ((m : ℤ) : ℚ) * 100 := by
      push_cast
      norm_num
      ring
    rw [heq] at hex
    exact hex

theorem required_le_total (T g : ℤ) (hT0 : 0 ≤ T) (hT : T ≤ (2 : ℤ) ^ 48) (hg : g ≤ 100) :
    truncInt (mathCeil (fdiv (fmul (float64 T) (float64 g)) 100)) ≤ T := by
  rw [truncInt_mathCeil, Int.ceil_le, float64_of_bounded T hT0 hT]
  unfold fdiv fmul
  have hTq : (0 : ℚ) ≤ (T : ℚ) := by exact_mod_cast hT0
  have hu0 : (0 : ℚ) < (2 : ℚ) ^ (-53 : ℤ) := by positivity
  have hu1 : (2 : ℚ) ^ (-53 : ℤ) ≤ 1 / 1000 := by norm_num
  rcases le_or_lt g 0 with hg0 | hg0
  · have h1 : float64 g ≤ 0 := f64_nonpos _ (by exact_mod_cast hg0)
    have h2 : f64 ((T : ℚ) * float64 g) ≤ 0 :=
      f64_nonpos _ (mul_nonpos_of_nonneg_of_nonpos hTq h1)
    have h3 : f64 (f64 ((T : ℚ) * float64 g) / 100) ≤ 0 :=
      f64_nonpos _ (by linarith)
    linarith
  · have h100le : (100 : ℤ) ≤ (2 : ℤ) ^ 48 := by norm_num
    have hgx : float64 g = (g : ℚ) := float64_of_bounded g hg0.le (by omega)
    rw [hgx]
    rcases eq_or_lt_of_le hg with h100 | h99
    · subst h100
      have := f64_hundred_mul T hT0 hT
      push_cast
      rw [this]
      have hT53 : float64 T = (T : ℚ) := float64_of_bounded T hT0 hT
      have : (T : ℚ) * 100 / 100 = (T : ℚ) := by ring
      rw [this]
      unfold float64 at hT53
      rw [hT53]
    · have hg99 : (g : ℚ) ≤ 99 := by
        have : g ≤ 99 := by omega
        exact_mod_cast this
      have hg1 : (0 : ℚ) ≤ (g : ℚ) := by exact_mod_cast hg0.le
      have hprod : (0 : ℚ) ≤ (T : ℚ) * (g : ℚ) := mul_nonneg hTq hg1
      have ha := f64_upper _ hprod
      have ha0 := f64_nonneg _ hprod
      have hb := f64_upper (f64 ((T : ℚ) * (g : ℚ)) / 100) (by positivity)
      have hTg : (T : ℚ) * (g : ℚ) ≤ (T : ℚ) * 99 := mul_le_mul_of_nonneg_left hg99 hTq
      generalize (2 : ℚ) ^ (-53 : ℤ) = u at ha hb hu0 hu1
      have h1 : f64 ((T : ℚ) * (g : ℚ)) ≤ (T : ℚ) * 99 * (1 + u) := by
        calc f64 ((T : ℚ) * (g : ℚ)) ≤ (T : ℚ) * (g : ℚ) * (1 + u) := ha
          _ ≤ (T : ℚ) * 99 * (1 + u) := by
              exact mul_le_mul_of_nonneg_right hTg (by linarith)
      have h2 : f64 (f64 ((T : ℚ) * (g : ℚ)) / 100)
          ≤ (T : ℚ) * 99 * (1 + u) / 100 * (1 + u) := by
        calc f64 (f64 ((T : ℚ) * (g : ℚ)) / 100)
            ≤ f64 ((T : ℚ) * (g : ℚ)) / 100 * (1 + u) := hb
          _ ≤ (T : ℚ) * 99 * (1 + u) / 100 * (1 + u) := by
              apply mul_le_mul_of_nonneg_right _ (by linarith)
              linarith
      have h3 : (T : ℚ) * 99 * (1 + u) / 100 * (1 + u) ≤ (T : ℚ) := by
        have hc : 99 * (1 + u) * (1 + u) ≤ 100 := by nlinarith
        have : (T : ℚ) * 99 * (1 + u) / 100 * (1 + u)
            = (T : ℚ) * (99 * (1 + u) * (1 + u)) / 100 := by ring
        rw [this]
        have := mul_le_mul_of_nonneg_left hc hTq
        linarith
      linarith

theorem required_pos (T g : ℤ) (hT1 : 1 ≤ T) (hT : T ≤ (2 : ℤ) ^ 48) (hg1 : 1 ≤ g)
    (hg : g ≤ 100) :
    1 ≤ truncInt (mathCeil (fdiv (fmul (float64 T) (float64 g)) 100)) := by
  rw [truncInt_mathCeil]
  have h100le : (100 : ℤ) ≤ (2 : ℤ) ^ 48 := by norm_num
  have hgx : float64 g = (g : ℚ) := float64_of_bounded g (by omega) (by omega)
  rw [float64_of_bounded T (by omega) hT, hgx]
  unfold fdiv fmul
  have hTq : (0 : ℚ) < (T : ℚ) := by exact_mod_cast (by omega : 0 < T)
  have hgq : (0 : ℚ) < (g : ℚ) := by exact_mod_cast (by omega : 0 < g)
  have h1 : 0 < f64 ((T : ℚ) * (g : ℚ)) := f64_pos _ (mul_pos hTq hgq)
  have h2 : 0 < f64 (f64 ((T : ℚ) * (g : ℚ)) / 100) := f64_pos _ (by positivity)
  have := Int.ceil_pos.mpr h2
  omega

theorem expected_pos (F R T : ℤ) (hF : 1 ≤ F) (hF2 : F ≤ (2 : ℤ) ^ 48) (hR : 0 ≤ R)
    (hR2 : R ≤ (2 : ℤ) ^ 48) (hT1 : 1 ≤ T) (hT : T ≤ (2 : ℤ) ^ 48) (hFR : T ≤ F * R) :
    1 ≤ truncInt (mathRound (fdiv (fmul (float64 F) (float64 R)) (float64 T))) := by
  rw [float64_of_bounded F (by omega) hF2, float64_of_bounded R hR hR2,
    float64_of_bounded T (by omega) hT]
  unfold fdiv fmul
  have hTq : (0 : ℚ) < (T : ℚ) := by exact_mod_cast (by omega : 0 < T)
  have hFRq : (T : ℚ) ≤ (F : ℚ) * (R : ℚ) := by exact_mod_cast hFR
  have hprod : (0 : ℚ) ≤ (F : ℚ) * (R : ℚ) := by linarith
  have ha := f64_lower _ hprod
  have ha0 := f64_nonneg _ hprod
  have hq0 : (0 : ℚ) ≤ f64 ((F : ℚ) * (R : ℚ)) / (T : ℚ) := by positivity
  have hb := f64_lower _ hq0
  have hb0 := f64_nonneg _ hq0
  rw [truncInt_mathRound_of_nonneg _ hb0]
  have hu0 : (0 : ℚ) < (2 : ℚ) ^ (-53 : ℤ) := by positivity
  have hu1 : (2 : ℚ) ^ (-53 : ℤ) ≤ 1 / 1000 := by norm_num
  generalize (2 : ℚ) ^ (-53 : ℤ) = u at ha hb hu0 hu1
  have h1 : (T : ℚ) * (1 - u) ≤ f64 ((F : ℚ) * (R : ℚ)) := by
    calc (T : ℚ) * (1 - u) ≤ (F : ℚ) * (R : ℚ) * (1 - u) := by
          exact mul_le_mul_of_nonneg_right hFRq (by linarith)
      _ ≤ f64 ((F : ℚ) * (R : ℚ)) := ha
  have h2 : (1 - u) ≤ f64 ((F : ℚ) * (R : ℚ)) / (T : ℚ) := by
    rw [le_div_iff₀ hTq]
    linarith
  have h3 : (1 - u) * (1 - u) ≤ f64 (f64 ((F : ℚ) * (R : ℚ)) / (T : ℚ)) := by
    calc (1 - u) * (1 - u) ≤ f64 ((F : ℚ) * (R : ℚ)) / (T : ℚ) * (1 - u) := by
          exact mul_le_mul_of_nonneg_right h2 (by linarith)
      _ ≤ f64 (f64 ((F : ℚ) * (R : ℚ)) / (T : ℚ)) := hb
  have h4 : (1 : ℚ) / 2 ≤ (1 - u) * (1 - u) := by nlinarith
  rw [Int.le_floor]
  push_cast
  linarith

theorem length_CreateWorkdayMap_le (s e : Int) :
    ((CreateWorkdayMap s e).length : Int) ≤ max 0 (e - s + 1) := by
  rw [CreateWorkdayMap_eq, List.length_map]
  have h1 := List.length_filter_le (fun d => IsWeekday d) (dateRange s e)
  rw [length_dateRange] at h1
  have h2 : (((e - s + 1).toNat : Nat) : Int) = max 0 (e - s + 1) := by
    rw [Int.toNat_eq_max, max_comm]
  omega

theorem runLoop_bounds (now : Int) (bm : GoMap DateKey BadgeEntry)
    (hm : GoMap DateKey Holiday) (vm : GoMap DateKey Vacation)
    (es : List (DateKey × Workday)) (m : GoMap DateKey Workday) :
    0 ≤ (runLoop now bm hm vm es (initState m)).daysThusFar ∧
    (runLoop now bm hm vm es (initState m)).daysThusFar
      ≤ (runLoop now bm hm vm es (initState m)).totalDays ∧
    0 ≤ (runLoop now bm hm vm es (initState m)).flexDays ∧
    (runLoop now bm hm vm es (initState m)).flexDays
      ≤ (runLoop now bm hm vm es (initState m)).daysBadgedIn ∧
    (runLoop now bm hm vm es (initState m)).daysBadgedIn
      ≤ (runLoop now bm hm vm es (initState m)).totalDays ∧
    (runLoop now bm hm vm es (initState m)).totalDays ≤ (es.length : Int) := by
  obtain ⟨-, -, -, c4, c5, c6, c7⟩ := runLoop_fields now bm hm vm es (initState m)
  obtain ⟨-, -, -, i4, i5, i6, i7⟩ := initState_fields m
  rw [c4, c5, c6, c7, i4, i5, i6, i7]
  have h1 : es.countP (fun e => isQualifyingKey hm vm e.1 && decide (e.2.Date < now))
      ≤ es.countP (fun e => isQualifyingKey hm vm e.1) := by
    apply List.countP_mono_left
    intro x _ hx
    simp only [Bool.and_eq_true] at hx
    exact hx.1
  have h2 : es.countP (fun e => isQualifyingKey hm vm e.1 && isBadgedKey bm e.1)
      ≤ es.countP (fun e => isQualifyingKey hm vm e.1) := by
    apply List.countP_mono_left
    intro x _ hx
    simp only [Bool.and_eq_true] at hx
    exact hx.1
  have h3 : es.countP (fun e => isQualifyingKey hm vm e.1 && isFlexKey bm e.1)
      ≤ es.countP (fun e => isQualifyingKey hm vm e.1 && isBadgedKey bm e.1) := by
    apply List.countP_mono_left
    intro x _ hx
    simp only [Bool.and_eq_true] at hx ⊢
    refine ⟨hx.1, ?_⟩
    have hf := hx.2
    unfold isFlexKey at hf
    unfold isBadgedKey
    cases hget : GoMap.get? bm x.1 with
    | none => simp [hget] at hf
    | some entry =>
      simp only [hget, Bool.and_eq_true] at hf ⊢
      exact hf.1
  have h4 := List.countP_le_length (fun e => isQualifyingKey hm vm e.1) (l := es)
  omega

theorem deriveStats_gt_of_impossible (p : TimePeriod) (g now tc : Int) (st : LoopState)
    (h : (deriveStats p g now tc st).ComplianceStatus = "Impossible") :
    (deriveStats p g now tc st).DaysStillNeeded > (deriveStats p g now tc st).DaysLeft := by
  simp only [deriveStats, determineComplianceStatus] at h ⊢
  by_contra hc
  rw [if_neg hc] at h
  split_ifs at h <;> exact absurd h (by decide)

theorem CalculatePeriodStats_bounds (p : TimePeriod) (b : BadgeEntryData) (h : HolidayData)
    (v : VacationData) (g : Int) (today : Option Int) (clock : Int) :
    0 ≤ (CalculatePeriodStats p b h v g today clock).1.DaysThusFar ∧
    (CalculatePeriodStats p b h v g today clock).1.DaysThusFar
      ≤ (CalculatePeriodStats p b h v g today clock).1.TotalDays ∧
    0 ≤ (CalculatePeriodStats p b h v g today clock).1.FlexDays ∧
    (CalculatePeriodStats p b h v g today clock).1.FlexDays
      ≤ (CalculatePeriodStats p b h v g today clock).1.DaysBadgedIn ∧
    (CalculatePeriodStats p b h v g today clock).1.DaysBadgedIn
      ≤ (CalculatePeriodStats p b h v g today clock).1.TotalDays ∧
    (CalculatePeriodStats p b h v g today clock).1.TotalDays
      ≤ max 0 (p.EndDate - p.StartDate + 1) := by
  rw [CalculatePeriodStats_fst]
  simp only [deriveStats]
  obtain ⟨b1, b2, b3, b4, b5, b6⟩ :=
    runLoop_bounds (refDate today clock) (b.GetBadgeMap p.StartDate p.EndDate)
      h.GetHolidayMap v.GetVacationMap (CreateWorkdayMap p.StartDate p.EndDate)
      (CreateWorkdayMap p.StartDate p.EndDate)
  have := length_CreateWorkdayMap_le p.StartDate p.EndDate
  exact ⟨b1, b2, b3, b4, b5, by omega⟩

/-! ## Claims on the compliance status and the required days -/

theorem required_exact (T g : ℤ) (hb : |T * g| < (2 : ℤ) ^ 53) :
    100 * (truncInt (mathCeil (fdiv (fmul (float64 T) (float64 g)) 100)) - 1) < T * g ∧
    T * g ≤ 100 * truncInt (mathCeil (fdiv (fmul (float64 T) (float64 g)) 100)) := by
  rw [truncInt_mathCeil]
  have hb' := abs_lt.mp hb
  -- the product of the two conversions is exact
  have hprod : fmul (float64 T) (float64 g) = ((T * g : ℤ) : ℚ) := by
    unfold fmul
    rcases eq_or_ne T 0 with hT | hT
    · subst hT
      have : float64 0 = 0 := by
        unfold float64
        simp [f64_zero]
      rw [this]
      simp [f64_zero]
    · rcases eq_or_ne g 0 with hg | hg
      · subst hg
        have : float64 0 = 0 := by
          unfold float64
          simp [f64_zero]
        rw [this]
        simp [f64_zero]
      · have hT1 : 1 ≤ |T| := Int.one_le_abs hT
        have hg1 : 1 ≤ |g| := Int.one_le_abs hg
        have habs : |T * g| = |T| * |g| := abs_mul T g
        have hTb : |T| < (2 : ℤ) ^ 53 := by nlinarith
        have hgb : |g| < (2 : ℤ) ^ 53 := by nlinarith
        have hT2 := abs_lt.mp hTb
        have hg2 := abs_lt.mp hgb
        rw [float64_exact T hT2.1 hT2.2, float64_exact g hg2.1 hg2.2]
        have := float64_exact (T * g) hb'.1 hb'.2
        unfold float64 at this
        rw [← this]
        push_cast
        rfl
  rw [hprod]
  unfold fdiv
  set P : ℤ := T * g with hP
  have herr := f64_abs_sub_le ((P : ℚ) / 100)
  have hPq : |(P : ℚ)| < (2 : ℚ) ^ (53 : ℕ) := by
    have : ((|P| : ℤ) : ℚ) < (((2 : ℤ) ^ 53 : ℤ) : ℚ) := by exact_mod_cast hb
    rw [Int.cast_abs] at this
    simpa using this
  have herr2 : |f64 ((P : ℚ) / 100) - (P : ℚ) / 100| < 1 / 100 := by
    have h1 : |(P : ℚ) / 100| = |(P : ℚ)| / 100 := by
      rw [abs_div]
      norm_num
    rw [h1] at herr
    have h2 : |(P : ℚ)| / 100 * (2 : ℚ) ^ (-53 : ℤ) < 1 / 100 := by
      have h3 : (2 : ℚ) ^ (-53 : ℤ) = 1 / (2 : ℚ) ^ (53 : ℕ) := by
        norm_num
      rw [h3]
      have hpos : (0 : ℚ) < (2 : ℚ) ^ (53 : ℕ) := by positivity
      rw [div_mul_div_comm, div_lt_div_iff₀ (by positivity) (by norm_num)]
      nlinarith
    linarith
  obtain ⟨e1, e2⟩ := abs_lt.mp herr2
  set n : ℤ := ⌈(P : ℚ) / 100⌉ with hn
  have hn1 : (P : ℚ) / 100 ≤ (n : ℚ) := Int.le_ceil _
  have hn2 : ((n : ℚ) - 1) < (P : ℚ) / 100 := by
    have := Int.ceil_lt_add_one ((P : ℚ) / 100)
    linarith
  have hnP1 : P ≤ 100 * n := by
    have : (P : ℚ) ≤ 100 * (n : ℚ) := by linarith
    exact_mod_cast this
  have hnP2 : 100 * (n - 1) < P := by
    have : 100 * ((n : ℚ) - 1) < (P : ℚ) := by linarith
    exact_mod_cast this
  have hceil : ⌈f64 ((P : ℚ) / 100)⌉ = n := by
    rw [Int.ceil_eq_iff]
    constructor
    · have hq : ((n : ℚ) - 1) + 1 / 100 ≤ (P : ℚ) / 100 := by
        have : 100 * (n - 1) + 1 ≤ P := by omega
        have : (100 * ((n : ℚ) - 1) + 1) ≤ (P : ℚ) := by exact_mod_cast this
        linarith
      linarith
    · rcases eq_or_lt_of_le hnP1 with heq | hlt
      · have hx : (P : ℚ) / 100 = (n : ℚ) := by
          rw [heq]
          push_cast
          ring
        rw [hx]
        have hnb : -(2 : ℤ) ^ 53 < n ∧ n < (2 : ℤ) ^ 53 := by
          constructor <;> omega
        have := float64_exact n hnb.1 hnb.2
        unfold float64 at this
        rw [this]
      · have hq : (P : ℚ) / 100 ≤ (n : ℚ) - 1 / 100 := by
          have : P + 1 ≤ 100 * n := by omega
          have : (P : ℚ) + 1 ≤ 100 * (n : ℚ) := by exact_mod_cast this
          linarith
        linarith
  rw [hceil]
  exact ⟨hnP2, hnP1⟩

theorem required_toInt_exact (T g : ℤ) (hb : |T * g| < (2 : ℤ) ^ 53) :
    100 * (toInt (mathCeil (fdiv (fmul (float64 T) (float64 g)) 100)) - 1) < T * g ∧
    T * g ≤ 100 * toInt (mathCeil (fdiv (fmul (float64 T) (float64 g)) 100)) := by
  obtain ⟨h1, h2⟩ := required_exact T g hb
  have hb2 := abs_lt.mp hb
  have e : toInt (mathCeil (fdiv (fmul (float64 T) (float64 g)) 100))
      = truncInt (mathCeil (fdiv (fmul (float64 T) (float64 g)) 100)) := by
    apply toInt_of_range
    · unfold minInt64
      omega
    · unfold maxInt64
      omega
  rw [e]
  exact ⟨h1, h2⟩

/-- C9 (amended): when `|TotalDays * g| < 2 ^ 53` (so for every goal from 1 to
100 on a period of fewer than `2 ^ 46` days), `DaysRequired` is the integer
ceiling of `TotalDays * g / 100`, the least integer `n` with
`100 * n ≥ TotalDays * g`; in particular for `g = 50` it is
`(TotalDays + 1) / 2`. -/
theorem C9_daysRequired_is_ceiling (p : TimePeriod) (b : BadgeEntryData) (h : HolidayData)
    (v : VacationData) (g : Int) (today : Option Int) (clock : Int)
    (hb : |(CalculatePeriodStats p b h v g today clock).1.TotalDays * g| < 2 ^ 53) :
    100 * ((CalculatePeriodStats p b h v g today clock).1.DaysRequired - 1)
      < (CalculatePeriodStats p b h v g today clock).1.TotalDays * g ∧
    (CalculatePeriodStats p b h v g today clock).1.TotalDays * g
      ≤ 100 * (CalculatePeriodStats p b h v g today clock).1.DaysRequired ∧
    (g = 50 →
      (CalculatePeriodStats p b h v g today clock).1.DaysRequired
        = ((CalculatePeriodStats p b h v g today clock).1.TotalDays + 1) / 2) := by
  rw [CalculatePeriodStats_fst] at hb ⊢
  simp only [deriveStats] at hb ⊢
  obtain ⟨h1, h2⟩ := required_toInt_exact _ g hb
  refine ⟨h1, h2, ?_⟩
  intro hg
  subst hg
  omega

/-- C9 (witness): the period of 36 weekdays with goal 50 requires 18 days. -/
theorem C9_daysRequired_is_ceiling_witness :
    |(CalculatePeriodStats sevenWeekPeriod threeBadges NewHolidayData NewVacationData 50
        (some (civil 2025 1 21)) 0).1.TotalDays * 50| < 2 ^ 53 ∧
    (CalculatePeriodStats sevenWeekPeriod threeBadges NewHolidayData NewVacationData 50
        (some (civil 2025 1 21)) 0).1.DaysRequired
      = ((CalculatePeriodStats sevenWeekPeriod threeBadges NewHolidayData NewVacationData 50
        (some (civil 2025 1 21)) 0).1.TotalDays + 1) / 2 :=
  ⟨by decide!,
    (C9_daysRequired_is_ceiling sevenWeekPeriod threeBadges NewHolidayData NewVacationData 50
      (some (civil 2025 1 21)) 0 (by decide!)).2.2 rfl⟩

/-- C9 (counterexample): on the one-day period 2025-01-02 with the goal
900719925474099300, `float64(goalPct)` is 900719925474099328 and
`DaysRequired` is 9007199254740994, although 9007199254740993 is already an
integer `n` with `100 * n ≥ TotalDays * g`. -/
theorem C9_huge_goal_is_rounded :
    (CalculatePeriodStats oneDayPeriod NewBadgeEntryData NewHolidayData NewVacationData
        900719925474099300 (some (civil 2025 1 2)) 0).1.TotalDays = 1 ∧
    (CalculatePeriodStats oneDayPeriod NewBadgeEntryData NewHolidayData NewVacationData
        900719925474099300 (some (civil 2025 1 2)) 0).1.DaysRequired = 9007199254740994 ∧
    100 * ((CalculatePeriodStats oneDayPeriod NewBadgeEntryData NewHolidayData NewVacationData
        900719925474099300 (some (civil 2025 1 2)) 0).1.DaysRequired - 1)
      ≥ (CalculatePeriodStats oneDayPeriod NewBadgeEntryData NewHolidayData NewVacationData
        900719925474099300 (some (civil 2025 1 2)) 0).1.TotalDays * 900719925474099300 := by
  decide!

/-- C4 (counterexample): on the weekend 2025-01-04 to 2025-01-05, with no badge
entry, no holiday, no vacation, goal 50 and today 2025-01-04, nothing is required
and the status is "Achieved", not "On Track". -/
theorem C4_weekend_period_is_achieved :
    (CalculatePeriodStats weekendPeriod NewBadgeEntryData NewHolidayData NewVacationData 50
        (some weekendPeriod.StartDate) 0).1.ComplianceStatus = "Achieved" ∧
    (CalculatePeriodStats weekendPeriod NewBadgeEntryData NewHolidayData NewVacationData 50
        (some weekendPeriod.StartDate) 0).1.ComplianceStatus ≠ "On Track" := by
  decide!

/-! ## Lemmas on the projected completion date -/

/-- C13: `DaysThusFar` is the number of qualifying days of the period (weekdays
whose key is neither a holiday key nor a vacation key) strictly before today,
and it does not depend on the badge collection; `DaysLeft`, which is
`TotalDays - DaysThusFar`, is the number of qualifying days on or after
today. -/
theorem C13_daysThusFar_counts_past_qualifying_days (p : TimePeriod) (b : BadgeEntryData)
    (h : HolidayData) (v : VacationData) (g : Int) (today : Option Int) (clock : Int) :
    (CalculatePeriodStats p b h v g today clock).1.DaysThusFar
      = (((Finset.Icc p.StartDate p.EndDate).filter
          (fun d => (1 ≤ weekday d ∧ weekday d ≤ 5) ∧
            (isQualifyingKey h.GetHolidayMap v.GetVacationMap (formatDate d)
              && decide (d < refDate today clock)) = true)).card : Int) ∧
    (∀ b2 : BadgeEntryData,
      (CalculatePeriodStats p b2 h v g today clock).1.DaysThusFar
        = (CalculatePeriodStats p b h v g today clock).1.DaysThusFar) ∧
    (CalculatePeriodStats p b h v g today clock).1.DaysLeft
      = (CalculatePeriodStats p b h v g today clock).1.TotalDays
        - (CalculatePeriodStats p b h v g today clock).1.DaysThusFar ∧
    (CalculatePeriodStats p b h v g today clock).1.DaysLeft
      = (((Finset.Icc p.StartDate p.EndDate).filter
          (fun d => (1 ≤ weekday d ∧ weekday d ≤ 5) ∧
            (isQualifyingKey h.GetHolidayMap v.GetVacationMap (formatDate d)
              && decide (refDate today clock ≤ d)) = true)).card : Int) := by
  have hF : ∀ b1 : BadgeEntryData,
      (CalculatePeriodStats p b1 h v g today clock).1.DaysThusFar
        = (((Finset.Icc p.StartDate p.EndDate).filter
          (fun d => (1 ≤ weekday d ∧ weekday d ≤ 5) ∧
            (isQualifyingKey h.GetHolidayMap v.GetVacationMap (formatDate d)
              && decide (d < refDate today clock)) = true)).card : Int) := by
    intro b1
    rw [CalculatePeriodStats_fst]
    simp only [deriveStats]
    obtain ⟨-, -, -, -, c5, -, -⟩ :=
      runLoop_fields (refDate today clock) (b1.GetBadgeMap p.StartDate p.EndDate)
        h.GetHolidayMap v.GetVacationMap (CreateWorkdayMap p.StartDate p.EndDate)
        (initState (CreateWorkdayMap p.StartDate p.EndDate))
    obtain ⟨-, -, -, -, i5, -, -⟩ := initState_fields (CreateWorkdayMap p.StartDate p.EndDate)
    rw [c5, i5, zero_add]
    have := countP_CreateWorkdayMap p.StartDate p.EndDate
      (fun k d => isQualifyingKey h.GetHolidayMap v.GetVacationMap k
        && decide (d < refDate today clock))
    rw [this]
  have hT : (CalculatePeriodStats p b h v g today clock).1.TotalDays
      = (((Finset.Icc p.StartDate p.EndDate).filter
          (fun d => (1 ≤ weekday d ∧ weekday d ≤ 5) ∧
            isQualifyingKey h.GetHolidayMap v.GetVacationMap (formatDate d) = true)).card : Int) := by
    rw [CalculatePeriodStats_fst]
    simp only [deriveStats]
    obtain ⟨-, -, -, c4, -, -, -⟩ :=
      runLoop_fields (refDate today clock) (b.GetBadgeMap p.StartDate p.EndDate)
        h.GetHolidayMap v.GetVacationMap (CreateWorkdayMap p.StartDate p.EndDate)
        (initState (CreateWorkdayMap p.StartDate p.EndDate))
    obtain ⟨-, -, -, i4, -, -, -⟩ := initState_fields (CreateWorkdayMap p.StartDate p.EndDate)
    rw [c4, i4, zero_add]
    have := countP_CreateWorkdayMap p.StartDate p.EndDate
      (fun k _ => isQualifyingKey h.GetHolidayMap v.GetVacationMap k)
    rw [this]
  have hL : (CalculatePeriodStats p b h v g today clock).1.DaysLeft
      = (CalculatePeriodStats p b h v g today clock).1.TotalDays
        - (CalculatePeriodStats p b h v g today clock).1.DaysThusFar := by
    rw [CalculatePeriodStats_fst]
    simp only [deriveStats]
  refine ⟨hF b, fun b2 => by rw [hF b2, hF b], hL, ?_⟩
  rw [hL, hT, hF b]
  -- the qualifying days split into those before today and those from today on
  have hsplit : ((Finset.Icc p.StartDate p.EndDate).filter
        (fun d => (1 ≤ weekday d ∧ weekday d ≤ 5) ∧
          isQualifyingKey h.GetHolidayMap v.GetVacationMap (formatDate d) = true)).card
      = ((Finset.Icc p.StartDate p.EndDate).filter
          (fun d => (1 ≤ weekday d ∧ weekday d ≤ 5) ∧
            (isQualifyingKey h.GetHolidayMap v.GetVacationMap (formatDate d)
              && decide (d < refDate today clock)) = true)).card
        + ((Finset.Icc p.StartDate p.EndDate).filter
          (fun d => (1 ≤ weekday d ∧ weekday d ≤ 5) ∧
            (isQualifyingKey h.GetHolidayMap v.GetVacationMap (formatDate d)
              && decide (refDate today clock ≤ d)) = true)).card := by
    rw [← Finset.card_union_of_disjoint]
    · congr 1
      ext d
      simp only [Finset.mem_filter, Finset.mem_union, Bool.and_eq_true, decide_eq_true_eq]
      constructor
      · rintro ⟨h1, h2, h3⟩
        rcases lt_or_le d (refDate today clock) with hlt | hle
        · exact Or.inl ⟨h1, h2, h3, hlt⟩
        · exact Or.inr ⟨h1, h2, h3, hle⟩
      · rintro (⟨h1, h2, h3, -⟩ | ⟨h1, h2, h3, -⟩) <;> exact ⟨h1, h2, h3⟩
    · rw [Finset.disjoint_left]
      intro d hd1 hd2
      simp only [Finset.mem_filter, Bool.and_eq_true, decide_eq_true_eq] at hd1 hd2
      omega
  omega

/-- C14: `DaysBadgedIn` is the number of qualifying days of the period for which
the badge map holds an entry with `IsBadgedIn`; it does not depend on today, so
entries dated after today count, and entries on weekends, holidays, vacation
days or outside the period do not. -/
theorem C14_daysBadgedIn_counts_badged_qualifying_days (p : TimePeriod) (b : BadgeEntryData)
    (h : HolidayData) (v : VacationData) (g : Int) (today : Option Int) (clock : Int) :
    (CalculatePeriodStats p b h v g today clock).1.DaysBadgedIn
      = (((Finset.Icc p.StartDate p.EndDate).filter
          (fun d => (1 ≤ weekday d ∧ weekday d ≤ 5) ∧
            (isQualifyingKey h.GetHolidayMap v.GetVacationMap (formatDate d)
              && isBadgedKey (b.GetBadgeMap p.StartDate p.EndDate) (formatDate d))
                = true)).card : Int) ∧
    (∀ (today2 : Option Int) (clock2 : Int),
      (CalculatePeriodStats p b h v g today2 clock2).1.DaysBadgedIn
        = (CalculatePeriodStats p b h v g today clock).1.DaysBadgedIn) := by
  have hB : ∀ (t1 : Option Int) (c1 : Int),
      (CalculatePeriodStats p b h v g t1 c1).1.DaysBadgedIn
        = (((Finset.Icc p.StartDate p.EndDate).filter
          (fun d => (1 ≤ weekday d ∧ weekday d ≤ 5) ∧
            (isQualifyingKey h.GetHolidayMap v.GetVacationMap (formatDate d)
              && isBadgedKey (b.GetBadgeMap p.StartDate p.EndDate) (formatDate d))
                = true)).card : Int) := by
    intro t1 c1
    rw [CalculatePeriodStats_fst]
    simp only [deriveStats]
    obtain ⟨-, -, -, -, -, c6, -⟩ :=
      runLoop_fields (refDate t1 c1) (b.GetBadgeMap p.StartDate p.EndDate)
        h.GetHolidayMap v.GetVacationMap (CreateWorkdayMap p.StartDate p.EndDate)
        (initState (CreateWorkdayMap p.StartDate p.EndDate))
    obtain ⟨-, -, -, -, -, i6, -⟩ := initState_fields (CreateWorkdayMap p.StartDate p.EndDate)
    rw [c6, i6, zero_add]
    have := countP_CreateWorkdayMap p.StartDate p.EndDate
      (fun k _ => isQualifyingKey h.GetHolidayMap v.GetVacationMap k
        && isBadgedKey (b.GetBadgeMap p.StartDate p.EndDate) k)
    rw [this]
  exact ⟨hB today clock, fun t2 c2 => by rw [hB t2 c2, hB today clock]⟩

/-! ## Claims on the workday calendar -/

theorem GoMap.get?_set {α β : Type} [DecidableEq α] (m : GoMap α β) (k k2 : α) (v : β) :
    GoMap.get? (GoMap.set m k v) k2 = if k = k2 then some v else GoMap.get? m k2 := by
  induction m with
  | nil =>
    simp only [GoMap.set, GoMap.get?]
  | cons e m ih =>
    obtain ⟨k1, v1⟩ := e
    by_cases h1 : k1 = k
    · subst h1
      simp only [GoMap.set, if_true, GoMap.get?]
      split_ifs <;> rfl
    · simp only [GoMap.set, h1, if_false, GoMap.get?, ih]
      by_cases h2 : k1 = k2
      · subst h2
        have : ¬ k = k1 := fun hc => h1 hc.symm
        simp [this]
      · simp [h2]

theorem GoMap.get?_eq_none_iff {α β : Type} [DecidableEq α] (m : GoMap α β) (k : α) :
    GoMap.get? m k = none ↔ ∀ e ∈ m, e.1 ≠ k := by
  induction m with
  | nil => simp [GoMap.get?]
  | cons e m ih =>
    obtain ⟨k1, v1⟩ := e
    by_cases h1 : k1 = k
    · simp [GoMap.get?, h1]
    · simp [GoMap.get?, h1, ih]

theorem GoMap.get?_isSome_iff {α β : Type} [DecidableEq α] (m : GoMap α β) (k : α) :
    (GoMap.get? m k).isSome = true ↔ k ∈ m.map Prod.fst := by
  rw [← not_iff_not]
  simp only [Bool.not_eq_true, Option.not_isSome, Option.isNone_iff_eq_none,
    GoMap.get?_eq_none_iff, List.mem_map, not_exists, not_and]

theorem GoMap.get?_map_formatDate (l : List Int) (f : Int → Workday) (d : Int) :
    GoMap.get? (l.map (fun x => (formatDate x, f x))) (formatDate d)
      = if d ∈ l then some (f d) else none := by
  induction l with
  | nil => simp [GoMap.get?]
  | cons x l ih =>
    simp only [List.map_cons, GoMap.get?, List.mem_cons]
    by_cases hx : x = d
    · subst hx
      simp
    · have h1 : ¬ formatDate x = formatDate d := by
        simp only [formatDate, DateKey.ymd.injEq]
        exact hx
      have h2 : ¬ d = x := fun hc => hx hc.symm
      simp [h1, h2, ih]

theorem GoMap.get?_map_raw (l : List Int) (f : Int → Workday) (s : String) :
    GoMap.get? (l.map (fun x => (formatDate x, f x))) (DateKey.raw s) = none := by
  rw [GoMap.get?_eq_none_iff]
  intro e he
  simp only [List.mem_map] at he
  obtain ⟨x, -, rfl⟩ := he
  simp [formatDate]

theorem keys_CreateWorkdayMap (s e : Int) :
    (CreateWorkdayMap s e).map Prod.fst
      = ((dateRange s e).filter (fun d => IsWeekday d)).map formatDate := by
  rw [CreateWorkdayMap_eq, List.map_map]
  rfl

theorem formatDate_injective : Function.Injective formatDate := by
  intro a b hab
  simpa [formatDate] using hab

theorem nodup_keys_CreateWorkdayMap (s e : Int) :
    ((CreateWorkdayMap s e).map Prod.fst).Nodup := by
  rw [keys_CreateWorkdayMap]
  exact ((nodup_dateRange s e).filter _).map formatDate_injective

/-- C15: the keys of `CreateWorkdayMap start stop` are exactly the date keys of
the Monday to Friday dates `d` with `start ≤ d ≤ stop`, each once, so that no
Saturday or Sunday is a key and both boundary dates are keys when they are
weekdays; the map is empty when `start` is after `stop`; and the record under
the key of `d` has `Date = d`, `WorkDate` equal to its key, `IsWorkday = true`
and every other flag false. -/
theorem C15_createWorkdayMap_keys_and_records (start stop : Int) :
    (∀ d : Int,
      GoMap.get? (CreateWorkdayMap start stop) (formatDate d)
        = if start ≤ d ∧ d ≤ stop ∧ 1 ≤ weekday d ∧ weekday d ≤ 5 then
            some { Date := d, WorkDate := formatDate d, IsWorkday := true,
                   IsBadgedIn := false, IsFlexCredit := false, IsHoliday := false,
                   IsVacation := false }
          else none) ∧
    (∀ s : String, GoMap.get? (CreateWorkdayMap start stop) (DateKey.raw s) = none) ∧
    ((CreateWorkdayMap start stop).map Prod.fst).Nodup ∧
    (stop < start → CreateWorkdayMap start stop = []) := by
  refine ⟨?_, ?_, nodup_keys_CreateWorkdayMap start stop, ?_⟩
  · intro d
    rw [CreateWorkdayMap_eq, GoMap.get?_map_formatDate]
    have hiff : d ∈ (dateRange start stop).filter (fun d => IsWeekday d)
        ↔ (start ≤ d ∧ d ≤ stop ∧ 1 ≤ weekday d ∧ weekday d ≤ 5) := by
      rw [List.mem_filter, mem_dateRange, IsWeekday_iff]
      tauto
    by_cases hc : start ≤ d ∧ d ≤ stop ∧ 1 ≤ weekday d ∧ weekday d ≤ 5
    · rw [if_pos (hiff.mpr hc), if_pos hc]
    · rw [if_neg (fun hm => hc (hiff.mp hm)), if_neg hc]
  · intro s
    rw [CreateWorkdayMap_eq]
    exact GoMap.get?_map_raw _ _ s
  · intro hlt
    rw [CreateWorkdayMap_eq]
    have : dateRange start stop = [] := by
      unfold dateRange
      have : (stop - start + 1).toNat = 0 := by omega
      rw [this]
      rfl
    rw [this]
    rfl

/-! ## Claims on the year aggregation -/

theorem yearBounds_fold (f : Int × Int → TimePeriod → Int × Int)
    (hf : ∀ se tp, f se tp
      = (if tp.StartDate < se.1 then tp.StartDate else se.1,
         if tp.EndDate > se.2 then tp.EndDate else se.2))
    (ps : List TimePeriod) : ∀ init : Int × Int,
    ((ps.foldl f init).1 ≤ init.1 ∧
      (∀ tp ∈ ps, (ps.foldl f init).1 ≤ tp.StartDate) ∧
      ((ps.foldl f init).1 = init.1 ∨ ∃ tp ∈ ps, tp.StartDate = (ps.foldl f init).1)) ∧
    (init.2 ≤ (ps.foldl f init).2 ∧
      (∀ tp ∈ ps, tp.EndDate ≤ (ps.foldl f init).2) ∧
      ((ps.foldl f init).2 = init.2 ∨ ∃ tp ∈ ps, tp.EndDate = (ps.foldl f init).2)) := by
  induction ps with
  | nil =>
    intro init
    simp
  | cons tp ps ih =>
    intro init
    obtain ⟨⟨a1, a2, a3⟩, ⟨c1, c2, c3⟩⟩ := ih (f init tp)
    have e1 : (f init tp).1 = if tp.StartDate < init.1 then tp.StartDate else init.1 := by
      rw [hf]
    have e2 : (f init tp).2 = if tp.EndDate > init.2 then tp.EndDate else init.2 := by
      rw [hf]
    have b1 : (f init tp).1 ≤ init.1 ∧ (f init tp).1 ≤ tp.StartDate := by
      rw [e1]
      split_ifs <;> omega
    have b2 : (f init tp).1 = init.1 ∨ (f init tp).1 = tp.StartDate := by
      rw [e1]
      split_ifs
      · exact Or.inr rfl
      · exact Or.inl rfl
    have d1 : init.2 ≤ (f init tp).2 ∧ tp.EndDate ≤ (f init tp).2 := by
      rw [e2]
      split_ifs <;> omega
    have d2 : (f init tp).2 = init.2 ∨ (f init tp).2 = tp.EndDate := by
      rw [e2]
      split_ifs
      · exact Or.inr rfl
      · exact Or.inl rfl
    simp only [List.foldl_cons]
    refine ⟨⟨by omega, ?_, ?_⟩, ⟨by omega, ?_, ?_⟩⟩
    · intro t ht
      rcases List.mem_cons.mp ht with rfl | ht
      · omega
      · exact a2 t ht
    · rcases a3 with a3 | ⟨t, ht, hte⟩
      · rcases b2 with b2 | b2
        · exact Or.inl (a3.trans b2)
        · exact Or.inr ⟨tp, List.mem_cons_self _ _, (a3.trans b2).symm⟩
      · exact Or.inr ⟨t, List.mem_cons_of_mem _ ht, hte⟩
    · intro t ht
      rcases List.mem_cons.mp ht with rfl | ht
      · omega
      · exact c2 t ht
    · rcases c3 with c3 | ⟨t, ht, hte⟩
      · rcases d2 with d2 | d2
        · exact Or.inl (c3.trans d2)
        · exact Or.inr ⟨tp, List.mem_cons_self _ _, (c3.trans d2).symm⟩
      · exact Or.inr ⟨t, List.mem_cons_of_mem _ ht, hte⟩

theorem CalculateYearStats_cons (first : TimePeriod) (rest : List TimePeriod)
    (b : BadgeEntryData) (h : HolidayData) (v : VacationData) (g : Int)
    (today : Option Int) (clock : Int) (q : TimePeriod)
    (hlo1 : ∃ tp ∈ first :: rest, tp.StartDate = q.StartDate)
    (hlo2 : ∀ tp ∈ first :: rest, q.StartDate ≤ tp.StartDate)
    (hhi1 : ∃ tp ∈ first :: rest, tp.EndDate = q.EndDate)
    (hhi2 : ∀ tp ∈ first :: rest, tp.EndDate ≤ q.EndDate) :
    CalculateYearStats (first :: rest) b h v g today clock
      = (some { (CalculatePeriodStats q b h v g today clock).1 with Name := "Year" }, none) := by
  obtain ⟨⟨a1, a2, a3⟩, ⟨c1, c2, c3⟩⟩ :=
    yearBounds_fold
      (fun se tp =>
        let start := if tp.StartDate < se.1 then tp.StartDate else se.1
        let stop := if tp.EndDate > se.2 then tp.EndDate else se.2
        (start, stop))
      (fun _ _ => rfl) (first :: rest) (first.StartDate, first.EndDate)
  simp only at a1 a3 c1 c3
  generalize hb : (first :: rest).foldl
      (fun se tp =>
        let start := if tp.StartDate < se.1 then tp.StartDate else se.1
        let stop := if tp.EndDate > se.2 then tp.EndDate else se.2
        (start, stop)) (first.StartDate, first.EndDate) = bounds at a1 a2 a3 c1 c2 c3
  have hlo : bounds.1 = q.StartDate := by
    obtain ⟨t1, ht1, ht1e⟩ := hlo1
    have hle1 : bounds.1 ≤ q.StartDate := by
      rw [← ht1e]
      exact a2 t1 ht1
    have hle2 : q.StartDate ≤ bounds.1 := by
      rcases a3 with a3 | ⟨t2, ht2, ht2e⟩
      · rw [a3]
        exact hlo2 first (List.mem_cons_self _ _)
      · rw [← ht2e]
        exact hlo2 t2 ht2
    omega
  have hhi : bounds.2 = q.EndDate := by
    obtain ⟨t1, ht1, ht1e⟩ := hhi1
    have hle1 : q.EndDate ≤ bounds.2 := by
      rw [← ht1e]
      exact c2 t1 ht1
    have hle2 : bounds.2 ≤ q.EndDate := by
      rcases c3 with c3 | ⟨t2, ht2, ht2e⟩
      · rw [c3]
        exact hhi2 first (List.mem_cons_self _ _)
      · rw [← ht2e]
        exact hhi2 t2 ht2
    omega
  unfold CalculateYearStats
  simp only [hb, hlo, hhi]
  cases today <;> simp [CalculatePeriodStats, deriveStats, determineComplianceStatus]

/-- C16: for a non-empty list of periods, `CalculateYearStats` returns, without
error, the statistics that `CalculatePeriodStats` returns for any period `q`
whose start date is the least start date of the list and whose end date is the
greatest end date of the list, with the name "Year"; the result is the same
for every order of the list. -/
theorem C16_yearStats_is_spanning_period (periods : List TimePeriod) (b : BadgeEntryData)
    (h : HolidayData) (v : VacationData) (g : Int) (today : Option Int) (clock : Int)
    (q : TimePeriod)
    (hlo1 : ∃ tp ∈ periods, tp.StartDate = q.StartDate)
    (hlo2 : ∀ tp ∈ periods, q.StartDate ≤ tp.StartDate)
    (hhi1 : ∃ tp ∈ periods, tp.EndDate = q.EndDate)
    (hhi2 : ∀ tp ∈ periods, tp.EndDate ≤ q.EndDate) :
    CalculateYearStats periods b h v g today clock
      = (some { (CalculatePeriodStats q b h v g today clock).1 with Name := "Year" }, none) ∧
    (∀ periods2 : List TimePeriod, periods2.Perm periods →
      CalculateYearStats periods2 b h v g today clock
        = CalculateYearStats periods b h v g today clock) := by
  have key : ∀ ps : List TimePeriod, ps.Perm periods →
      CalculateYearStats ps b h v g today clock
        = (some { (CalculatePeriodStats q b h v g today clock).1 with Name := "Year" }, none) := by
    intro ps hperm
    cases ps with
    | nil =>
      obtain ⟨tp, htp, -⟩ := hlo1
      have := hperm.symm.subset htp
      simp at this
    | cons first rest =>
      apply CalculateYearStats_cons
      · obtain ⟨tp, htp, he⟩ := hlo1
        exact ⟨tp, hperm.symm.subset htp, he⟩
      · intro tp htp
        exact hlo2 tp (hperm.subset htp)
      · obtain ⟨tp, htp, he⟩ := hhi1
        exact ⟨tp, hperm.symm.subset htp, he⟩
      · intro tp htp
        exact hhi2 tp (hperm.subset htp)
  refine ⟨key periods (List.Perm.refl _), ?_⟩
  intro ps hperm
  rw [key ps hperm, key periods (List.Perm.refl _)]

/-- C17: `CalculateYearStats` returns the pair `(nil, nil)` exactly on the empty
list; on every non-empty list it returns statistics and no error; and
`CalculatePeriodStats` returns no error on any period, its start after its end
included. -/
theorem C17_year_stats_sentinel_and_no_error (periods : List TimePeriod) (p : TimePeriod)
    (b : BadgeEntryData) (h : HolidayData) (v : VacationData) (g : Int)
    (today : Option Int) (clock : Int) :
    (CalculateYearStats periods b h v g today clock = (none, none) ↔ periods = []) ∧
    ((CalculateYearStats periods b h v g today clock).1.isSome = true ↔ periods ≠ []) ∧
    (CalculateYearStats periods b h v g today clock).2 = none ∧
    (CalculatePeriodStats p b h v g today clock).2 = none := by
  cases periods with
  | nil =>
    simp [CalculateYearStats, CalculatePeriodStats]
  | cons first rest =>
    simp [CalculateYearStats, CalculatePeriodStats]

/-! ## Lemmas on the pace -/

theorem f64_half_integer (k : ℤ) (hk0 : 0 < k) (hk : k < (2 : ℤ) ^ 53) :
    f64 ((k : ℚ) / 2) = (k : ℚ) / 2 := by
  obtain ⟨m, rfl⟩ := Int.eq_ofNat_of_zero_le hk0.le
  have hm0 : 0 < m := by exact_mod_cast hk0
  have hm : m < 2 ^ 53 := by exact_mod_cast hk
  have hx : (0 : ℚ) < ((m : ℤ) : ℚ) / 2 := by
    have : (0 : ℚ) < ((m : ℤ) : ℚ) := by exact_mod_cast hk0
    positivity
  rw [f64_of_pos _ hx]
  have hex := f64pos_exact m (-1) hm0 hm
  have heq : (m : ℚ) * (2 : ℚ) ^ (-1 : ℤ) = ((m : ℤ) : ℚ) / 2 := by
    rw [zpow_neg_one]
    push_cast
    ring
  rw [heq] at hex
  exact hex

theorem floor_f64_div_add_half (P T : ℤ) (hP0 : 0 ≤ P) (hP : P < (2 : ℤ) ^ 52) (hT : 0 < T) :
    ⌊f64 ((P : ℚ) / (T : ℚ)) + 1 / 2⌋ = ⌊(P : ℚ) / (T : ℚ) + 1 / 2⌋ := by
  have hTq : (0 : ℚ) < (T : ℚ) := by exact_mod_cast hT
  have hPq0 : (0 : ℚ) ≤ (P : ℚ) := by exact_mod_cast hP0
  have hPq : (P : ℚ) ≤ 4503599627370495 := by
    have h1 : P ≤ (2 : ℤ) ^ 52 - 1 := by omega
    have h2 : (2 : ℤ) ^ 52 - 1 = 4503599627370495 := by norm_num
    rw [h2] at h1
    exact_mod_cast h1
  have hv0 : (0 : ℚ) ≤ (P : ℚ) / (T : ℚ) := by positivity
  have herr := f64_abs_sub_le ((P : ℚ) / (T : ℚ))
  rw [abs_of_nonneg hv0] at herr
  have hu53 : (2 : ℚ) ^ (-53 : ℤ) * 9007199254740992 = 1 := by norm_num
  have hu0 : (0 : ℚ) < (2 : ℚ) ^ (-53 : ℤ) := by positivity
  generalize (2 : ℚ) ^ (-53 : ℤ) = u at herr hu53 hu0
  -- the rounding error is below `1 / (2 * T)`
  have herr2 : |f64 ((P : ℚ) / (T : ℚ)) - (P : ℚ) / (T : ℚ)| * (2 * (T : ℚ)) < 1 := by
    have h1 : |f64 ((P : ℚ) / (T : ℚ)) - (P : ℚ) / (T : ℚ)| * (2 * (T : ℚ))
        ≤ (P : ℚ) / (T : ℚ) * u * (2 * (T : ℚ)) :=
      mul_le_mul_of_nonneg_right herr (by positivity)
    have h2 : (P : ℚ) / (T : ℚ) * u * (2 * (T : ℚ)) = 2 * u * (P : ℚ) := by
      field_simp
      ring
    have h3 : 2 * u * (P : ℚ) ≤ 2 * u * 4503599627370495 :=
      mul_le_mul_of_nonneg_left hPq (by positivity)
    linarith
  obtain ⟨e1, e2⟩ := abs_lt.mp (by
    have : |f64 ((P : ℚ) / (T : ℚ)) - (P : ℚ) / (T : ℚ)| < 1 / (2 * (T : ℚ)) := by
      rw [lt_div_iff₀ (by positivity)]
      exact herr2
    exact this)
  set n : ℤ := ⌊(P : ℚ) / (T : ℚ) + 1 / 2⌋ with hn
  have hn1 : (n : ℚ) ≤ (P : ℚ) / (T : ℚ) + 1 / 2 := Int.floor_le _
  have hn2 : (P : ℚ) / (T : ℚ) + 1 / 2 < (n : ℚ) + 1 := Int.lt_floor_add_one _
  -- integer forms
  have hi1 : (2 * n - 1) * T ≤ 2 * P := by
    have h1 : ((n : ℚ) - 1 / 2) * (T : ℚ) ≤ (P : ℚ) := by
      have : (n : ℚ) - 1 / 2 ≤ (P : ℚ) / (T : ℚ) := by linarith
      rwa [le_div_iff₀ hTq] at this
    have : ((2 * n - 1) * T : ℚ) ≤ (2 * P : ℚ) := by linarith
    exact_mod_cast this
  have hi2 : 2 * P < (2 * n + 1) * T := by
    have h1 : (P : ℚ) < ((n : ℚ) + 1 / 2) * (T : ℚ) := by
      have : (P : ℚ) / (T : ℚ) < (n : ℚ) + 1 / 2 := by linarith
      rwa [div_lt_iff₀ hTq] at this
    have : (2 * P : ℚ) < ((2 * n + 1) * T : ℚ) := by linarith
    exact_mod_cast this
  have hinv : (1 : ℚ) / (2 * (T : ℚ)) * (2 * (T : ℚ)) = 1 := by field_simp
  rw [Int.floor_eq_iff]
  constructor
  · -- lower bound
    rcases eq_or_lt_of_le hi1 with heq | hlt
    · -- a tie: the quotient is a half integer and is not rounded
      have hv : (P : ℚ) / (T : ℚ) = ((2 * n - 1 : ℤ) : ℚ) / 2 := by
        rw [div_eq_div_iff hTq.ne' (by norm_num)]
        have : ((2 * P : ℤ) : ℚ) = (((2 * n - 1) * T : ℤ) : ℚ) := by rw [heq]
        push_cast at this ⊢
        linarith
      have hk0 : 0 < 2 * n - 1 := by
        by_contra hc
        have h1 : (2 * n - 1) * T ≤ 0 := by
          have : 2 * n - 1 ≤ 0 := by omega
          exact mul_nonpos_of_nonpos_of_nonneg this hT.le
        have h2 : 2 * P = 0 := by omega
        have h3 : (2 * n - 1) * T = 0 := by omega
        rcases mul_eq_zero.mp h3 with h4 | h4 <;> omega
      have hk : 2 * n - 1 < (2 : ℤ) ^ 53 := by
        have h1 : (2 * n - 1) * 1 ≤ (2 * n - 1) * T :=
          mul_le_mul_of_nonneg_left (by omega) hk0.le
        omega
      rw [hv, f64_half_integer _ hk0 hk]
      push_cast
      linarith
    · have h1 : (2 * n - 1) * T + 1 ≤ 2 * P := by omega
      have h2 : (((2 * n - 1) * T + 1 : ℤ) : ℚ) ≤ ((2 * P : ℤ) : ℚ) := by exact_mod_cast h1
      push_cast at h2
      have h3 : ((n : ℚ) - 1 / 2) + 1 / (2 * (T : ℚ)) ≤ (P : ℚ) / (T : ℚ) := by
        rw [le_div_iff₀ hTq]
        have : (((n : ℚ) - 1 / 2) + 1 / (2 * (T : ℚ))) * (T : ℚ)
            = ((2 * (n : ℚ) - 1) * (T : ℚ) + 1) / 2 := by
          field_simp
          ring
        rw [this]
        linarith
      linarith
  · -- upper bound
    have h1 : 2 * P + 1 ≤ (2 * n + 1) * T := by omega
    have h2 : (((2 * P + 1 : ℤ)) : ℚ) ≤ (((2 * n + 1) * T : ℤ) : ℚ) := by exact_mod_cast h1
    push_cast at h2
    have h3 : (P : ℚ) / (T : ℚ) + 1 / (2 * (T : ℚ)) ≤ (n : ℚ) + 1 / 2 := by
      have : (P : ℚ) / (T : ℚ) + 1 / (2 * (T : ℚ)) = (2 * (P : ℚ) + 1) / (2 * (T : ℚ)) := by
        field_simp
        ring
      rw [this, div_le_iff₀ (by positivity)]
      linarith
    linarith

theorem expected_exact (F R T : ℤ) (hF : 0 < F) (hF2 : F ≤ (2 : ℤ) ^ 48) (hT : 0 < T)
    (hT2 : T ≤ (2 : ℤ) ^ 48) (hP : |F * R| < (2 : ℤ) ^ 52) :
    truncInt (mathRound (fdiv (fmul (float64 F) (float64 R)) (float64 T)))
      = (if 0 ≤ F * R then ⌊((F * R : ℤ) : ℚ) / (T : ℚ) + 1 / 2⌋
         else -⌊-(((F * R : ℤ) : ℚ) / (T : ℚ)) + 1 / 2⌋) := by
  have h5253 : (2 : ℤ) ^ 52 < (2 : ℤ) ^ 53 := by norm_num
  have hP' := abs_lt.mp hP
  have hRb : |R| < (2 : ℤ) ^ 52 := by
    have h1 : |F * R| = |F| * |R| := abs_mul F R
    have h2 : |F| = F := abs_of_pos hF
    have h3 : 0 ≤ |R| := abs_nonneg R
    have h4 : 1 * |R| ≤ F * |R| := mul_le_mul_of_nonneg_right (by omega) h3
    rw [h1, h2] at hP
    omega
  have hR' := abs_lt.mp hRb
  have hTq : (0 : ℚ) < (T : ℚ) := by exact_mod_cast hT
  rw [float64_of_bounded F hF.le hF2, float64_of_bounded T hT.le hT2,
    float64_exact R (by omega) (by omega)]
  unfold fdiv fmul
  have hprod : f64 ((F : ℚ) * (R : ℚ)) = ((F * R : ℤ) : ℚ) := by
    have := float64_exact (F * R) (by omega) (by omega)
    unfold float64 at this
    rw [← this]
    push_cast
    rfl
  rw [hprod]
  generalize F * R = P at hP hP' ⊢
  by_cases h0 : 0 ≤ P
  · have hv0 : (0 : ℚ) ≤ (P : ℚ) / (T : ℚ) := by
      have : (0 : ℚ) ≤ (P : ℚ) := by exact_mod_cast h0
      positivity
    rw [if_pos h0, truncInt_mathRound_of_nonneg _ (f64_nonneg _ hv0)]
    exact floor_f64_div_add_half P T h0 hP'.2 hT
  · have hneg : (0 : ℚ) < (((-P : ℤ)) : ℚ) / (T : ℚ) := by
      have : (0 : ℚ) < ((-P : ℤ) : ℚ) := by exact_mod_cast (by omega : 0 < -P)
      positivity
    have hfl := floor_f64_div_add_half (-P) T (by omega) (by omega) hT
    have hv : (P : ℚ) / (T : ℚ) = -(((-P : ℤ) : ℚ) / (T : ℚ)) := by
      push_cast
      ring
    have hq : f64 ((P : ℚ) / (T : ℚ)) = -f64 (((-P : ℤ) : ℚ) / (T : ℚ)) := by
      rw [hv, f64_neg]
    have hqneg : ¬ (0 ≤ f64 ((P : ℚ) / (T : ℚ))) := by
      rw [hq]
      have := f64_pos _ hneg
      linarith
    rw [if_neg h0]
    unfold mathRound
    rw [if_neg hqneg, hq, neg_neg, hfl, hv, neg_neg]
    have : -(((⌊((-P : ℤ) : ℚ) / (T : ℚ) + 1 / 2⌋ : ℤ)) : ℚ)
        = (((-⌊((-P : ℤ) : ℚ) / (T : ℚ) + 1 / 2⌋ : ℤ)) : ℚ) := by push_cast; ring
    rw [this, truncInt_intCast]

/-! ## Concrete checks of the pace, the first quarter of 2025 and the year -/

/-- C18 (counterexample): on the three-day period 2025-01-06 to 2025-01-08 with
no badge entry, the goal 269780286814641326 and today 2025-01-07, one day has
elapsed of three and 8093408604439240 days are required; the exact quotient
8093408604439240 / 3 rounds to 2697802868146413, but its float64 value is
2697802868146413.5 and `DaysAheadOfPace` is -2697802868146414. -/
theorem C18_pace_rounds_float_quotient :
    (CalculatePeriodStats threeDayPeriod NewBadgeEntryData NewHolidayData NewVacationData
        269780286814641326 (some (civil 2025 1 7)) 0).1.DaysThusFar = 1 ∧
    (CalculatePeriodStats threeDayPeriod NewBadgeEntryData NewHolidayData NewVacationData
        269780286814641326 (some (civil 2025 1 7)) 0).1.TotalDays = 3 ∧
    (CalculatePeriodStats threeDayPeriod NewBadgeEntryData NewHolidayData NewVacationData
        269780286814641326 (some (civil 2025 1 7)) 0).1.DaysRequired = 8093408604439240 ∧
    (CalculatePeriodStats threeDayPeriod NewBadgeEntryData NewHolidayData NewVacationData
        269780286814641326 (some (civil 2025 1 7)) 0).1.DaysBadgedIn = 0 ∧
    ⌊(((1 : ℤ) * 8093408604439240 : ℤ) : ℚ) / ((3 : ℤ) : ℚ) + 1 / 2⌋ = 2697802868146413 ∧
    (CalculatePeriodStats threeDayPeriod NewBadgeEntryData NewHolidayData NewVacationData
        269780286814641326 (some (civil 2025 1 7)) 0).1.DaysAheadOfPace
      = -2697802868146414 := by
  decide!

/-- C20 (counterexample): for the period 2025-01-01 to 2025-03-31 with the single
holiday 2025-01-01, no vacation, no badge entry, goal 50 and today 2025-03-31,
none of the figures 63, 62, 31, 31, 0 of the claim is returned. -/
theorem C20_q1_2025_has_64_weekdays :
    (CalculatePeriodStats q1Period NewBadgeEntryData newYearHoliday NewVacationData 50
        (some (civil 2025 3 31)) 0).1.AvailableWorkdays ≠ 63 ∧
    (CalculatePeriodStats q1Period NewBadgeEntryData newYearHoliday NewVacationData 50
        (some (civil 2025 3 31)) 0).1.TotalDays ≠ 62 ∧
    (CalculatePeriodStats q1Period NewBadgeEntryData newYearHoliday NewVacationData 50
        (some (civil 2025 3 31)) 0).1.DaysRequired ≠ 31 ∧
    (CalculatePeriodStats q1Period NewBadgeEntryData newYearHoliday NewVacationData 50
        (some (civil 2025 3 31)) 0).1.DaysStillNeeded ≠ 31 ∧
    (CalculatePeriodStats q1Period NewBadgeEntryData newYearHoliday NewVacationData 50
        (some (civil 2025 3 31)) 0).1.DaysLeft ≠ 0 := by
  decide!

/-- C20 (amended): for the period 2025-01-01 to 2025-03-31 with the single
holiday 2025-01-01, no vacation, no badge entry, goal 50 and today 2025-03-31,
`CalculatePeriodStats` returns `AvailableWorkdays = 64`, `TotalDays = 63`,
`DaysRequired = 32`, `DaysBadgedIn = 0`, `DaysStillNeeded = 32`, `DaysLeft = 1`
and the status "Impossible". -/
theorem C20_q1_2025_end_of_quarter :
    (CalculatePeriodStats q1Period NewBadgeEntryData newYearHoliday NewVacationData 50
        (some (civil 2025 3 31)) 0).1.AvailableWorkdays = 64 ∧
    (CalculatePeriodStats q1Period NewBadgeEntryData newYearHoliday NewVacationData 50
        (some (civil 2025 3 31)) 0).1.TotalDays = 63 ∧
    (CalculatePeriodStats q1Period NewBadgeEntryData newYearHoliday NewVacationData 50
        (some (civil 2025 3 31)) 0).1.DaysRequired = 32 ∧
    (CalculatePeriodStats q1Period NewBadgeEntryData newYearHoliday NewVacationData 50
        (some (civil 2025 3 31)) 0).1.DaysBadgedIn = 0 ∧
    (CalculatePeriodStats q1Period NewBadgeEntryData newYearHoliday NewVacationData 50
        (some (civil 2025 3 31)) 0).1.DaysStillNeeded = 32 ∧
    (CalculatePeriodStats q1Period NewBadgeEntryData newYearHoliday NewVacationData 50
        (some (civil 2025 3 31)) 0).1.DaysLeft = 1 ∧
    (CalculatePeriodStats q1Period NewBadgeEntryData newYearHoliday NewVacationData 50
        (some (civil 2025 3 31)) 0).1.ComplianceStatus = "Impossible" := by
  decide!

/-- C16 (witness): the year statistics of the first two quarters of 2025 are the
statistics of the half year 2025-01-01 to 2025-06-30, named "Year". -/
theorem C16_yearStats_is_spanning_period_witness :
    ((∃ tp ∈ [q1Period, q2Period], tp.StartDate = halfYearPeriod.StartDate) ∧
      (∀ tp ∈ [q1Period, q2Period], halfYearPeriod.StartDate ≤ tp.StartDate) ∧
      (∃ tp ∈ [q1Period, q2Period], tp.EndDate = halfYearPeriod.EndDate) ∧
      (∀ tp ∈ [q1Period, q2Period], tp.EndDate ≤ halfYearPeriod.EndDate)) ∧
    CalculateYearStats [q1Period, q2Period] NewBadgeEntryData NewHolidayData NewVacationData 50
        (some (civil 2025 6 30)) 0
      = (some { (CalculatePeriodStats halfYearPeriod NewBadgeEntryData NewHolidayData
          NewVacationData 50 (some (civil 2025 6 30)) 0).1 with Name := "Year" }, none) :=
  ⟨by decide,
    (C16_yearStats_is_spanning_period [q1Period, q2Period] NewBadgeEntryData NewHolidayData
      NewVacationData 50 (some (civil 2025 6 30)) 0 halfYearPeriod
      (by decide) (by decide) (by decide) (by decide)).1⟩

/-! ## Lemmas on the records of the workday map -/

theorem GoMap.set_eq_self {α β : Type} [DecidableEq α] (m : GoMap α β) (k : α) (v : β)
    (h : GoMap.get? m k = some v) : GoMap.set m k v = m := by
  induction m with
  | nil => simp [GoMap.get?] at h
  | cons e m ih =>
    obtain ⟨k1, v1⟩ := e
    by_cases h1 : k1 = k
    · subst h1
      simp only [GoMap.get?, if_true, Option.some.injEq] at h
      subst h
      simp [GoMap.set]
    · simp only [GoMap.get?, h1, if_false] at h
      simp [GoMap.set, h1, ih h]

theorem GoMap.keys_set_of_mem {α β : Type} [DecidableEq α] (m : GoMap α β) (k : α) (v : β)
    (h : k ∈ m.map Prod.fst) : (GoMap.set m k v).map Prod.fst = m.map Prod.fst := by
  induction m with
  | nil => simp at h
  | cons e m ih =>
    obtain ⟨k1, v1⟩ := e
    by_cases h1 : k1 = k
    · subst h1
      simp [GoMap.set]
    · have h2 : k ∈ m.map Prod.fst := by
        simp only [List.map_cons, List.mem_cons] at h
        rcases h with h | h
        · exact absurd h.symm h1
        · exact h
      simp [GoMap.set, h1, ih h2]

theorem GoMap.get?_of_mem_nodup {α β : Type} [DecidableEq α] (m : GoMap α β)
    (hnd : (m.map Prod.fst).Nodup) (e : α × β) (he : e ∈ m) : GoMap.get? m e.1 = some e.2 := by
  induction m with
  | nil => simp at he
  | cons x m ih =>
    obtain ⟨k1, v1⟩ := x
    simp only [List.map_cons, List.nodup_cons] at hnd
    rcases List.mem_cons.mp he with rfl | he
    · simp [GoMap.get?]
    · have hne : k1 ≠ e.1 := by
        intro hc
        apply hnd.1
        rw [hc]
        exact List.mem_map_of_mem Prod.fst he
      simp [GoMap.get?, hne, ih hnd.2 he]

theorem GoMap.ext_of_keys {α β : Type} [DecidableEq α] (m1 : GoMap α β) :
    ∀ m2 : GoMap α β, m1.map Prod.fst = m2.map Prod.fst → (m1.map Prod.fst).Nodup →
      (∀ k, GoMap.get? m1 k = GoMap.get? m2 k) → m1 = m2 := by
  induction m1 with
  | nil =>
    intro m2 hk _ _
    cases m2 with
    | nil => rfl
    | cons y m2 => simp at hk
  | cons x m1 ih =>
    intro m2 hk hnd hget
    cases m2 with
    | nil => simp at hk
    | cons y m2 =>
      obtain ⟨k1, v1⟩ := x
      obtain ⟨k2, v2⟩ := y
      simp only [List.map_cons, List.cons.injEq] at hk
      obtain ⟨hk1, hk2⟩ := hk
      subst hk1
      simp only [List.map_cons, List.nodup_cons] at hnd
      have hv : v1 = v2 := by
        have := hget k1
        simpa [GoMap.get?] using this
      subst hv
      have hrest : m1 = m2 := by
        apply ih m2 hk2 hnd.2
        intro k
        by_cases hkk : k1 = k
        · subst hkk
          have h1 : GoMap.get? m1 k1 = none := by
            rw [GoMap.get?_eq_none_iff]
            intro e he hc
            apply hnd.1
            rw [← hc]
            exact List.mem_map_of_mem Prod.fst he
          have h2 : GoMap.get? m2 k1 = none := by
            rw [GoMap.get?_eq_none_iff]
            intro e he hc
            apply hnd.1
            rw [hk2, ← hc]
            exact List.mem_map_of_mem Prod.fst he
          rw [h1, h2]
        · have := hget k
          simpa [GoMap.get?, hkk] using this
      rw [hrest]

theorem badgeLookup_wdMap (bm : GoMap DateKey BadgeEntry) (k : DateKey) (wd : Workday)
    (st : LoopState) (hget : GoMap.get? st.wdMap k = some wd) :
    (badgeLookup bm k wd st).wdMap
      = GoMap.set st.wdMap k
          (if isFlexKey bm k then { wd with IsBadgedIn := true, IsFlexCredit := true }
           else if isBadgedKey bm k then { wd with IsBadgedIn := true }
           else wd) := by
  unfold badgeLookup isFlexKey isBadgedKey
  cases hb : GoMap.get? bm k with
  | none =>
    simp only [Bool.false_eq_true, if_false]
    exact (GoMap.set_eq_self _ _ _ hget).symm
  | some entry =>
    cases h1 : entry.IsBadgedIn <;> cases h2 : entry.IsFlexCredit <;>
      simp [h1, h2, GoMap.set_eq_self _ _ _ hget]

theorem loopBody_wdMap (now : Int) (bm : GoMap DateKey BadgeEntry)
    (hm : GoMap DateKey Holiday) (vm : GoMap DateKey Vacation)
    (st : LoopState) (k : DateKey) (wd : Workday) (hget : GoMap.get? st.wdMap k = some wd) :
    (loopBody now bm hm vm st k wd).wdMap = GoMap.set st.wdMap k (visitedRecord bm hm vm k wd) := by
  unfold loopBody visitedRecord isHolidayKey isVacationKey
  by_cases hh : (GoMap.get? hm k).isSome = true
  · simp [hh]
  · by_cases hv : (GoMap.get? vm k).isSome = true
    · simp [hh, hv]
    · simp only [hh, hv, if_false, Bool.not_false, Bool.and_self, Bool.false_eq_true,
        Bool.and_false, Bool.and_true]
      have key : ∀ st2 : LoopState, st2.wdMap = st.wdMap →
          (badgeLookup bm k wd st2).wdMap
            = GoMap.set st.wdMap k
                (if isFlexKey bm k then { wd with IsBadgedIn := true, IsFlexCredit := true }
                 else if isBadgedKey bm k then { wd with IsBadgedIn := true }
                 else wd) := by
        intro st2 h2
        rw [← h2]
        exact badgeLookup_wdMap bm k wd st2 (by rw [h2]; exact hget)
      by_cases h1 : wd.Date > now
      · rw [if_pos h1]
        exact key _ rfl
      · rw [if_neg h1]
        by_cases h2 : wd.Date = now
        · rw [if_pos h2]
          exact key _ rfl
        · rw [if_neg h2]
          exact key _ rfl

theorem runLoop_wdMap (now : Int) (bm : GoMap DateKey BadgeEntry)
    (hm : GoMap DateKey Holiday) (vm : GoMap DateKey Vacation)
    (es : List (DateKey × Workday)) : ∀ st : LoopState,
    (es.map Prod.fst).Nodup → (∀ e ∈ es, GoMap.get? st.wdMap e.1 = some e.2) →
    ((runLoop now bm hm vm es st).wdMap.map Prod.fst = st.wdMap.map Prod.fst) ∧
    (∀ k, GoMap.get? (runLoop now bm hm vm es st).wdMap k
      = if k ∈ es.map Prod.fst then (GoMap.get? st.wdMap k).map (visitedRecord bm hm vm k)
        else GoMap.get? st.wdMap k) := by
  induction es with
  | nil =>
    intro st _ _
    simp [runLoop_nil]
  | cons e es ih =>
    intro st hnd hget
    simp only [List.map_cons, List.nodup_cons] at hnd
    have hge : GoMap.get? st.wdMap e.1 = some e.2 := hget e (List.mem_cons_self _ _)
    have hw := loopBody_wdMap now bm hm vm st e.1 e.2 hge
    have hmem : e.1 ∈ st.wdMap.map Prod.fst := by
      rw [← GoMap.get?_isSome_iff, hge]
      rfl
    have hget1 : ∀ x ∈ es, GoMap.get? (loopBody now bm hm vm st e.1 e.2).wdMap x.1 = some x.2 := by
      intro x hx
      rw [hw, GoMap.get?_set]
      have hne : ¬ e.1 = x.1 := by
        intro hc
        apply hnd.1
        rw [hc]
        exact List.mem_map_of_mem Prod.fst hx
      rw [if_neg hne]
      exact hget x (List.mem_cons_of_mem _ hx)
    obtain ⟨ih1, ih2⟩ := ih (loopBody now bm hm vm st e.1 e.2) hnd.2 hget1
    rw [runLoop_cons]
    constructor
    · rw [ih1, hw, GoMap.keys_set_of_mem _ _ _ hmem]
    · intro k
      rw [ih2 k, hw, GoMap.get?_set]
      by_cases hk : e.1 = k
      · subst hk
        have hnot : e.1 ∉ es.map Prod.fst := hnd.1
        simp [hnot, hge]
      · have hk2 : ¬ k = e.1 := fun hc => hk hc.symm
        simp only [hk, if_false, List.map_cons, List.mem_cons, hk2, false_or]

theorem runLoop_perm (now : Int) (bm : GoMap DateKey BadgeEntry)
    (hm : GoMap DateKey Holiday) (vm : GoMap DateKey Vacation)
    (m : GoMap DateKey Workday) (hnd : (m.map Prod.fst).Nodup)
    (es : List (DateKey × Workday)) (hperm : es.Perm m) :
    runLoop now bm hm vm es (initState m) = runLoop now bm hm vm m (initState m) := by
  obtain ⟨c1, c2, c3, c4, c5, c6, c7⟩ := runLoop_fields now bm hm vm es (initState m)
  obtain ⟨d1, d2, d3, d4, d5, d6, d7⟩ := runLoop_fields now bm hm vm m (initState m)
  have hget : ∀ e ∈ m, GoMap.get? (initState m).wdMap e.1 = some e.2 := by
    intro e he
    exact GoMap.get?_of_mem_nodup m hnd e he
  have hnd2 : (es.map Prod.fst).Nodup := (hperm.map Prod.fst).nodup_iff.mpr hnd
  obtain ⟨k1, g1⟩ := runLoop_wdMap now bm hm vm es (initState m) hnd2
    (fun e he => hget e (hperm.subset he))
  obtain ⟨k2, g2⟩ := runLoop_wdMap now bm hm vm m (initState m) hnd hget
  have hw : (runLoop now bm hm vm es (initState m)).wdMap
      = (runLoop now bm hm vm m (initState m)).wdMap := by
    apply GoMap.ext_of_keys
    · rw [k1, k2]
    · rw [k1]
      exact hnd
    · intro k
      rw [g1 k, g2 k]
      have : k ∈ es.map Prod.fst ↔ k ∈ m.map Prod.fst := (hperm.map Prod.fst).mem_iff
      by_cases hk : k ∈ m.map Prod.fst
      · rw [if_pos (this.mpr hk), if_pos hk]
      · rw [if_neg (fun hc => hk (this.mp hc)), if_neg hk]
  have e1 := c1.trans (by rw [hperm.length_eq, ← d1])
  have e2 := c2.trans (by rw [hperm.countP_eq, ← d2])
  have e3 := c3.trans (by rw [hperm.countP_eq, ← d3])
  have e4 := c4.trans (by rw [hperm.countP_eq, ← d4])
  have e5 := c5.trans (by rw [hperm.countP_eq, ← d5])
  have e6 := c6.trans (by rw [hperm.countP_eq, ← d6])
  have e7 := c7.trans (by rw [hperm.countP_eq, ← d7])
  cases hA : runLoop now bm hm vm es (initState m)
  cases hB : runLoop now bm hm vm m (initState m)
  rw [hA, hB] at e1 e2 e3 e4 e5 e6 e7 hw
  simp only at e1 e2 e3 e4 e5 e6 e7 hw
  subst e1 e2 e3 e4 e5 e6 e7 hw
  rfl

theorem workdayStats_get? (p : TimePeriod) (b : BadgeEntryData) (h : HolidayData)
    (v : VacationData) (g : Int) (today : Option Int) (clock : Int) (k : DateKey) :
    GoMap.get? (CalculatePeriodStats p b h v g today clock).1.WorkdayStats k
      = (GoMap.get? (CreateWorkdayMap p.StartDate p.EndDate) k).map
          (visitedRecord (b.GetBadgeMap p.StartDate p.EndDate) h.GetHolidayMap
            v.GetVacationMap k) := by
  rw [CalculatePeriodStats_fst]
  simp only [deriveStats]
  have hnd := nodup_keys_CreateWorkdayMap p.StartDate p.EndDate
  obtain ⟨-, g1⟩ := runLoop_wdMap (refDate today clock) (b.GetBadgeMap p.StartDate p.EndDate)
    h.GetHolidayMap v.GetVacationMap (CreateWorkdayMap p.StartDate p.EndDate)
    (initState (CreateWorkdayMap p.StartDate p.EndDate)) hnd
    (fun e he => GoMap.get?_of_mem_nodup _ hnd e he)
  rw [g1 k]
  by_cases hk : k ∈ (CreateWorkdayMap p.StartDate p.EndDate).map Prod.fst
  · rw [if_pos hk]
    rfl
  · rw [if_neg hk]
    have hnone : GoMap.get? (CreateWorkdayMap p.StartDate p.EndDate) k = none := by
      cases hc : GoMap.get? (CreateWorkdayMap p.StartDate p.EndDate) k with
      | none => rfl
      | some w =>
        exfalso
        apply hk
        rw [← GoMap.get?_isSome_iff, hc]
        rfl
    show GoMap.get? (CreateWorkdayMap p.StartDate p.EndDate) k = _
    rw [hnone]
    rfl

/-! ## Lemmas on the holiday, vacation and badge maps -/

theorem GoMap.mem_keys_set {α β : Type} [DecidableEq α] (m : GoMap α β) (k k2 : α) (v : β) :
    k2 ∈ (GoMap.set m k v).map Prod.fst ↔ k2 = k ∨ k2 ∈ m.map Prod.fst := by
  rw [← GoMap.get?_isSome_iff, ← GoMap.get?_isSome_iff, GoMap.get?_set]
  by_cases hk : k = k2
  · subst hk
    simp
  · have : ¬ k2 = k := fun hc => hk hc.symm
    simp [hk, this]

theorem holidayMap_fold_keys (l : List Holiday) : ∀ (acc : GoMap DateKey Holiday) (k : DateKey),
    k ∈ (l.foldl (fun m holiday => GoMap.set m holiday.Date holiday) acc).map Prod.fst
      ↔ k ∈ acc.map Prod.fst ∨ ∃ hol ∈ l, hol.Date = k := by
  induction l with
  | nil => intro acc k; simp
  | cons x l ih =>
    intro acc k
    simp only [List.foldl_cons, ih, GoMap.mem_keys_set, List.mem_cons, exists_eq_or_imp]
    constructor
    · rintro ((h | h) | h)
      · exact Or.inr (Or.inl h.symm)
      · exact Or.inl h
      · exact Or.inr (Or.inr h)
    · rintro (h | h | h)
      · exact Or.inl (Or.inr h)
      · exact Or.inl (Or.inl h.symm)
      · exact Or.inr h

theorem isHolidayKey_iff (h : HolidayData) (k : DateKey) :
    isHolidayKey h.GetHolidayMap k = true ↔ ∃ hol ∈ h.holidays, hol.Date = k := by
  unfold isHolidayKey HolidayData.GetHolidayMap
  rw [GoMap.get?_isSome_iff, holidayMap_fold_keys]
  simp

theorem GetVacationMap_add_single (v : VacationData) (vac : Vacation) (d : Int)
    (hs : vac.StartDate = formatDate d) (he : vac.EndDate = formatDate d) :
    (v.Add vac).GetVacationMap = v.GetVacationMap ∨
    (v.Add vac).GetVacationMap = GoMap.set v.GetVacationMap (formatDate d) vac := by
  unfold VacationData.GetVacationMap VacationData.Add
  simp only [List.foldl_append, List.foldl_cons, List.foldl_nil, hs, he]
  by_cases hp : minParseDay ≤ d ∧ d ≤ maxParseDay
  · have hparse : parseDate (formatDate d) = some d := by
      simp [parseDate, formatDate, hp]
    have hr : dateRange d d = [d] := by
      unfold dateRange
      have : (d - d + 1).toNat = 1 := by omega
      rw [this]
      rfl
    simp only [hparse, hr, List.foldl_cons, List.foldl_nil]
    by_cases hw : weekday d = 6 ∨ weekday d = 0
    · left
      rw [if_pos hw]
    · right
      rw [if_neg hw]
  · have hparse : parseDate (formatDate d) = none := by
      simp only [parseDate, formatDate]
      rw [if_neg hp]
    left
    simp only [hparse]

theorem loopBody_congr_vacationMap (now : Int) (bm : GoMap DateKey BadgeEntry)
    (hm : GoMap DateKey Holiday) (vm1 vm2 : GoMap DateKey Vacation)
    (st : LoopState) (k : DateKey) (wd : Workday)
    (hk : isHolidayKey hm k = false →
      (GoMap.get? vm1 k).isSome = (GoMap.get? vm2 k).isSome) :
    loopBody now bm hm vm1 st k wd = loopBody now bm hm vm2 st k wd := by
  unfold loopBody
  by_cases hh : (GoMap.get? hm k).isSome = true
  · simp only [hh, if_true]
  · have : isHolidayKey hm k = false := by
      unfold isHolidayKey
      simpa using hh
    simp only [hh, if_false, hk this]

theorem runLoop_congr_vacationMap (now : Int) (bm : GoMap DateKey BadgeEntry)
    (hm : GoMap DateKey Holiday) (vm1 vm2 : GoMap DateKey Vacation)
    (es : List (DateKey × Workday))
    (hk : ∀ e ∈ es, isHolidayKey hm e.1 = false →
      (GoMap.get? vm1 e.1).isSome = (GoMap.get? vm2 e.1).isSome) :
    ∀ st : LoopState, runLoop now bm hm vm1 es st = runLoop now bm hm vm2 es st := by
  induction es with
  | nil => intro st; rfl
  | cons e es ih =>
    intro st
    rw [runLoop_cons, runLoop_cons,
      loopBody_congr_vacationMap now bm hm vm1 vm2 st e.1 e.2 (hk e (List.mem_cons_self _ _))]
    exact ih (fun x hx => hk x (List.mem_cons_of_mem _ hx)) _

theorem holidays_card (p : TimePeriod) (b : BadgeEntryData) (h : HolidayData)
    (v : VacationData) (g : Int) (today : Option Int) (clock : Int) :
    (CalculatePeriodStats p b h v g today clock).1.Holidays
      = (((Finset.Icc p.StartDate p.EndDate).filter
          (fun d => (1 ≤ weekday d ∧ weekday d ≤ 5) ∧
            isHolidayKey h.GetHolidayMap (formatDate d) = true)).card : Int) := by
  rw [CalculatePeriodStats_fst]
  simp only [deriveStats]
  obtain ⟨-, c2, -⟩ :=
    runLoop_fields (refDate today clock) (b.GetBadgeMap p.StartDate p.EndDate)
      h.GetHolidayMap v.GetVacationMap (CreateWorkdayMap p.StartDate p.EndDate)
      (initState (CreateWorkdayMap p.StartDate p.EndDate))
  obtain ⟨-, i2, -⟩ := initState_fields (CreateWorkdayMap p.StartDate p.EndDate)
  rw [c2, i2, zero_add]
  have := countP_CreateWorkdayMap p.StartDate p.EndDate
    (fun k _ => isHolidayKey h.GetHolidayMap k)
  rw [this]

theorem vacationDays_card (p : TimePeriod) (b : BadgeEntryData) (h : HolidayData)
    (v : VacationData) (g : Int) (today : Option Int) (clock : Int) :
    (CalculatePeriodStats p b h v g today clock).1.VacationDays
      = (((Finset.Icc p.StartDate p.EndDate).filter
          (fun d => (1 ≤ weekday d ∧ weekday d ≤ 5) ∧
            isVacationKey h.GetHolidayMap v.GetVacationMap (formatDate d) = true)).card : Int) := by
  rw [CalculatePeriodStats_fst]
  simp only [deriveStats]
  obtain ⟨-, -, c3, -⟩ :=
    runLoop_fields (refDate today clock) (b.GetBadgeMap p.StartDate p.EndDate)
      h.GetHolidayMap v.GetVacationMap (CreateWorkdayMap p.StartDate p.EndDate)
      (initState (CreateWorkdayMap p.StartDate p.EndDate))
  obtain ⟨-, -, i3, -⟩ := initState_fields (CreateWorkdayMap p.StartDate p.EndDate)
  rw [c3, i3, zero_add]
  have := countP_CreateWorkdayMap p.StartDate p.EndDate
    (fun k _ => isVacationKey h.GetHolidayMap v.GetVacationMap k)
  rw [this]

theorem daysBadgedIn_card (p : TimePeriod) (b : BadgeEntryData) (h : HolidayData)
    (v : VacationData) (g : Int) (today : Option Int) (clock : Int) :
    (CalculatePeriodStats p b h v g today clock).1.DaysBadgedIn
      = (((Finset.Icc p.StartDate p.EndDate).filter
          (fun d => (1 ≤ weekday d ∧ weekday d ≤ 5) ∧
            (isQualifyingKey h.GetHolidayMap v.GetVacationMap (formatDate d)
              && isBadgedKey (b.GetBadgeMap p.StartDate p.EndDate) (formatDate d))
                = true)).card : Int) := by
  rw [CalculatePeriodStats_fst]
  simp only [deriveStats]
  obtain ⟨-, -, -, -, -, c6, -⟩ :=
    runLoop_fields (refDate today clock) (b.GetBadgeMap p.StartDate p.EndDate)
      h.GetHolidayMap v.GetVacationMap (CreateWorkdayMap p.StartDate p.EndDate)
      (initState (CreateWorkdayMap p.StartDate p.EndDate))
  obtain ⟨-, -, -, -, -, i6, -⟩ := initState_fields (CreateWorkdayMap p.StartDate p.EndDate)
  rw [c6, i6, zero_add]
  have := countP_CreateWorkdayMap p.StartDate p.EndDate
    (fun k _ => isQualifyingKey h.GetHolidayMap v.GetVacationMap k
      && isBadgedKey (b.GetBadgeMap p.StartDate p.EndDate) k)
  rw [this]

theorem daysThusFar_card (p : TimePeriod) (b : BadgeEntryData) (h : HolidayData)
    (v : VacationData) (g : Int) (today : Option Int) (clock : Int) :
    (CalculatePeriodStats p b h v g today clock).1.DaysThusFar
      = (((Finset.Icc p.StartDate p.EndDate).filter
          (fun d => (1 ≤ weekday d ∧ weekday d ≤ 5) ∧
            (isQualifyingKey h.GetHolidayMap v.GetVacationMap (formatDate d)
              && decide (d < refDate today clock)) = true)).card : Int) := by
  rw [CalculatePeriodStats_fst]
  simp only [deriveStats]
  obtain ⟨-, -, -, -, c5, -, -⟩ :=
    runLoop_fields (refDate today clock) (b.GetBadgeMap p.StartDate p.EndDate)
      h.GetHolidayMap v.GetVacationMap (CreateWorkdayMap p.StartDate p.EndDate)
      (initState (CreateWorkdayMap p.StartDate p.EndDate))
  obtain ⟨-, -, -, -, i5, -, -⟩ := initState_fields (CreateWorkdayMap p.StartDate p.EndDate)
  rw [c5, i5, zero_add]
  have := countP_CreateWorkdayMap p.StartDate p.EndDate
    (fun k d => isQualifyingKey h.GetHolidayMap v.GetVacationMap k
      && decide (d < refDate today clock))
  rw [this]

theorem CreateWorkdayMap_get?_weekday (s e d : Int) (hd : s ≤ d ∧ d ≤ e)
    (hw : 1 ≤ weekday d ∧ weekday d ≤ 5) :
    GoMap.get? (CreateWorkdayMap s e) (formatDate d)
      = some { Date := d, WorkDate := formatDate d, IsWorkday := true, IsBadgedIn := false,
               IsFlexCredit := false, IsHoliday := false, IsVacation := false } := by
  rw [CreateWorkdayMap_eq, GoMap.get?_map_formatDate]
  have hmem : d ∈ (dateRange s e).filter (fun d => IsWeekday d) := by
    rw [List.mem_filter, mem_dateRange, IsWeekday_iff]
    exact ⟨hd, hw⟩
  rw [if_pos hmem]

theorem CalculatePeriodStats_congr_vacations (p : TimePeriod) (b : BadgeEntryData)
    (h : HolidayData) (v1 v2 : VacationData) (g : Int) (today : Option Int) (clock : Int)
    (hk : ∀ k : DateKey, isHolidayKey h.GetHolidayMap k = false →
      (GoMap.get? v1.GetVacationMap k).isSome = (GoMap.get? v2.GetVacationMap k).isSome) :
    CalculatePeriodStats p b h v1 g today clock = CalculatePeriodStats p b h v2 g today clock := by
  unfold CalculatePeriodStats
  simp only
  rw [runLoop_congr_vacationMap _ _ _ v1.GetVacationMap v2.GetVacationMap _
    (fun e _ => hk e.1)]

/-- C11: a weekday `d` of the period that is a configured holiday is classified
as a holiday only, whether or not it is also a date of the vacation map: its
record has `IsHoliday = true` and `IsVacation = false`, it is one of the days
that `Holidays` counts and none of the days that `VacationDays` counts, and
adding a vacation on the day `d` changes nothing of the result. -/
theorem C11_holiday_precedes_vacation (p : TimePeriod) (b : BadgeEntryData) (h : HolidayData)
    (v : VacationData) (g : Int) (today : Option Int) (clock : Int) (d : Int)
    (hd : p.StartDate ≤ d ∧ d ≤ p.EndDate) (hw : 1 ≤ weekday d ∧ weekday d ≤ 5)
    (hh : ∃ hol ∈ h.holidays, hol.Date = formatDate d) :
    GoMap.get? (CalculatePeriodStats p b h v g today clock).1.WorkdayStats (formatDate d)
      = some { Date := d, WorkDate := formatDate d, IsWorkday := true, IsBadgedIn := false,
               IsFlexCredit := false, IsHoliday := true, IsVacation := false } ∧
    ((CalculatePeriodStats p b h v g today clock).1.Holidays
        = (((Finset.Icc p.StartDate p.EndDate).filter
            (fun x => (1 ≤ weekday x ∧ weekday x ≤ 5) ∧
              isHolidayKey h.GetHolidayMap (formatDate x) = true)).card : Int) ∧
      d ∈ (Finset.Icc p.StartDate p.EndDate).filter
            (fun x => (1 ≤ weekday x ∧ weekday x ≤ 5) ∧
              isHolidayKey h.GetHolidayMap (formatDate x) = true)) ∧
    ((CalculatePeriodStats p b h v g today clock).1.VacationDays
        = (((Finset.Icc p.StartDate p.EndDate).filter
            (fun x => (1 ≤ weekday x ∧ weekday x ≤ 5) ∧
              isVacationKey h.GetHolidayMap v.GetVacationMap (formatDate x) = true)).card : Int) ∧
      d ∉ (Finset.Icc p.StartDate p.EndDate).filter
            (fun x => (1 ≤ weekday x ∧ weekday x ≤ 5) ∧
              isVacationKey h.GetHolidayMap v.GetVacationMap (formatDate x) = true)) ∧
    (∀ vac : Vacation, vac.StartDate = formatDate d → vac.EndDate = formatDate d →
      CalculatePeriodStats p b h (v.Add vac) g today clock
        = CalculatePeriodStats p b h v g today clock) := by
  have hkey : isHolidayKey h.GetHolidayMap (formatDate d) = true :=
    (isHolidayKey_iff h (formatDate d)).mpr hh
  refine ⟨?_, ⟨holidays_card p b h v g today clock, ?_⟩,
    ⟨vacationDays_card p b h v g today clock, ?_⟩, ?_⟩
  · rw [workdayStats_get?, CreateWorkdayMap_get?_weekday _ _ _ hd hw]
    simp [visitedRecord, hkey]
  · rw [Finset.mem_filter, Finset.mem_Icc]
    exact ⟨hd, hw, hkey⟩
  · rw [Finset.mem_filter]
    rintro ⟨-, -, hvk⟩
    unfold isVacationKey at hvk
    unfold isHolidayKey at hkey
    rw [hkey] at hvk
    simp at hvk
  · intro vac hs he
    apply CalculatePeriodStats_congr_vacations
    intro k hk
    have hne : ¬ formatDate d = k := by
      intro hc
      rw [← hc, hkey] at hk
      exact absurd hk (by decide)
    rcases GetVacationMap_add_single v vac d hs he with hsame | hset
    · rw [hsame]
    · rw [hset, GoMap.get?_set, if_neg hne]

theorem GetBadgeMap_add (b : BadgeEntryData) (entry : BadgeEntry) (s e : Int) :
    (b.Add entry).GetBadgeMap s e
      = (match parseDate entry.EntryDate with
         | none => b.GetBadgeMap s e
         | some t =>
           if !(t < s) && !(t > e) then GoMap.set (b.GetBadgeMap s e) entry.EntryDate entry
           else b.GetBadgeMap s e) := by
  unfold BadgeEntryData.GetBadgeMap BadgeEntryData.Add
  rw [List.foldl_append]
  rfl

theorem badgeMap_fold_get?_of_no_key (s e : Int) (k : DateKey) (l : List BadgeEntry) :
    ∀ acc : GoMap DateKey BadgeEntry, (∀ x ∈ l, x.EntryDate ≠ k) →
    GoMap.get?
        (l.foldl
          (fun m entry =>
            match parseDate entry.EntryDate with
            | none => m
            | some t => if !(t < s) && !(t > e) then GoMap.set m entry.EntryDate entry else m)
          acc) k
      = GoMap.get? acc k := by
  induction l with
  | nil => intro acc _; rfl
  | cons x l ih =>
    intro acc hne
    simp only [List.foldl_cons]
    rw [ih _ (fun y hy => hne y (List.mem_cons_of_mem _ hy))]
    have hx : x.EntryDate ≠ k := hne x (List.mem_cons_self _ _)
    cases hp : parseDate x.EntryDate with
    | none => rfl
    | some t =>
      simp only
      split_ifs
      · rw [GoMap.get?_set, if_neg hx]
      · rfl

theorem GetBadgeMap_get?_of_not_has (b : BadgeEntryData) (s e : Int) (k : DateKey)
    (hno : b.Has k = false) : GoMap.get? (b.GetBadgeMap s e) k = none := by
  have hne : ∀ x ∈ b.entries, x.EntryDate ≠ k := by
    intro x hx hc
    unfold BadgeEntryData.Has at hno
    rw [List.any_eq_false] at hno
    have := hno x hx
    simp [hc] at this
  exact badgeMap_fold_get?_of_no_key s e k b.entries [] hne

/-- C12 (amended): for a period containing today, a badge collection with no
entry for today's date and a badged-in entry dated today (a date that
`time.Parse` reads), adding the entry leaves `DaysThusFar` unchanged and
increases `DaysBadgedIn` by exactly 1 when today is a qualifying day (a weekday
that is neither holiday nor vacation); when today is not a qualifying day
`DaysBadgedIn` is unchanged as well. -/
theorem C12_badging_today (p : TimePeriod) (b : BadgeEntryData) (h : HolidayData)
    (v : VacationData) (g : Int) (today : Option Int) (clock : Int) (entry : BadgeEntry)
    (hin : p.StartDate ≤ refDate today clock ∧ refDate today clock ≤ p.EndDate)
    (hparse : parseDate (formatDate (refDate today clock)) = some (refDate today clock))
    (hno : b.Has (formatDate (refDate today clock)) = false)
    (he : entry.EntryDate = formatDate (refDate today clock))
    (hbi : entry.IsBadgedIn = true) :
    (CalculatePeriodStats p (b.Add entry) h v g today clock).1.DaysThusFar
      = (CalculatePeriodStats p b h v g today clock).1.DaysThusFar ∧
    (CalculatePeriodStats p (b.Add entry) h v g today clock).1.DaysBadgedIn
      = (CalculatePeriodStats p b h v g today clock).1.DaysBadgedIn
        + (if (1 ≤ weekday (refDate today clock) ∧ weekday (refDate today clock) ≤ 5)
              ∧ isQualifyingKey h.GetHolidayMap v.GetVacationMap
                  (formatDate (refDate today clock)) = true then 1 else 0) := by
  constructor
  · rw [daysThusFar_card, daysThusFar_card]
  · rw [daysBadgedIn_card, daysBadgedIn_card]
    generalize refDate today clock = t at hin hparse hno he
    have hmap : (b.Add entry).GetBadgeMap p.StartDate p.EndDate
        = GoMap.set (b.GetBadgeMap p.StartDate p.EndDate) (formatDate t) entry := by
      rw [GetBadgeMap_add, he, hparse]
      simp only
      have : (!decide (t < p.StartDate) && !decide (t > p.EndDate)) = true := by
        simp only [Bool.and_eq_true, Bool.not_eq_true', decide_eq_false_iff_not, not_lt]
        exact ⟨hin.1, hin.2⟩
      rw [if_pos this]
    have hbefore : isBadgedKey (b.GetBadgeMap p.StartDate p.EndDate) (formatDate t) = false := by
      unfold isBadgedKey
      rw [GetBadgeMap_get?_of_not_has b _ _ _ hno]
    have hafter : ∀ k : DateKey,
        isBadgedKey ((b.Add entry).GetBadgeMap p.StartDate p.EndDate) k
          = if formatDate t = k then true
            else isBadgedKey (b.GetBadgeMap p.StartDate p.EndDate) k := by
      intro k
      unfold isBadgedKey
      rw [hmap, GoMap.get?_set]
      by_cases hk : formatDate t = k
      · simp [hk, hbi]
      · simp [hk]
    by_cases hq : (1 ≤ weekday t ∧ weekday t ≤ 5)
        ∧ isQualifyingKey h.GetHolidayMap v.GetVacationMap (formatDate t) = true
    · rw [if_pos hq]
      have hins : (Finset.Icc p.StartDate p.EndDate).filter
          (fun d => (1 ≤ weekday d ∧ weekday d ≤ 5) ∧
            (isQualifyingKey h.GetHolidayMap v.GetVacationMap (formatDate d)
              && isBadgedKey ((b.Add entry).GetBadgeMap p.StartDate p.EndDate) (formatDate d))
                = true)
          = insert t ((Finset.Icc p.StartDate p.EndDate).filter
          (fun d => (1 ≤ weekday d ∧ weekday d ≤ 5) ∧
            (isQualifyingKey h.GetHolidayMap v.GetVacationMap (formatDate d)
              && isBadgedKey (b.GetBadgeMap p.StartDate p.EndDate) (formatDate d))
                = true)) := by
        ext d
        simp only [Finset.mem_filter, Finset.mem_insert, Finset.mem_Icc, Bool.and_eq_true,
          hafter (formatDate d)]
        by_cases hdt : d = t
        · subst hdt
          simp [hin, hq.1, hq.2]
        · have hne : ¬ formatDate t = formatDate d := by
            intro hc
            exact hdt (formatDate_injective hc).symm
          simp [hdt, hne]
      have hnot : t ∉ (Finset.Icc p.StartDate p.EndDate).filter
          (fun d => (1 ≤ weekday d ∧ weekday d ≤ 5) ∧
            (isQualifyingKey h.GetHolidayMap v.GetVacationMap (formatDate d)
              && isBadgedKey (b.GetBadgeMap p.StartDate p.EndDate) (formatDate d))
                = true) := by
        simp [hbefore]
      rw [hins, Finset.card_insert_of_not_mem hnot]
      push_cast
      ring
    · rw [if_neg hq, add_zero]
      congr 2
      ext d
      simp only [Finset.mem_filter, Finset.mem_Icc, Bool.and_eq_true, hafter (formatDate d)]
      by_cases hdt : d = t
      · subst hdt
        constructor
        · rintro ⟨-, h1, h2, -⟩
          exact absurd ⟨h1, h2⟩ hq
        · rintro ⟨-, h1, h2, -⟩
          exact absurd ⟨h1, h2⟩ hq
      · have hne : ¬ formatDate t = formatDate d := by
          intro hc
          exact hdt (formatDate_injective hc).symm
        simp [hne]

/-! ## Claims on determinism, holiday precedence and the badge of today -/

/-- C19: with an explicit `today` the result of `CalculatePeriodStats` does not
depend on the clock, so two calls on the same inputs return the same
statistics; and visiting the entries of the workday map in any order `es`
yields the same statistics, counters and records alike. -/
theorem C19_stats_depend_on_inputs_only (p : TimePeriod) (b : BadgeEntryData)
    (h : HolidayData) (v : VacationData) (g : Int) (t : Int) (clock : Int) :
    (∀ clock2 : Int,
      CalculatePeriodStats p b h v g (some t) clock2
        = CalculatePeriodStats p b h v g (some t) clock) ∧
    (∀ es : List (DateKey × Workday), es.Perm (CreateWorkdayMap p.StartDate p.EndDate) →
      deriveStats p g t ((dateRange p.StartDate p.EndDate).foldl (fun n _ => n + 1) 0)
          (runLoop t (b.GetBadgeMap p.StartDate p.EndDate) h.GetHolidayMap v.GetVacationMap es
            (initState (CreateWorkdayMap p.StartDate p.EndDate)))
        = (CalculatePeriodStats p b h v g (some t) clock).1) := by
  constructor
  · intro clock2
    rfl
  · intro es hperm
    rw [CalculatePeriodStats_fst,
      runLoop_perm t (b.GetBadgeMap p.StartDate p.EndDate) h.GetHolidayMap v.GetVacationMap
        (CreateWorkdayMap p.StartDate p.EndDate)
        (nodup_keys_CreateWorkdayMap p.StartDate p.EndDate) es hperm]
    rfl

/-- C19 (witness): the three-day period visited from its last day to its
first. -/
theorem C19_stats_depend_on_inputs_only_witness :
    deriveStats threeDayPeriod 50 (civil 2025 1 7)
        ((dateRange threeDayPeriod.StartDate threeDayPeriod.EndDate).foldl (fun n _ => n + 1) 0)
        (runLoop (civil 2025 1 7)
          (threeBadges.GetBadgeMap threeDayPeriod.StartDate threeDayPeriod.EndDate)
          NewHolidayData.GetHolidayMap NewVacationData.GetVacationMap
          (CreateWorkdayMap threeDayPeriod.StartDate threeDayPeriod.EndDate).reverse
          (initState (CreateWorkdayMap threeDayPeriod.StartDate threeDayPeriod.EndDate)))
      = (CalculatePeriodStats threeDayPeriod threeBadges NewHolidayData NewVacationData 50
          (some (civil 2025 1 7)) 0).1 :=
  (C19_stats_depend_on_inputs_only threeDayPeriod threeBadges NewHolidayData NewVacationData 50
    (civil 2025 1 7) 0).2 _ (List.reverse_perm _)

/-- C11 (witness): 2025-01-01, a Wednesday of the first quarter of 2025, is the
configured holiday and the first day of a vacation; its record is a holiday
record. -/
theorem C11_holiday_precedes_vacation_witness :
    ((q1Period.StartDate ≤ civil 2025 1 1 ∧ civil 2025 1 1 ≤ q1Period.EndDate) ∧
      (1 ≤ weekday (civil 2025 1 1) ∧ weekday (civil 2025 1 1) ≤ 5) ∧
      (∃ hol ∈ newYearHoliday.holidays, hol.Date = formatDate (civil 2025 1 1)) ∧
      (GoMap.get? newYearVacation.GetVacationMap (formatDate (civil 2025 1 1))).isSome = true) ∧
    GoMap.get? (CalculatePeriodStats q1Period NewBadgeEntryData newYearHoliday newYearVacation 50
        (some (civil 2025 3 31)) 0).1.WorkdayStats (formatDate (civil 2025 1 1))
      = some { Date := civil 2025 1 1, WorkDate := formatDate (civil 2025 1 1),
               IsWorkday := true, IsBadgedIn := false, IsFlexCredit := false,
               IsHoliday := true, IsVacation := false } :=
  ⟨⟨by decide, by decide, by decide, by decide⟩,
    (C11_holiday_precedes_vacation q1Period NewBadgeEntryData newYearHoliday newYearVacation 50
      (some (civil 2025 3 31)) 0 (civil 2025 1 1) (by decide) (by decide) (by decide)).1⟩

/-- C12 (counterexample): in the first quarter of 2025 with the holiday
2025-01-01 and today 2025-01-01, the badge collection is empty; adding a
badged-in entry for today leaves `DaysBadgedIn` at 0. -/
theorem C12_badge_on_holiday_not_counted :
    (q1Period.StartDate ≤ civil 2025 1 1 ∧ civil 2025 1 1 ≤ q1Period.EndDate) ∧
    NewBadgeEntryData.Has (formatDate (civil 2025 1 1)) = false ∧
    (CalculatePeriodStats q1Period NewBadgeEntryData newYearHoliday NewVacationData 50
        (some (civil 2025 1 1)) 0).1.DaysBadgedIn = 0 ∧
    (CalculatePeriodStats q1Period (NewBadgeEntryData.Add (badgedOn (civil 2025 1 1)))
        newYearHoliday NewVacationData 50 (some (civil 2025 1 1)) 0).1.DaysBadgedIn = 0 := by
  decide!

/-- C12 (witness): seven weeks with three badge-ins, today 2025-01-21, a
qualifying Tuesday: the badge-in of today is the fourth. -/
theorem C12_badging_today_witness :
    ((sevenWeekPeriod.StartDate ≤ refDate (some (civil 2025 1 21)) 0
        ∧ refDate (some (civil 2025 1 21)) 0 ≤ sevenWeekPeriod.EndDate) ∧
      parseDate (formatDate (refDate (some (civil 2025 1 21)) 0))
        = some (refDate (some (civil 2025 1 21)) 0) ∧
      threeBadges.Has (formatDate (refDate (some (civil 2025 1 21)) 0)) = false ∧
      (badgedOn (civil 2025 1 21)).EntryDate = formatDate (refDate (some (civil 2025 1 21)) 0) ∧
      (badgedOn (civil 2025 1 21)).IsBadgedIn = true) ∧
    (CalculatePeriodStats sevenWeekPeriod (threeBadges.Add (badgedOn (civil 2025 1 21)))
        NewHolidayData NewVacationData 50 (some (civil 2025 1 21)) 0).1.DaysBadgedIn
      = (CalculatePeriodStats sevenWeekPeriod threeBadges NewHolidayData NewVacationData 50
        (some (civil 2025 1 21)) 0).1.DaysBadgedIn
        + (if (1 ≤ weekday (refDate (some (civil 2025 1 21)) 0)
                ∧ weekday (refDate (some (civil 2025 1 21)) 0) ≤ 5)
              ∧ isQualifyingKey NewHolidayData.GetHolidayMap NewVacationData.GetVacationMap
                  (formatDate (refDate (some (civil 2025 1 21)) 0)) = true then 1 else 0) :=
  ⟨by decide,
    (C12_badging_today sevenWeekPeriod threeBadges NewHolidayData NewVacationData 50
      (some (civil 2025 1 21)) 0 (badgedOn (civil 2025 1 21))
      (by decide) (by decide) (by decide) (by decide) (by decide)).2⟩

/-! ## Claims on the days off and the flex days -/

theorem flexDays_card (p : TimePeriod) (b : BadgeEntryData) (h : HolidayData)
    (v : VacationData) (g : Int) (today : Option Int) (clock : Int) :
    (CalculatePeriodStats p b h v g today clock).1.FlexDays
      = (((Finset.Icc p.StartDate p.EndDate).filter
          (fun d => (1 ≤ weekday d ∧ weekday d ≤ 5) ∧
            (isQualifyingKey h.GetHolidayMap v.GetVacationMap (formatDate d)
              && isFlexKey (b.GetBadgeMap p.StartDate p.EndDate) (formatDate d))
                = true)).card : Int) := by
  rw [CalculatePeriodStats_fst]
  simp only [deriveStats]
  obtain ⟨-, -, -, -, -, -, c7⟩ :=
    runLoop_fields (refDate today clock) (b.GetBadgeMap p.StartDate p.EndDate)
      h.GetHolidayMap v.GetVacationMap (CreateWorkdayMap p.StartDate p.EndDate)
      (initState (CreateWorkdayMap p.StartDate p.EndDate))
  obtain ⟨-, -, -, -, -, -, i7⟩ := initState_fields (CreateWorkdayMap p.StartDate p.EndDate)
  rw [c7, i7, zero_add]
  have := countP_CreateWorkdayMap p.StartDate p.EndDate
    (fun k _ => isQualifyingKey h.GetHolidayMap v.GetVacationMap k
      && isFlexKey (b.GetBadgeMap p.StartDate p.EndDate) k)
  rw [this]

theorem daysOff_eq (p : TimePeriod) (b : BadgeEntryData) (h : HolidayData)
    (v : VacationData) (g : Int) (today : Option Int) (clock : Int) :
    (CalculatePeriodStats p b h v g today clock).1.DaysOff
      = (CalculatePeriodStats p b h v g today clock).1.DaysThusFar
        - (CalculatePeriodStats p b h v g today clock).1.DaysBadgedIn := by
  rw [CalculatePeriodStats_fst]
  simp only [deriveStats]

theorem isBadgedKey_iff (bm : GoMap DateKey BadgeEntry) (k : DateKey) :
    isBadgedKey bm k = true ↔ ∃ entry, GoMap.get? bm k = some entry ∧ entry.IsBadgedIn = true := by
  unfold isBadgedKey
  cases hg : GoMap.get? bm k with
  | none => simp
  | some entry => simp

theorem isFlexKey_iff (bm : GoMap DateKey BadgeEntry) (k : DateKey) :
    isFlexKey bm k = true ↔
      ∃ entry, GoMap.get? bm k = some entry ∧ entry.IsBadgedIn = true
        ∧ entry.IsFlexCredit = true := by
  unfold isFlexKey
  cases hg : GoMap.get? bm k with
  | none => simp
  | some entry => simp

theorem isBadgedKey_of_isFlexKey (bm : GoMap DateKey BadgeEntry) (k : DateKey)
    (hf : isFlexKey bm k = true) : isBadgedKey bm k = true := by
  rw [isFlexKey_iff] at hf
  rw [isBadgedKey_iff]
  obtain ⟨entry, h1, h2, -⟩ := hf
  exact ⟨entry, h1, h2⟩

theorem card_split_filter (s : Finset Int) (P Q : Int → Bool) :
    (s.filter (fun d => P d = true)).card
      = (s.filter (fun d => (P d && Q d) = true)).card
        + (s.filter (fun d => (P d && !Q d) = true)).card := by
  rw [← Finset.card_union_of_disjoint]
  · congr 1
    ext d
    simp only [Finset.mem_filter, Finset.mem_union, Bool.and_eq_true, Bool.not_eq_true']
    cases Q d <;> simp
  · rw [Finset.disjoint_left]
    intro d hd1 hd2
    simp only [Finset.mem_filter, Bool.and_eq_true, Bool.not_eq_true'] at hd1 hd2
    rw [hd1.2.2] at hd2
    exact absurd hd2.2.2 (by decide)

/-- C21 (amended): `DaysOff` is `DaysThusFar - DaysBadgedIn`.  It is the number of
qualifying days before today without a badged-in entry, less the number of
qualifying days from today on with a badged-in entry; when no qualifying day
from today on is badged in, it is the number of qualifying days before today
without a badged-in entry, and is not negative. -/
theorem C21_daysOff_is_elapsed_minus_badged (p : TimePeriod) (b : BadgeEntryData)
    (h : HolidayData) (v : VacationData) (g : Int) (today : Option Int) (clock : Int) :
    (CalculatePeriodStats p b h v g today clock).1.DaysOff
      = (CalculatePeriodStats p b h v g today clock).1.DaysThusFar
        - (CalculatePeriodStats p b h v g today clock).1.DaysBadgedIn ∧
    (CalculatePeriodStats p b h v g today clock).1.DaysOff
      = (((Finset.Icc p.StartDate p.EndDate).filter
          (fun d => (1 ≤ weekday d ∧ weekday d ≤ 5) ∧
            (isQualifyingKey h.GetHolidayMap v.GetVacationMap (formatDate d)
              && decide (d < refDate today clock)
              && !isBadgedKey (b.GetBadgeMap p.StartDate p.EndDate) (formatDate d))
                = true)).card : Int)
        - (((Finset.Icc p.StartDate p.EndDate).filter
          (fun d => (1 ≤ weekday d ∧ weekday d ≤ 5) ∧
            (isQualifyingKey h.GetHolidayMap v.GetVacationMap (formatDate d)
              && decide (refDate today clock ≤ d)
              && isBadgedKey (b.GetBadgeMap p.StartDate p.EndDate) (formatDate d))
                = true)).card : Int) ∧
    ((∀ d : Int, p.StartDate ≤ d ∧ d ≤ p.EndDate → 1 ≤ weekday d ∧ weekday d ≤ 5 →
        isQualifyingKey h.GetHolidayMap v.GetVacationMap (formatDate d) = true →
        refDate today clock ≤ d →
        isBadgedKey (b.GetBadgeMap p.StartDate p.EndDate) (formatDate d) = false) →
      (CalculatePeriodStats p b h v g today clock).1.DaysOff
        = (((Finset.Icc p.StartDate p.EndDate).filter
            (fun d => (1 ≤ weekday d ∧ weekday d ≤ 5) ∧
              (isQualifyingKey h.GetHolidayMap v.GetVacationMap (formatDate d)
                && decide (d < refDate today clock)
                && !isBadgedKey (b.GetBadgeMap p.StartDate p.EndDate) (formatDate d))
                  = true)).card : Int) ∧
      0 ≤ (CalculatePeriodStats p b h v g today clock).1.DaysOff) := by
  have hoff := daysOff_eq p b h v g today clock
  have hF := daysThusFar_card p b h v g today clock
  have hB := daysBadgedIn_card p b h v g today clock
  set s := Finset.Icc p.StartDate p.EndDate with hs
  set hm := h.GetHolidayMap
  set vm := v.GetVacationMap
  set bm := b.GetBadgeMap p.StartDate p.EndDate
  set now := refDate today clock
  -- the days before today, split by the badge; the badged days, split by the date
  have e1 := card_split_filter s
    (fun d => decide (1 ≤ weekday d ∧ weekday d ≤ 5) && isQualifyingKey hm vm (formatDate d)
      && decide (d < now))
    (fun d => isBadgedKey bm (formatDate d))
  have e2 := card_split_filter s
    (fun d => decide (1 ≤ weekday d ∧ weekday d ≤ 5) && isQualifyingKey hm vm (formatDate d)
      && isBadgedKey bm (formatDate d))
    (fun d => decide (d < now))
  have c1 : (s.filter (fun d => (1 ≤ weekday d ∧ weekday d ≤ 5) ∧
        (isQualifyingKey hm vm (formatDate d) && decide (d < now)) = true)).card
      = (s.filter (fun d => (decide (1 ≤ weekday d ∧ weekday d ≤ 5)
          && isQualifyingKey hm vm (formatDate d) && decide (d < now)) = true)).card := by
    congr 1
    apply Finset.filter_congr
    intro d _
    simp only [Bool.and_eq_true, decide_eq_true_eq]
    tauto
  have c2 : (s.filter (fun d => (1 ≤ weekday d ∧ weekday d ≤ 5) ∧
        (isQualifyingKey hm vm (formatDate d) && isBadgedKey bm (formatDate d)) = true)).card
      = (s.filter (fun d => (decide (1 ≤ weekday d ∧ weekday d ≤ 5)
          && isQualifyingKey hm vm (formatDate d) && isBadgedKey bm (formatDate d)) = true)).card := by
    congr 1
    apply Finset.filter_congr
    intro d _
    simp only [Bool.and_eq_true, decide_eq_true_eq]
    tauto
  have c3 : (s.filter (fun d => (decide (1 ≤ weekday d ∧ weekday d ≤ 5)
          && isQualifyingKey hm vm (formatDate d) && decide (d < now)
          && isBadgedKey bm (formatDate d)) = true)).card
      = (s.filter (fun d => (decide (1 ≤ weekday d ∧ weekday d ≤ 5)
          && isQualifyingKey hm vm (formatDate d) && isBadgedKey bm (formatDate d)
          && decide (d < now)) = true)).card := by
    congr 1
    apply Finset.filter_congr
    intro d _
    simp only [Bool.and_eq_true, decide_eq_true_eq]
    tauto
  have c4 : (s.filter (fun d => (decide (1 ≤ weekday d ∧ weekday d ≤ 5)
          && isQualifyingKey hm vm (formatDate d) && decide (d < now)
          && !isBadgedKey bm (formatDate d)) = true)).card
      = (s.filter (fun d => (1 ≤ weekday d ∧ weekday d ≤ 5) ∧
          (isQualifyingKey hm vm (formatDate d) && decide (d < now)
            && !isBadgedKey bm (formatDate d)) = true)).card := by
    congr 1
    apply Finset.filter_congr
    intro d _
    simp only [Bool.and_eq_true, decide_eq_true_eq]
    tauto
  have c5 : (s.filter (fun d => (decide (1 ≤ weekday d ∧ weekday d ≤ 5)
          && isQualifyingKey hm vm (formatDate d) && isBadgedKey bm (formatDate d)
          && !decide (d < now)) = true)).card
      = (s.filter (fun d => (1 ≤ weekday d ∧ weekday d ≤ 5) ∧
          (isQualifyingKey hm vm (formatDate d) && decide (now ≤ d)
            && isBadgedKey bm (formatDate d)) = true)).card := by
    congr 1
    apply Finset.filter_congr
    intro d _
    simp only [Bool.and_eq_true, decide_eq_true_eq, Bool.not_eq_true', decide_eq_false_iff_not,
      not_lt]
    tauto
  have hsecond : (CalculatePeriodStats p b h v g today clock).1.DaysOff
      = ((s.filter (fun d => (1 ≤ weekday d ∧ weekday d ≤ 5) ∧
          (isQualifyingKey hm vm (formatDate d) && decide (d < now)
            && !isBadgedKey bm (formatDate d)) = true)).card : Int)
        - ((s.filter (fun d => (1 ≤ weekday d ∧ weekday d ≤ 5) ∧
          (isQualifyingKey hm vm (formatDate d) && decide (now ≤ d)
            && isBadgedKey bm (formatDate d)) = true)).card : Int) := by
    rw [hoff, hF, hB, c1, c2, e1, e2, c3, c4, c5]
    push_cast
    ring
  refine ⟨hoff, hsecond, ?_⟩
  intro hno
  have hzero : (s.filter (fun d => (1 ≤ weekday d ∧ weekday d ≤ 5) ∧
          (isQualifyingKey hm vm (formatDate d) && decide (now ≤ d)
            && isBadgedKey bm (formatDate d)) = true)).card = 0 := by
    rw [Finset.card_eq_zero, Finset.filter_eq_empty_iff]
    intro d hd
    rw [hs, Finset.mem_Icc] at hd
    simp only [Bool.and_eq_true, decide_eq_true_eq, not_and]
    intro hw hq
    rw [hno d hd hw hq.1 hq.2]
    decide
  rw [hsecond, hzero]
  constructor
  · simp
  · simp

/-- C21 (counterexample): on the one-day period 2025-01-02 seen on that day with
a badge-in for the day, no day has elapsed, the number of qualifying days before
today without a badge-in is `0`, yet `DaysOff` is `0 - 1 = -1`. -/
theorem C21_daysOff_negative_with_badge_today :
    (CalculatePeriodStats oneDayPeriod (NewBadgeEntryData.Add (badgedOn (civil 2025 1 2)))
        NewHolidayData NewVacationData 50 (some (civil 2025 1 2)) 0).1.DaysThusFar = 0 ∧
    (CalculatePeriodStats oneDayPeriod (NewBadgeEntryData.Add (badgedOn (civil 2025 1 2)))
        NewHolidayData NewVacationData 50 (some (civil 2025 1 2)) 0).1.DaysBadgedIn = 1 ∧
    (CalculatePeriodStats oneDayPeriod (NewBadgeEntryData.Add (badgedOn (civil 2025 1 2)))
        NewHolidayData NewVacationData 50 (some (civil 2025 1 2)) 0).1.DaysOff = -1 ∧
    (CalculatePeriodStats oneDayPeriod (NewBadgeEntryData.Add (badgedOn (civil 2025 1 2)))
        NewHolidayData NewVacationData 50 (some (civil 2025 1 2)) 0).1.DaysOff < 0 ∧
    (((Finset.Icc oneDayPeriod.StartDate oneDayPeriod.EndDate).filter
        (fun d => (1 ≤ weekday d ∧ weekday d ≤ 5) ∧
          (isQualifyingKey NewHolidayData.GetHolidayMap NewVacationData.GetVacationMap
              (formatDate d)
            && decide (d < refDate (some (civil 2025 1 2)) 0)
            && !isBadgedKey
              ((NewBadgeEntryData.Add (badgedOn (civil 2025 1 2))).GetBadgeMap
                oneDayPeriod.StartDate oneDayPeriod.EndDate)
              (formatDate d)) = true)).card : Int) = 0 := by
  refine ⟨by decide!, by decide!, by decide!, by decide!, by decide!⟩

/-- C21 (witness): the one-day period 2025-01-02 seen on the next day without
badge entries has one day off. -/
theorem C21_daysOff_is_elapsed_minus_badged_witness :
    (∀ d : Int, oneDayPeriod.StartDate ≤ d ∧ d ≤ oneDayPeriod.EndDate →
        1 ≤ weekday d ∧ weekday d ≤ 5 →
        isQualifyingKey NewHolidayData.GetHolidayMap NewVacationData.GetVacationMap
          (formatDate d) = true →
        refDate (some (civil 2025 1 3)) 0 ≤ d →
        isBadgedKey (NewBadgeEntryData.GetBadgeMap oneDayPeriod.StartDate oneDayPeriod.EndDate)
          (formatDate d) = false) ∧
    (CalculatePeriodStats oneDayPeriod NewBadgeEntryData NewHolidayData NewVacationData 50
        (some (civil 2025 1 3)) 0).1.DaysOff
      = (((Finset.Icc oneDayPeriod.StartDate oneDayPeriod.EndDate).filter
          (fun d => (1 ≤ weekday d ∧ weekday d ≤ 5) ∧
            (isQualifyingKey NewHolidayData.GetHolidayMap NewVacationData.GetVacationMap
                (formatDate d)
              && decide (d < refDate (some (civil 2025 1 3)) 0)
              && !isBadgedKey
                (NewBadgeEntryData.GetBadgeMap oneDayPeriod.StartDate oneDayPeriod.EndDate)
                (formatDate d)) = true)).card : Int) ∧
    (CalculatePeriodStats oneDayPeriod NewBadgeEntryData NewHolidayData NewVacationData 50
        (some (civil 2025 1 3)) 0).1.DaysOff = 1 :=
  ⟨fun _ _ _ _ _ => rfl,
   ((C21_daysOff_is_elapsed_minus_badged oneDayPeriod NewBadgeEntryData NewHolidayData
      NewVacationData 50 (some (civil 2025 1 3)) 0).2.2 (fun _ _ _ _ _ => rfl)).1,
   by decide!⟩

/-- C22: `FlexDays` is the number of qualifying days of the period whose entry
in the badge map has both `IsBadgedIn` and `IsFlexCredit`, and `DaysBadgedIn`
the number of those whose entry has `IsBadgedIn`; an entry with `IsFlexCredit`
but without `IsBadgedIn` puts its day in neither set; every flex day is a
badged-in day, so `FlexDays ≤ DaysBadgedIn`. -/
theorem C22_flexDays_counts_flex_badged_days (p : TimePeriod) (b : BadgeEntryData)
    (h : HolidayData) (v : VacationData) (g : Int) (today : Option Int) (clock : Int) :
    (CalculatePeriodStats p b h v g today clock).1.FlexDays
      = (((Finset.Icc p.StartDate p.EndDate).filter
          (fun d => (1 ≤ weekday d ∧ weekday d ≤ 5) ∧
            (isQualifyingKey h.GetHolidayMap v.GetVacationMap (formatDate d)
              && isFlexKey (b.GetBadgeMap p.StartDate p.EndDate) (formatDate d))
                = true)).card : Int) ∧
    (CalculatePeriodStats p b h v g today clock).1.DaysBadgedIn
      = (((Finset.Icc p.StartDate p.EndDate).filter
          (fun d => (1 ≤ weekday d ∧ weekday d ≤ 5) ∧
            (isQualifyingKey h.GetHolidayMap v.GetVacationMap (formatDate d)
              && isBadgedKey (b.GetBadgeMap p.StartDate p.EndDate) (formatDate d))
                = true)).card : Int) ∧
    (∀ k : DateKey, isFlexKey (b.GetBadgeMap p.StartDate p.EndDate) k = true ↔
      ∃ entry, GoMap.get? (b.GetBadgeMap p.StartDate p.EndDate) k = some entry
        ∧ entry.IsBadgedIn = true ∧ entry.IsFlexCredit = true) ∧
    (∀ k : DateKey, isBadgedKey (b.GetBadgeMap p.StartDate p.EndDate) k = true ↔
      ∃ entry, GoMap.get? (b.GetBadgeMap p.StartDate p.EndDate) k = some entry
        ∧ entry.IsBadgedIn = true) ∧
    (∀ (k : DateKey) (entry : BadgeEntry),
      GoMap.get? (b.GetBadgeMap p.StartDate p.EndDate) k = some entry →
      entry.IsFlexCredit = true → entry.IsBadgedIn = false →
      isFlexKey (b.GetBadgeMap p.StartDate p.EndDate) k = false
        ∧ isBadgedKey (b.GetBadgeMap p.StartDate p.EndDate) k = false) ∧
    (Finset.Icc p.StartDate p.EndDate).filter
        (fun d => (1 ≤ weekday d ∧ weekday d ≤ 5) ∧
          (isQualifyingKey h.GetHolidayMap v.GetVacationMap (formatDate d)
            && isFlexKey (b.GetBadgeMap p.StartDate p.EndDate) (formatDate d)) = true)
      ⊆ (Finset.Icc p.StartDate p.EndDate).filter
        (fun d => (1 ≤ weekday d ∧ weekday d ≤ 5) ∧
          (isQualifyingKey h.GetHolidayMap v.GetVacationMap (formatDate d)
            && isBadgedKey (b.GetBadgeMap p.StartDate p.EndDate) (formatDate d)) = true) ∧
    (CalculatePeriodStats p b h v g today clock).1.FlexDays
      ≤ (CalculatePeriodStats p b h v g today clock).1.DaysBadgedIn := by
  have hsub : (Finset.Icc p.StartDate p.EndDate).filter
        (fun d => (1 ≤ weekday d ∧ weekday d ≤ 5) ∧
          (isQualifyingKey h.GetHolidayMap v.GetVacationMap (formatDate d)
            && isFlexKey (b.GetBadgeMap p.StartDate p.EndDate) (formatDate d)) = true)
      ⊆ (Finset.Icc p.StartDate p.EndDate).filter
        (fun d => (1 ≤ weekday d ∧ weekday d ≤ 5) ∧
          (isQualifyingKey h.GetHolidayMap v.GetVacationMap (formatDate d)
            && isBadgedKey (b.GetBadgeMap p.StartDate p.EndDate) (formatDate d)) = true) := by
    intro d hd
    simp only [Finset.mem_filter, Bool.and_eq_true] at hd ⊢
    exact ⟨hd.1, hd.2.1, hd.2.2.1, isBadgedKey_of_isFlexKey _ _ hd.2.2.2⟩
  refine ⟨flexDays_card p b h v g today clock, daysBadgedIn_card p b h v g today clock,
    fun k => isFlexKey_iff _ k, fun k => isBadgedKey_iff _ k, ?_, hsub, ?_⟩
  · intro k entry hget hflex hbadged
    unfold isFlexKey isBadgedKey
    rw [hget]
    simp [hbadged]
  · rw [flexDays_card, daysBadgedIn_card]
    exact_mod_cast Finset.card_le_card hsub

/-- C22 (witness): the entries of `TestFlexCreditCounting` with a fourth entry
that has the flex flag only: three badged-in days, two of them flex days. -/
theorem C22_flexDays_counts_flex_badged_days_witness :
    (GoMap.get? (flexBadges.GetBadgeMap q1Period.StartDate q1Period.EndDate)
        (formatDate (civil 2025 1 7))
      = some (badgeEntryOn (civil 2025 1 7) "Flex" false true)
      ∧ (badgeEntryOn (civil 2025 1 7) "Flex" false true).IsFlexCredit = true
      ∧ (badgeEntryOn (civil 2025 1 7) "Flex" false true).IsBadgedIn = false) ∧
    (isFlexKey (flexBadges.GetBadgeMap q1Period.StartDate q1Period.EndDate)
        (formatDate (civil 2025 1 7)) = false
      ∧ isBadgedKey (flexBadges.GetBadgeMap q1Period.StartDate q1Period.EndDate)
        (formatDate (civil 2025 1 7)) = false) ∧
    (CalculatePeriodStats q1Period flexBadges NewHolidayData NewVacationData 50
        (some (civil 2025 1 6)) 0).1.DaysBadgedIn = 3 ∧
    (CalculatePeriodStats q1Period flexBadges NewHolidayData NewVacationData 50
        (some (civil 2025 1 6)) 0).1.FlexDays = 2 :=
  ⟨⟨by decide!, rfl, rfl⟩,
   (C22_flexDays_counts_flex_badged_days q1Period flexBadges NewHolidayData NewVacationData 50
      (some (civil 2025 1 6)) 0).2.2.2.2.1 (formatDate (civil 2025 1 7))
      (badgeEntryOn (civil 2025 1 7) "Flex" false true) (by decide!) rfl rfl,
   by decide!, by decide!⟩

/-! ## Claims on the badge map and the exact-date lookup -/

theorem badgeMap_fold_get? (s e : Int) (k : DateKey) (l : List BadgeEntry) :
    ∀ acc : GoMap DateKey BadgeEntry,
    GoMap.get?
        (l.foldl
          (fun m entry =>
            match parseDate entry.EntryDate with
            | none => m
            | some t => if !(t < s) && !(t > e) then GoMap.set m entry.EntryDate entry else m)
          acc) k
      = (match parseDate k with
         | none => GoMap.get? acc k
         | some t =>
           if s ≤ t ∧ t ≤ e then
             (match l.reverse.find? (fun x => decide (x.EntryDate = k)) with
              | some x => some x
              | none => GoMap.get? acc k)
           else GoMap.get? acc k) := by
  induction l using List.reverseRecOn with
  | nil =>
    intro acc
    cases parseDate k with
    | none => rfl
    | some t => simp
  | append_singleton l x ih =>
    intro acc
    rw [List.foldl_append, List.reverse_append]
    simp only [List.foldl_cons, List.foldl_nil, List.reverse_cons, List.reverse_nil,
      List.nil_append, List.singleton_append, List.find?_cons]
    by_cases hk : x.EntryDate = k
    · subst hk
      cases hp : parseDate x.EntryDate with
      | none => simp only [ih acc, hp]
      | some t =>
        simp only [decide_True]
        by_cases hr : s ≤ t ∧ t ≤ e
        · have : (!(decide (t < s)) && !(decide (t > e))) = true := by
            simp only [Bool.and_eq_true, Bool.not_eq_true', decide_eq_false_iff_not, not_lt, gt_iff_lt]
            exact hr
          simp only [this, if_true, hr, and_self, GoMap.get?_set]
        · have : (!(decide (t < s)) && !(decide (t > e))) = false := by
            rw [Bool.eq_false_iff]
            simp only [ne_eq, Bool.and_eq_true, Bool.not_eq_true', decide_eq_false_iff_not, not_lt,
              gt_iff_lt]
            exact hr
          simp only [this, Bool.false_eq_true, if_false]
          rw [ih acc, hp]
          simp only [hr, if_false]
    · have hdec : decide (x.EntryDate = k) = false := decide_eq_false hk
      simp only [hdec]
      cases hp : parseDate x.EntryDate with
      | none => exact ih acc
      | some t =>
        simp only []
        split_ifs with h1
        · rw [GoMap.get?_set, if_neg hk]
          exact ih acc
        · exact ih acc

theorem GetBadgeMap_get? (b : BadgeEntryData) (s e : Int) (k : DateKey) :
    GoMap.get? (b.GetBadgeMap s e) k
      = (match parseDate k with
         | none => none
         | some t =>
           if s ≤ t ∧ t ≤ e then b.entries.reverse.find? (fun x => decide (x.EntryDate = k))
           else none) := by
  refine (badgeMap_fold_get? s e k b.entries []).trans ?_
  cases parseDate k with
  | none => rfl
  | some t =>
    simp only []
    split_ifs with h1
    · cases List.find? (fun x => decide (x.EntryDate = k)) b.entries.reverse with
      | none => rfl
      | some x => rfl
    · rfl

theorem find?_reverse_of_last (l1 l2 : List BadgeEntry) (entry : BadgeEntry)
    (hlast : ∀ x ∈ l2, x.EntryDate ≠ entry.EntryDate) :
    (l1 ++ entry :: l2).reverse.find? (fun x => decide (x.EntryDate = entry.EntryDate))
      = some entry := by
  rw [List.reverse_append, List.reverse_cons, List.append_assoc, List.find?_append]
  have h1 : l2.reverse.find? (fun x => decide (x.EntryDate = entry.EntryDate)) = none := by
    rw [List.find?_eq_none]
    intro x hx
    simp only [decide_eq_true_eq]
    exact hlast x (List.mem_reverse.mp hx)
  rw [h1]
  simp

theorem find?_isSome_iff_key (l : List BadgeEntry) (k : DateKey) :
    (l.find? (fun x => decide (x.EntryDate = k))).isSome = true
      ↔ ∃ entry ∈ l, entry.EntryDate = k := by
  rw [List.find?_isSome]
  simp only [decide_eq_true_eq]

/-- C24: a key is in `GetBadgeMap(start, end)` exactly when some stored entry
has it as `EntryDate` and it parses to a date `d` with `start ≤ d ≤ end`; the
map holds under a key the last stored entry with that key, and that entry
decides whether the engine counts the day as badged in and as a flex day. -/
theorem C24_getBadgeMap_keys_and_last_entry (b : BadgeEntryData) (start stop : Int) :
    (∀ k : DateKey, k ∈ (b.GetBadgeMap start stop).map Prod.fst ↔
      ∃ entry ∈ b.entries, entry.EntryDate = k ∧
        ∃ d, parseDate k = some d ∧ start ≤ d ∧ d ≤ stop) ∧
    (∀ (l1 l2 : List BadgeEntry) (entry : BadgeEntry) (d : Int),
      b.entries = l1 ++ entry :: l2 → (∀ x ∈ l2, x.EntryDate ≠ entry.EntryDate) →
      parseDate entry.EntryDate = some d → start ≤ d → d ≤ stop →
      GoMap.get? (b.GetBadgeMap start stop) entry.EntryDate = some entry ∧
      isBadgedKey (b.GetBadgeMap start stop) entry.EntryDate = entry.IsBadgedIn ∧
      isFlexKey (b.GetBadgeMap start stop) entry.EntryDate
        = (entry.IsBadgedIn && entry.IsFlexCredit)) ∧
    (∀ (p : TimePeriod) (h : HolidayData) (v : VacationData) (g : Int) (today : Option Int)
        (clock : Int), p.StartDate = start → p.EndDate = stop →
      (CalculatePeriodStats p b h v g today clock).1.DaysBadgedIn
        = (((Finset.Icc start stop).filter
            (fun d => (1 ≤ weekday d ∧ weekday d ≤ 5) ∧
              (isQualifyingKey h.GetHolidayMap v.GetVacationMap (formatDate d)
                && isBadgedKey (b.GetBadgeMap start stop) (formatDate d)) = true)).card : Int) ∧
      (CalculatePeriodStats p b h v g today clock).1.FlexDays
        = (((Finset.Icc start stop).filter
            (fun d => (1 ≤ weekday d ∧ weekday d ≤ 5) ∧
              (isQualifyingKey h.GetHolidayMap v.GetVacationMap (formatDate d)
                && isFlexKey (b.GetBadgeMap start stop) (formatDate d)) = true)).card : Int)) := by
  refine ⟨?_, ?_, ?_⟩
  · intro k
    rw [← GoMap.get?_isSome_iff, GetBadgeMap_get?]
    cases hp : parseDate k with
    | none => simp
    | some t =>
      simp only []
      by_cases hr : start ≤ t ∧ t ≤ stop
      · rw [if_pos hr, List.find?_isSome]
        simp only [List.mem_reverse, decide_eq_true_eq, Option.some.injEq, exists_eq_left']
        constructor
        · rintro ⟨x, hx, hk⟩
          exact ⟨x, hx, hk, hr⟩
        · rintro ⟨x, hx, hk, -⟩
          exact ⟨x, hx, hk⟩
      · rw [if_neg hr]
        simp only [Option.isSome_none, Bool.false_eq_true, Option.some.injEq, exists_eq_left',
          false_iff, not_exists, not_and]
        intro x _ _
        exact fun h1 h2 => hr ⟨h1, h2⟩
  · intro l1 l2 entry d hl hlast hp h1 h2
    have hget : GoMap.get? (b.GetBadgeMap start stop) entry.EntryDate = some entry := by
      rw [GetBadgeMap_get?, hp]
      simp only []
      rw [if_pos ⟨h1, h2⟩, hl]
      exact find?_reverse_of_last l1 l2 entry hlast
    refine ⟨hget, ?_, ?_⟩
    · unfold isBadgedKey
      rw [hget]
    · unfold isFlexKey
      rw [hget]
  · intro p h v g today clock hs he
    subst hs
    subst he
    exact ⟨daysBadgedIn_card p b h v g today clock, flexDays_card p b h v g today clock⟩

/-- C24 (witness): of the two entries stored for 2025-01-02 the map holds the
second one, which has no badged-in flag, and the engine counts no badge-in. -/
theorem C24_getBadgeMap_keys_and_last_entry_witness :
    (duplicateBadges.entries
        = [badgeEntryOn (civil 2025 1 2) "HQ" true false]
          ++ badgeEntryOn (civil 2025 1 2) "Home" false false :: []
      ∧ parseDate (badgeEntryOn (civil 2025 1 2) "Home" false false).EntryDate
          = some (civil 2025 1 2)
      ∧ civil 2025 1 2 ≤ civil 2025 1 2) ∧
    GoMap.get? (duplicateBadges.GetBadgeMap (civil 2025 1 2) (civil 2025 1 2))
        (badgeEntryOn (civil 2025 1 2) "Home" false false).EntryDate
      = some (badgeEntryOn (civil 2025 1 2) "Home" false false) ∧
    (CalculatePeriodStats oneDayPeriod duplicateBadges NewHolidayData NewVacationData 50
        (some (civil 2025 1 3)) 0).1.DaysBadgedIn = 0 :=
  ⟨⟨rfl, by decide, le_refl _⟩,
   ((C24_getBadgeMap_keys_and_last_entry duplicateBadges (civil 2025 1 2) (civil 2025 1 2)).2.1
      [badgeEntryOn (civil 2025 1 2) "HQ" true false] []
      (badgeEntryOn (civil 2025 1 2) "Home" false false) (civil 2025 1 2) rfl
      (fun _ hx => absurd hx (List.not_mem_nil _)) (by decide) (le_refl _) (le_refl _)).1,
   by decide!⟩

theorem find?_reverse_of_unique {α : Type} (q : α → Bool) (l : List α)
    (huniq : ∀ x ∈ l, ∀ y ∈ l, q x = true → q y = true → x = y) :
    l.reverse.find? q = l.find? q := by
  cases h1 : l.find? q with
  | none =>
    rw [List.find?_eq_none] at h1 ⊢
    intro x hx
    exact h1 x (List.mem_reverse.mp hx)
  | some a =>
    have ha1 : q a = true := List.find?_some h1
    have ha2 : a ∈ l := List.mem_of_find?_eq_some h1
    cases h2 : l.reverse.find? q with
    | none =>
      rw [List.find?_eq_none] at h2
      exact absurd ha1 (h2 a (List.mem_reverse.mpr ha2))
    | some c =>
      have hc1 : q c = true := List.find?_some h2
      have hc2 : c ∈ l := List.mem_reverse.mp (List.mem_of_find?_eq_some h2)
      rw [huniq c hc2 a ha2 hc1 ha1]

theorem find?_of_first (l1 l2 : List BadgeEntry) (entry : BadgeEntry)
    (hfirst : ∀ x ∈ l1, x.EntryDate ≠ entry.EntryDate) :
    (l1 ++ entry :: l2).find? (fun x => decide (x.EntryDate = entry.EntryDate))
      = some entry := by
  rw [List.find?_append]
  have h1 : l1.find? (fun x => decide (x.EntryDate = entry.EntryDate)) = none := by
    rw [List.find?_eq_none]
    intro x hx
    simp only [decide_eq_true_eq]
    exact hfirst x hx
  rw [h1]
  simp

/-- For a key `k` that parses to a date of `[start, end]`, `b.Get(k)` and
`b.GetBadgeMap(start, end)[k]` are both absent or both present, and `Has(k)`
tells which; `Get` returns the first stored entry with the key, the map holds
the last one; the two agree when all stored entries with the key are equal, in
particular when there is at most one. -/
theorem get_and_badgeMap_of_key (b : BadgeEntryData) (k : DateKey)
    (start stop d : Int) (hp : parseDate k = some d) (hin : start ≤ d ∧ d ≤ stop) :
    ((b.Get k).isSome = (GoMap.get? (b.GetBadgeMap start stop) k).isSome
      ∧ b.Has k = (b.Get k).isSome) ∧
    (∀ (l1 l2 : List BadgeEntry) (entry : BadgeEntry),
      b.entries = l1 ++ entry :: l2 → entry.EntryDate = k →
      ((∀ x ∈ l1, x.EntryDate ≠ k) → b.Get k = some entry) ∧
      ((∀ x ∈ l2, x.EntryDate ≠ k) →
        GoMap.get? (b.GetBadgeMap start stop) k = some entry)) ∧
    ((∀ x ∈ b.entries, ∀ y ∈ b.entries, x.EntryDate = k → y.EntryDate = k → x = y) →
      b.Get k = GoMap.get? (b.GetBadgeMap start stop) k) := by
  have hmap : GoMap.get? (b.GetBadgeMap start stop) k
      = b.entries.reverse.find? (fun x => decide (x.EntryDate = k)) := by
    rw [GetBadgeMap_get?, hp]
    simp only []
    rw [if_pos hin]
  refine ⟨⟨?_, ?_⟩, ?_, ?_⟩
  · rw [hmap]
    unfold BadgeEntryData.Get
    rw [Bool.eq_iff_iff, find?_isSome_iff_key, find?_isSome_iff_key]
    simp only [List.mem_reverse]
  · unfold BadgeEntryData.Has BadgeEntryData.Get
    rw [Bool.eq_iff_iff, find?_isSome_iff_key, List.any_eq_true]
    simp only [decide_eq_true_eq]
  · intro l1 l2 entry hl hk
    subst hk
    constructor
    · intro hfirst
      unfold BadgeEntryData.Get
      rw [hl]
      exact find?_of_first l1 l2 entry hfirst
    · intro hlast
      rw [hmap, hl]
      exact find?_reverse_of_last l1 l2 entry hlast
  · intro huniq
    rw [hmap]
    unfold BadgeEntryData.Get
    symm
    apply find?_reverse_of_unique
    intro x hx y hy h1 h2
    simp only [decide_eq_true_eq] at h1 h2
    exact huniq x hx y hy h1 h2

/-- C30: the exact-date lookup and the range map do not agree on a collection
with two entries stored for one date.  With a badge-in at "HQ" and then an
entry for "Home" without the badged-in flag, both for 2025-01-02, `Has` is
true, `Get` returns the first entry, the badge-in, and the range map holds the
second one: the lookups differ, and the engine, which reads the map, counts no
badge-in on the one-day period 2025-01-02. -/
theorem C30_get_returns_first_map_holds_last :
    parseDate (formatDate (civil 2025 1 2)) = some (civil 2025 1 2) ∧
    duplicateBadges.Has (formatDate (civil 2025 1 2)) = true ∧
    duplicateBadges.Get (formatDate (civil 2025 1 2))
      = some (badgeEntryOn (civil 2025 1 2) "HQ" true false) ∧
    GoMap.get? (duplicateBadges.GetBadgeMap (civil 2025 1 2) (civil 2025 1 2))
        (formatDate (civil 2025 1 2))
      = some (badgeEntryOn (civil 2025 1 2) "Home" false false) ∧
    duplicateBadges.Get (formatDate (civil 2025 1 2))
      ≠ GoMap.get? (duplicateBadges.GetBadgeMap (civil 2025 1 2) (civil 2025 1 2))
          (formatDate (civil 2025 1 2)) ∧
    (CalculatePeriodStats oneDayPeriod duplicateBadges NewHolidayData NewVacationData 50
        (some (civil 2025 1 3)) 0).1.DaysBadgedIn = 0 := by
  refine ⟨by decide, by decide, by decide, by decide, by decide, by decide!⟩

/-! ## Claims on the vacation map -/

theorem weekday_range (d : Int) : 0 ≤ weekday d ∧ weekday d ≤ 6 := by
  unfold weekday
  omega

theorem vacationDays_fold_keys (vac : Vacation) (ds : List Int) :
    ∀ (m : GoMap DateKey Vacation) (k : DateKey),
    k ∈ (ds.foldl
          (fun m d => if weekday d = 6 ∨ weekday d = 0 then m else GoMap.set m (formatDate d) vac)
          m).map Prod.fst
      ↔ k ∈ m.map Prod.fst ∨ ∃ d ∈ ds, (1 ≤ weekday d ∧ weekday d ≤ 5) ∧ k = formatDate d := by
  induction ds with
  | nil => intro m k; simp
  | cons d ds ih =>
    intro m k
    rw [List.foldl_cons, ih]
    have hw := weekday_range d
    by_cases hd : weekday d = 6 ∨ weekday d = 0
    · rw [if_pos hd]
      constructor
      · rintro (h1 | ⟨x, hx, hxw, hxk⟩)
        · exact Or.inl h1
        · exact Or.inr ⟨x, List.mem_cons_of_mem _ hx, hxw, hxk⟩
      · rintro (h1 | ⟨x, hx, hxw, hxk⟩)
        · exact Or.inl h1
        · rcases List.mem_cons.mp hx with rfl | hx2
          · omega
          · exact Or.inr ⟨x, hx2, hxw, hxk⟩
    · rw [if_neg hd, GoMap.mem_keys_set]
      constructor
      · rintro ((h1 | h1) | ⟨x, hx, hxw, hxk⟩)
        · exact Or.inr ⟨d, List.mem_cons_self _ _, by omega, h1⟩
        · exact Or.inl h1
        · exact Or.inr ⟨x, List.mem_cons_of_mem _ hx, hxw, hxk⟩
      · rintro (h1 | ⟨x, hx, hxw, hxk⟩)
        · exact Or.inl (Or.inr h1)
        · rcases List.mem_cons.mp hx with rfl | hx2
          · exact Or.inl (Or.inl hxk)
          · exact Or.inr ⟨x, hx2, hxw, hxk⟩

theorem vacationMap_fold_keys (l : List Vacation) :
    ∀ (acc : GoMap DateKey Vacation) (k : DateKey),
    k ∈ (l.foldl
          (fun m vac =>
            match parseDate vac.StartDate with
            | none => m
            | some start =>
              match parseDate vac.EndDate with
              | none => m
              | some stop =>
                (dateRange start stop).foldl
                  (fun m d =>
                    if weekday d = 6 ∨ weekday d = 0 then m
                    else GoMap.set m (formatDate d) vac)
                  m)
          acc).map Prod.fst
      ↔ k ∈ acc.map Prod.fst ∨
        ∃ vac ∈ l, ∃ s e d : Int, parseDate vac.StartDate = some s ∧ parseDate vac.EndDate = some e
          ∧ (s ≤ d ∧ d ≤ e) ∧ (1 ≤ weekday d ∧ weekday d ≤ 5) ∧ k = formatDate d := by
  induction l with
  | nil => intro acc k; simp
  | cons vac l ih =>
    intro acc k
    rw [List.foldl_cons, ih]
    cases hs : parseDate vac.StartDate with
    | none =>
      simp only []
      constructor
      · rintro (h1 | ⟨x, hx, h2⟩)
        · exact Or.inl h1
        · exact Or.inr ⟨x, List.mem_cons_of_mem _ hx, h2⟩
      · rintro (h1 | ⟨x, hx, s, e, d, h2, h3⟩)
        · exact Or.inl h1
        · rcases List.mem_cons.mp hx with rfl | hx2
          · rw [hs] at h2
            exact absurd h2 (by simp)
          · exact Or.inr ⟨x, hx2, s, e, d, h2, h3⟩
    | some s0 =>
      cases he : parseDate vac.EndDate with
      | none =>
        simp only []
        constructor
        · rintro (h1 | ⟨x, hx, h2⟩)
          · exact Or.inl h1
          · exact Or.inr ⟨x, List.mem_cons_of_mem _ hx, h2⟩
        · rintro (h1 | ⟨x, hx, s, e, d, h2, h3, h4⟩)
          · exact Or.inl h1
          · rcases List.mem_cons.mp hx with rfl | hx2
            · rw [he] at h3
              exact absurd h3 (by simp)
            · exact Or.inr ⟨x, hx2, s, e, d, h2, h3, h4⟩
      | some e0 =>
        simp only []
        rw [vacationDays_fold_keys]
        constructor
        · rintro ((h1 | ⟨d, hd, hw, hk⟩) | ⟨x, hx, h2⟩)
          · exact Or.inl h1
          · exact Or.inr ⟨vac, List.mem_cons_self _ _, s0, e0, d, hs, he,
              (mem_dateRange s0 e0 d).mp hd, hw, hk⟩
          · exact Or.inr ⟨x, List.mem_cons_of_mem _ hx, h2⟩
        · rintro (h1 | ⟨x, hx, s, e, d, h2, h3, h4, h5, h6⟩)
          · exact Or.inl (Or.inl h1)
          · rcases List.mem_cons.mp hx with rfl | hx2
            · rw [hs] at h2
              rw [he] at h3
              cases h2
              cases h3
              exact Or.inl (Or.inr ⟨d, (mem_dateRange _ _ d).mpr h4, h5, h6⟩)
            · exact Or.inr ⟨x, hx2, s, e, d, h2, h3, h4, h5, h6⟩

theorem GetVacationMap_keys (v : VacationData) (k : DateKey) :
    k ∈ v.GetVacationMap.map Prod.fst ↔
      ∃ vac ∈ v.vacations, ∃ s e d : Int, parseDate vac.StartDate = some s
        ∧ parseDate vac.EndDate = some e ∧ (s ≤ d ∧ d ≤ e) ∧ (1 ≤ weekday d ∧ weekday d ≤ 5)
        ∧ k = formatDate d := by
  refine (vacationMap_fold_keys v.vacations [] k).trans ?_
  simp

theorem GetVacationMap_add_unparsable (v : VacationData) (vac : Vacation)
    (hbad : parseDate vac.StartDate = none ∨ parseDate vac.EndDate = none) :
    (v.Add vac).GetVacationMap = v.GetVacationMap := by
  unfold VacationData.GetVacationMap VacationData.Add
  rw [List.foldl_append, List.foldl_cons, List.foldl_nil]
  rcases hbad with h1 | h1
  · rw [h1]
  · rw [h1]
    cases parseDate vac.StartDate <;> rfl

/-- C23: a date key is in `GetVacationMap()` exactly when it is the key of a
Monday to Friday date `d` with `start ≤ d ≤ end` for a stored vacation whose
`StartDate` and `EndDate` parse to `start` and `end`; the key of a Saturday or
Sunday is never in the map, and a vacation whose start or end date does not
parse leaves the map as it is. -/
theorem C23_getVacationMap_keys (v : VacationData) :
    (∀ k : DateKey, k ∈ v.GetVacationMap.map Prod.fst ↔
      ∃ vac ∈ v.vacations, ∃ start stop d : Int, parseDate vac.StartDate = some start
        ∧ parseDate vac.EndDate = some stop ∧ (start ≤ d ∧ d ≤ stop)
        ∧ (1 ≤ weekday d ∧ weekday d ≤ 5) ∧ k = formatDate d) ∧
    (∀ d : Int, weekday d = 6 ∨ weekday d = 0 →
      formatDate d ∉ v.GetVacationMap.map Prod.fst) ∧
    (∀ vac : Vacation, parseDate vac.StartDate = none ∨ parseDate vac.EndDate = none →
      (v.Add vac).GetVacationMap = v.GetVacationMap) := by
  refine ⟨fun k => GetVacationMap_keys v k, ?_, fun vac hbad =>
    GetVacationMap_add_unparsable v vac hbad⟩
  intro d hd hmem
  rw [GetVacationMap_keys] at hmem
  obtain ⟨vac, -, s, e, d2, -, -, -, hw, hk⟩ := hmem
  have : d = d2 := formatDate_injective hk
  subst this
  omega

/-- C23 (witness): the vacation from Monday 2025-01-06 to Sunday 2025-01-12 has
the five keys of Monday to Friday, not those of Saturday 2025-01-11 and Sunday
2025-01-12, and a vacation with unparsable dates adds nothing. -/
theorem C23_getVacationMap_keys_witness :
    ((weekday (civil 2025 1 11) = 6 ∨ weekday (civil 2025 1 11) = 0)
      ∧ (parseDate badVacation.StartDate = none ∨ parseDate badVacation.EndDate = none)) ∧
    formatDate (civil 2025 1 11) ∉ (NewVacationData.Add mountainsVacation).GetVacationMap.map
      Prod.fst ∧
    ((NewVacationData.Add mountainsVacation).Add badVacation).GetVacationMap
      = (NewVacationData.Add mountainsVacation).GetVacationMap ∧
    (NewVacationData.Add mountainsVacation).GetVacationMap.map Prod.fst
      = [formatDate (civil 2025 1 6), formatDate (civil 2025 1 7), formatDate (civil 2025 1 8),
         formatDate (civil 2025 1 9), formatDate (civil 2025 1 10)] ∧
    (NewVacationData.Add badVacation).GetVacationMap = [] :=
  ⟨⟨by decide, by decide⟩,
   (C23_getVacationMap_keys (NewVacationData.Add mountainsVacation)).2.1 (civil 2025 1 11)
      (by decide),
   (C23_getVacationMap_keys (NewVacationData.Add mountainsVacation)).2.2 badVacation
      (by decide),
   by decide, by decide⟩

/-! ## Claims on the records of the workday map -/

theorem GoMap.get?_map_values {α β : Type} [DecidableEq α] (f : α → β → β) (m : GoMap α β)
    (k : α) :
    GoMap.get? (m.map (fun en => (en.1, f en.1 en.2))) k = (GoMap.get? m k).map (f k) := by
  induction m with
  | nil => rfl
  | cons en m ih =>
    obtain ⟨k1, v1⟩ := en
    simp only [List.map_cons, GoMap.get?]
    by_cases hk : k1 = k
    · subst hk
      simp
    · simp only [hk, if_false]
      exact ih

theorem workdayStats_keys (p : TimePeriod) (b : BadgeEntryData) (h : HolidayData)
    (v : VacationData) (g : Int) (today : Option Int) (clock : Int) :
    (CalculatePeriodStats p b h v g today clock).1.WorkdayStats.map Prod.fst
      = (CreateWorkdayMap p.StartDate p.EndDate).map Prod.fst := by
  rw [CalculatePeriodStats_fst]
  simp only [deriveStats]
  have hnd := nodup_keys_CreateWorkdayMap p.StartDate p.EndDate
  obtain ⟨k1, -⟩ := runLoop_wdMap (refDate today clock) (b.GetBadgeMap p.StartDate p.EndDate)
    h.GetHolidayMap v.GetVacationMap (CreateWorkdayMap p.StartDate p.EndDate)
    (initState (CreateWorkdayMap p.StartDate p.EndDate)) hnd
    (fun e he => GoMap.get?_of_mem_nodup _ hnd e he)
  exact k1

theorem workdayStats_eq (p : TimePeriod) (b : BadgeEntryData) (h : HolidayData)
    (v : VacationData) (g : Int) (today : Option Int) (clock : Int) :
    (CalculatePeriodStats p b h v g today clock).1.WorkdayStats
      = (CreateWorkdayMap p.StartDate p.EndDate).map
          (fun en => (en.1, visitedRecord (b.GetBadgeMap p.StartDate p.EndDate) h.GetHolidayMap
            v.GetVacationMap en.1 en.2)) := by
  have hkeys := workdayStats_keys p b h v g today clock
  apply GoMap.ext_of_keys
  · rw [hkeys, List.map_map]
    rfl
  · rw [hkeys]
    exact nodup_keys_CreateWorkdayMap p.StartDate p.EndDate
  · intro k
    rw [workdayStats_get?, GoMap.get?_map_values]

theorem visitedRecord_flags (bm : GoMap DateKey BadgeEntry) (hm : GoMap DateKey Holiday)
    (vm : GoMap DateKey Vacation) (k : DateKey) (wd : Workday)
    (h1 : wd.IsHoliday = false) (h2 : wd.IsVacation = false) (h3 : wd.IsBadgedIn = false)
    (h4 : wd.IsFlexCredit = false) :
    (visitedRecord bm hm vm k wd).IsHoliday = isHolidayKey hm k ∧
    (visitedRecord bm hm vm k wd).IsVacation = isVacationKey hm vm k ∧
    (visitedRecord bm hm vm k wd).IsBadgedIn = (isQualifyingKey hm vm k && isBadgedKey bm k) ∧
    (visitedRecord bm hm vm k wd).IsFlexCredit = (isQualifyingKey hm vm k && isFlexKey bm k) ∧
    (visitedRecord bm hm vm k wd).Date = wd.Date ∧
    (visitedRecord bm hm vm k wd).WorkDate = wd.WorkDate ∧
    (visitedRecord bm hm vm k wd).IsWorkday = wd.IsWorkday := by
  unfold visitedRecord isHolidayKey isVacationKey isQualifyingKey isFlexKey isBadgedKey
  cases (GoMap.get? hm k).isSome <;> cases (GoMap.get? vm k).isSome <;>
    cases GoMap.get? bm k with
    | none => simp [h1, h2, h3, h4]
    | some entry =>
      obtain ⟨ed, dt, off, bi, fc⟩ := entry
      cases bi <;> cases fc <;> simp [h1, h2, h3, h4]

theorem CreateWorkdayMap_record (s e : Int) (en : DateKey × Workday)
    (hen : en ∈ CreateWorkdayMap s e) :
    en.1 = formatDate en.2.Date ∧ en.2.WorkDate = formatDate en.2.Date ∧ en.2.IsWorkday = true ∧
    en.2.IsHoliday = false ∧ en.2.IsVacation = false ∧ en.2.IsBadgedIn = false ∧
    en.2.IsFlexCredit = false ∧ (s ≤ en.2.Date ∧ en.2.Date ≤ e) ∧
    (1 ≤ weekday en.2.Date ∧ weekday en.2.Date ≤ 5) := by
  rw [CreateWorkdayMap_eq, List.mem_map] at hen
  obtain ⟨d, hd, rfl⟩ := hen
  rw [List.mem_filter, mem_dateRange, IsWeekday_iff] at hd
  exact ⟨rfl, rfl, rfl, rfl, rfl, rfl, rfl, hd.1, hd.2⟩

theorem counters_countP (p : TimePeriod) (b : BadgeEntryData) (h : HolidayData)
    (v : VacationData) (g : Int) (today : Option Int) (clock : Int) :
    (CalculatePeriodStats p b h v g today clock).1.AvailableWorkdays
      = ((CreateWorkdayMap p.StartDate p.EndDate).length : Int) ∧
    (CalculatePeriodStats p b h v g today clock).1.Holidays
      = (((CreateWorkdayMap p.StartDate p.EndDate).countP
          (fun e => isHolidayKey h.GetHolidayMap e.1) : Nat) : Int) ∧
    (CalculatePeriodStats p b h v g today clock).1.VacationDays
      = (((CreateWorkdayMap p.StartDate p.EndDate).countP
          (fun e => isVacationKey h.GetHolidayMap v.GetVacationMap e.1) : Nat) : Int) ∧
    (CalculatePeriodStats p b h v g today clock).1.DaysBadgedIn
      = (((CreateWorkdayMap p.StartDate p.EndDate).countP
          (fun e => isQualifyingKey h.GetHolidayMap v.GetVacationMap e.1
            && isBadgedKey (b.GetBadgeMap p.StartDate p.EndDate) e.1) : Nat) : Int) ∧
    (CalculatePeriodStats p b h v g today clock).1.FlexDays
      = (((CreateWorkdayMap p.StartDate p.EndDate).countP
          (fun e => isQualifyingKey h.GetHolidayMap v.GetVacationMap e.1
            && isFlexKey (b.GetBadgeMap p.StartDate p.EndDate) e.1) : Nat) : Int) := by
  rw [CalculatePeriodStats_fst]
  simp only [deriveStats]
  obtain ⟨c1, c2, c3, -, -, c6, c7⟩ :=
    runLoop_fields (refDate today clock) (b.GetBadgeMap p.StartDate p.EndDate)
      h.GetHolidayMap v.GetVacationMap (CreateWorkdayMap p.StartDate p.EndDate)
      (initState (CreateWorkdayMap p.StartDate p.EndDate))
  obtain ⟨i1, i2, i3, -, -, i6, i7⟩ := initState_fields (CreateWorkdayMap p.StartDate p.EndDate)
  rw [c1, c2, c3, c6, c7, i1, i2, i3, i6, i7]
  simp only [zero_add, and_self]

/-- C27: the summary counters agree with the returned map `WorkdayStats`:
`AvailableWorkdays` is its number of records, `Holidays`, `VacationDays`,
`DaysBadgedIn` and `FlexDays` are the numbers of its records with `IsHoliday`,
`IsVacation`, `IsBadgedIn` and `IsFlexCredit`; its keys are those of
`CreateWorkdayMap(start, end)`. -/
theorem C27_counters_agree_with_workdayStats (p : TimePeriod) (b : BadgeEntryData)
    (h : HolidayData) (v : VacationData) (g : Int) (today : Option Int) (clock : Int) :
    (CalculatePeriodStats p b h v g today clock).1.AvailableWorkdays
      = ((CalculatePeriodStats p b h v g today clock).1.WorkdayStats.length : Int) ∧
    (CalculatePeriodStats p b h v g today clock).1.Holidays
      = (((CalculatePeriodStats p b h v g today clock).1.WorkdayStats.countP
          (fun en => en.2.IsHoliday) : Nat) : Int) ∧
    (CalculatePeriodStats p b h v g today clock).1.VacationDays
      = (((CalculatePeriodStats p b h v g today clock).1.WorkdayStats.countP
          (fun en => en.2.IsVacation) : Nat) : Int) ∧
    (CalculatePeriodStats p b h v g today clock).1.DaysBadgedIn
      = (((CalculatePeriodStats p b h v g today clock).1.WorkdayStats.countP
          (fun en => en.2.IsBadgedIn) : Nat) : Int) ∧
    (CalculatePeriodStats p b h v g today clock).1.FlexDays
      = (((CalculatePeriodStats p b h v g today clock).1.WorkdayStats.countP
          (fun en => en.2.IsFlexCredit) : Nat) : Int) ∧
    (CalculatePeriodStats p b h v g today clock).1.WorkdayStats.map Prod.fst
      = (CreateWorkdayMap p.StartDate p.EndDate).map Prod.fst := by
  obtain ⟨a1, a2, a3, a4, a5⟩ := counters_countP p b h v g today clock
  have hflags : ∀ en ∈ CreateWorkdayMap p.StartDate p.EndDate,
      (visitedRecord (b.GetBadgeMap p.StartDate p.EndDate) h.GetHolidayMap v.GetVacationMap
          en.1 en.2).IsHoliday = isHolidayKey h.GetHolidayMap en.1 ∧
      (visitedRecord (b.GetBadgeMap p.StartDate p.EndDate) h.GetHolidayMap v.GetVacationMap
          en.1 en.2).IsVacation = isVacationKey h.GetHolidayMap v.GetVacationMap en.1 ∧
      (visitedRecord (b.GetBadgeMap p.StartDate p.EndDate) h.GetHolidayMap v.GetVacationMap
          en.1 en.2).IsBadgedIn
        = (isQualifyingKey h.GetHolidayMap v.GetVacationMap en.1
            && isBadgedKey (b.GetBadgeMap p.StartDate p.EndDate) en.1) ∧
      (visitedRecord (b.GetBadgeMap p.StartDate p.EndDate) h.GetHolidayMap v.GetVacationMap
          en.1 en.2).IsFlexCredit
        = (isQualifyingKey h.GetHolidayMap v.GetVacationMap en.1
            && isFlexKey (b.GetBadgeMap p.StartDate p.EndDate) en.1) := by
    intro en hen
    obtain ⟨-, -, -, r1, r2, r3, r4, -, -⟩ := CreateWorkdayMap_record _ _ en hen
    obtain ⟨f1, f2, f3, f4, -⟩ := visitedRecord_flags (b.GetBadgeMap p.StartDate p.EndDate)
      h.GetHolidayMap v.GetVacationMap en.1 en.2 r1 r2 r3 r4
    exact ⟨f1, f2, f3, f4⟩
  refine ⟨?_, ?_, ?_, ?_, ?_, workdayStats_keys p b h v g today clock⟩
  · rw [a1, workdayStats_eq, List.length_map]
  · rw [a2, workdayStats_eq, List.countP_map]
    congr 1
    apply List.countP_congr
    intro en hen
    simp only [Function.comp_apply, (hflags en hen).1]
  · rw [a3, workdayStats_eq, List.countP_map]
    congr 1
    apply List.countP_congr
    intro en hen
    simp only [Function.comp_apply, (hflags en hen).2.1]
  · rw [a4, workdayStats_eq, List.countP_map]
    congr 1
    apply List.countP_congr
    intro en hen
    simp only [Function.comp_apply, (hflags en hen).2.2.1]
  · rw [a5, workdayStats_eq, List.countP_map]
    congr 1
    apply List.countP_congr
    intro en hen
    simp only [Function.comp_apply, (hflags en hen).2.2.2]

/-- C28: in every record of the returned `WorkdayStats` at most one of
`IsHoliday`, `IsVacation`, `IsBadgedIn` is set, so that a holiday or a vacation
day is never marked badged in; `IsHoliday` is set exactly when the key of the
record, the print of its date, is a key of the holiday map, that is the `Date`
of a stored holiday; and `IsFlexCredit` implies `IsBadgedIn`. -/
theorem C28_workday_record_flags (p : TimePeriod) (b : BadgeEntryData)
    (h : HolidayData) (v : VacationData) (g : Int) (today : Option Int) (clock : Int)
    (k : DateKey) (wd : Workday)
    (hrec : (k, wd) ∈ (CalculatePeriodStats p b h v g today clock).1.WorkdayStats) :
    (k = formatDate wd.Date ∧ wd.WorkDate = formatDate wd.Date) ∧
    (¬ (wd.IsHoliday = true ∧ wd.IsVacation = true)
      ∧ ¬ (wd.IsHoliday = true ∧ wd.IsBadgedIn = true)
      ∧ ¬ (wd.IsVacation = true ∧ wd.IsBadgedIn = true)) ∧
    (wd.IsHoliday = true ↔ k ∈ h.GetHolidayMap.map Prod.fst) ∧
    (wd.IsHoliday = true ↔ ∃ hol ∈ h.holidays, hol.Date = formatDate wd.Date) ∧
    (wd.IsFlexCredit = true → wd.IsBadgedIn = true) := by
  rw [workdayStats_eq, List.mem_map] at hrec
  obtain ⟨en, hen, heq⟩ := hrec
  obtain ⟨r0, r0b, -, r1, r2, r3, r4, -, -⟩ := CreateWorkdayMap_record _ _ en hen
  obtain ⟨f1, f2, f3, f4, f5, f6, -⟩ := visitedRecord_flags (b.GetBadgeMap p.StartDate p.EndDate)
    h.GetHolidayMap v.GetVacationMap en.1 en.2 r1 r2 r3 r4
  have hk : k = en.1 := (congrArg Prod.fst heq).symm
  have hwd : wd = visitedRecord (b.GetBadgeMap p.StartDate p.EndDate) h.GetHolidayMap
      v.GetVacationMap en.1 en.2 := (congrArg Prod.snd heq).symm
  rw [← hwd] at f1 f2 f3 f4 f5 f6
  rw [← hk] at f1 f2 f3 f4 r0
  rw [← f5] at r0 r0b
  rw [← f6] at r0b
  have htri := key_trichotomy h.GetHolidayMap v.GetVacationMap k
  refine ⟨⟨r0, r0b⟩, ⟨?_, ?_, ?_⟩, ?_, ?_, ?_⟩
  · rw [f1, f2]
    rcases htri with ⟨t1, t2, t3⟩ | ⟨t1, t2, t3⟩ | ⟨t1, t2, t3⟩ <;> simp [t1, t2]
  · rw [f1, f3]
    rcases htri with ⟨t1, t2, t3⟩ | ⟨t1, t2, t3⟩ | ⟨t1, t2, t3⟩ <;> simp [t1, t3]
  · rw [f2, f3]
    rcases htri with ⟨t1, t2, t3⟩ | ⟨t1, t2, t3⟩ | ⟨t1, t2, t3⟩ <;> simp [t2, t3]
  · rw [f1]
    unfold isHolidayKey
    exact GoMap.get?_isSome_iff _ _
  · rw [f1, isHolidayKey_iff, r0]
  · rw [f3, f4]
    intro hf
    simp only [Bool.and_eq_true] at hf ⊢
    exact ⟨hf.1, isBadgedKey_of_isFlexKey _ _ hf.2⟩

/-- C28 (witness): with a badge-in stored for the holiday 2025-01-01, the record
of that day in the first quarter of 2025 has `IsHoliday` only. -/
theorem C28_workday_record_flags_witness :
    (formatDate (civil 2025 1 1), newYearRecord)
      ∈ (CalculatePeriodStats q1Period holidayBadges newYearHoliday mondayVacation 50
          (some (civil 2025 1 7)) 0).1.WorkdayStats ∧
    isBadgedKey (holidayBadges.GetBadgeMap q1Period.StartDate q1Period.EndDate)
      (formatDate (civil 2025 1 1)) = true ∧
    ¬ (newYearRecord.IsHoliday = true ∧ newYearRecord.IsBadgedIn = true) ∧
    (newYearRecord.IsHoliday = true ↔
      ∃ hol ∈ newYearHoliday.holidays, hol.Date = formatDate newYearRecord.Date) :=
  ⟨by decide!, by decide!,
   (C28_workday_record_flags q1Period holidayBadges newYearHoliday mondayVacation 50
      (some (civil 2025 1 7)) 0 (formatDate (civil 2025 1 1)) newYearRecord (by decide!)).2.1.2.1,
   (C28_workday_record_flags q1Period holidayBadges newYearHoliday mondayVacation 50
      (some (civil 2025 1 7)) 0 (formatDate (civil 2025 1 1)) newYearRecord (by decide!)).2.2.2.1⟩

/-! ## Claims on the order of the counters -/

theorem totals_chain (p : TimePeriod) (b : BadgeEntryData) (h : HolidayData)
    (v : VacationData) (g : Int) (today : Option Int) (clock : Int) :
    (CalculatePeriodStats p b h v g today clock).1.TotalDays
      ≤ (CalculatePeriodStats p b h v g today clock).1.AvailableWorkdays ∧
    (CalculatePeriodStats p b h v g today clock).1.AvailableWorkdays
      ≤ (CalculatePeriodStats p b h v g today clock).1.TotalCalendarDays ∧
    (CalculatePeriodStats p b h v g today clock).1.TotalCalendarDays
      = max 0 (p.EndDate - p.StartDate + 1) ∧
    (CalculatePeriodStats p b h v g today clock).1.DaysLeft
      = (CalculatePeriodStats p b h v g today clock).1.TotalDays
        - (CalculatePeriodStats p b h v g today clock).1.DaysThusFar ∧
    (CalculatePeriodStats p b h v g today clock).1.DaysRequired
      = toInt (mathCeil (fdiv (fmul
          (float64 (CalculatePeriodStats p b h v g today clock).1.TotalDays) (float64 g)) 100)) := by
  rw [CalculatePeriodStats_fst]
  simp only [deriveStats]
  obtain ⟨c1, -, -, c4, -, -, -⟩ :=
    runLoop_fields (refDate today clock) (b.GetBadgeMap p.StartDate p.EndDate)
      h.GetHolidayMap v.GetVacationMap (CreateWorkdayMap p.StartDate p.EndDate)
      (initState (CreateWorkdayMap p.StartDate p.EndDate))
  obtain ⟨i1, -, -, i4, -, -, -⟩ := initState_fields (CreateWorkdayMap p.StartDate p.EndDate)
  rw [c1, c4, i1, i4, foldl_count, length_dateRange]
  have h1 := List.countP_le_length
    (fun e : DateKey × Workday => isQualifyingKey h.GetHolidayMap v.GetVacationMap e.1)
    (l := CreateWorkdayMap p.StartDate p.EndDate)
  have h2 := length_CreateWorkdayMap_le p.StartDate p.EndDate
  have h3 : (((p.EndDate - p.StartDate + 1).toNat : Nat) : Int)
      = max 0 (p.EndDate - p.StartDate + 1) := by
    rw [Int.toNat_eq_max, max_comm]
  refine ⟨by omega, by omega, by omega, trivial, trivial⟩

/-- C29: the counters are ordered `0 ≤ FlexDays ≤ DaysBadgedIn ≤ TotalDays ≤
AvailableWorkdays ≤ TotalCalendarDays` and `0 ≤ DaysThusFar ≤ TotalDays`, hence
`DaysLeft ≥ 0`; for a goal percent of at most 100, on a period of fewer than
`2 ^ 48` days as any two `time.Time` values bound, `DaysRequired ≤ TotalDays`. -/
theorem C29_counters_are_ordered (p : TimePeriod) (b : BadgeEntryData) (h : HolidayData)
    (v : VacationData) (g : Int) (today : Option Int) (clock : Int) :
    (0 ≤ (CalculatePeriodStats p b h v g today clock).1.FlexDays ∧
      (CalculatePeriodStats p b h v g today clock).1.FlexDays
        ≤ (CalculatePeriodStats p b h v g today clock).1.DaysBadgedIn ∧
      (CalculatePeriodStats p b h v g today clock).1.DaysBadgedIn
        ≤ (CalculatePeriodStats p b h v g today clock).1.TotalDays ∧
      (CalculatePeriodStats p b h v g today clock).1.TotalDays
        ≤ (CalculatePeriodStats p b h v g today clock).1.AvailableWorkdays ∧
      (CalculatePeriodStats p b h v g today clock).1.AvailableWorkdays
        ≤ (CalculatePeriodStats p b h v g today clock).1.TotalCalendarDays) ∧
    (0 ≤ (CalculatePeriodStats p b h v g today clock).1.DaysThusFar ∧
      (CalculatePeriodStats p b h v g today clock).1.DaysThusFar
        ≤ (CalculatePeriodStats p b h v g today clock).1.TotalDays) ∧
    0 ≤ (CalculatePeriodStats p b h v g today clock).1.DaysLeft ∧
    (g ≤ 100 → p.EndDate - p.StartDate < 2 ^ 48 →
      (CalculatePeriodStats p b h v g today clock).1.DaysRequired
        ≤ (CalculatePeriodStats p b h v g today clock).1.TotalDays) := by
  obtain ⟨b1, b2, b3, b4, b5, b6⟩ := CalculatePeriodStats_bounds p b h v g today clock
  obtain ⟨t1, t2, -, t4, t5⟩ := totals_chain p b h v g today clock
  refine ⟨⟨b3, b4, b5, t1, t2⟩, ⟨b1, b2⟩, by omega, ?_⟩
  intro hg hspan
  rw [t5]
  exact toInt_le_of_truncInt_le _ _ (required_le_total _ g (by omega) (by omega) hg)
    (by unfold minInt64; omega)

/-- C29 (witness): the seven-week period with three badge-ins and a goal of 50
percent requires 18 of its 36 days. -/
theorem C29_counters_are_ordered_witness :
    ((50 : Int) ≤ 100 ∧ sevenWeekPeriod.EndDate - sevenWeekPeriod.StartDate < 2 ^ 48) ∧
    (CalculatePeriodStats sevenWeekPeriod threeBadges NewHolidayData NewVacationData 50
        (some (civil 2025 1 21)) 0).1.DaysRequired
      ≤ (CalculatePeriodStats sevenWeekPeriod threeBadges NewHolidayData NewVacationData 50
        (some (civil 2025 1 21)) 0).1.TotalDays ∧
    (CalculatePeriodStats sevenWeekPeriod threeBadges NewHolidayData NewVacationData 50
        (some (civil 2025 1 21)) 0).1.DaysRequired = 18 ∧
    (CalculatePeriodStats sevenWeekPeriod threeBadges NewHolidayData NewVacationData 50
        (some (civil 2025 1 21)) 0).1.TotalDays = 36 :=
  ⟨⟨by decide, by decide⟩,
   (C29_counters_are_ordered sevenWeekPeriod threeBadges NewHolidayData NewVacationData 50
      (some (civil 2025 1 21)) 0).2.2.2 (by decide) (by decide),
   by decide!, by decide!⟩

/-! ## Lemmas on a fully badged past -/

theorem truncInt_mathRound_nonpos (z : ℚ) (hz : z ≤ 0) : truncInt (mathRound z) ≤ 0 := by
  unfold mathRound
  by_cases h0 : 0 ≤ z
  · have hz0 : z = 0 := le_antisymm hz h0
    subst hz0
    simp only [le_refl, if_true, zero_add]
    rw [truncInt_intCast]
    norm_num
  · rw [if_neg h0]
    have h1 : (0 : ℤ) ≤ ⌊-z + 1 / 2⌋ := by
      rw [Int.le_floor]
      push_cast
      push_neg at h0
      linarith
    have h2 : -((⌊-z + 1 / 2⌋ : ℤ) : ℚ) = ((-⌊-z + 1 / 2⌋ : ℤ) : ℚ) := by push_cast; ring
    rw [h2, truncInt_intCast]
    omega

theorem expected_le_elapsed (F R T : ℤ) (hF : 1 ≤ F) (hFT : F ≤ T) (hT : T ≤ (2 : ℤ) ^ 48)
    (hR : R ≤ T) :
    truncInt (mathRound (fdiv (fmul (float64 F) (float64 R)) (float64 T))) ≤ F := by
  rw [float64_of_bounded F (by omega) (by omega), float64_of_bounded T (by omega) hT]
  have hTq : (0 : ℚ) < (T : ℚ) := by exact_mod_cast (by omega : 0 < T)
  have hFq : (1 : ℚ) ≤ (F : ℚ) := by exact_mod_cast hF
  have hF2 : (F : ℚ) ≤ (2 : ℚ) ^ 48 := by exact_mod_cast (by omega : F ≤ (2 : ℤ) ^ 48)
  unfold fdiv fmul
  by_cases hR0 : 0 ≤ R
  · rw [float64_of_bounded R hR0 (by omega)]
    have hRq : (0 : ℚ) ≤ (R : ℚ) := by exact_mod_cast hR0
    have hRT : (R : ℚ) ≤ (T : ℚ) := by exact_mod_cast hR
    have hprod : (0 : ℚ) ≤ (F : ℚ) * (R : ℚ) := by positivity
    have ha := f64_upper _ hprod
    have ha0 := f64_nonneg _ hprod
    have hq0 : (0 : ℚ) ≤ f64 ((F : ℚ) * (R : ℚ)) / (T : ℚ) := by positivity
    have hb := f64_upper _ hq0
    have hb0 := f64_nonneg _ hq0
    rw [truncInt_mathRound_of_nonneg _ hb0]
    have hu0 : (0 : ℚ) < (2 : ℚ) ^ (-53 : ℤ) := by positivity
    have hu1 : (2 : ℚ) ^ (-53 : ℤ) * (2 : ℚ) ^ 48 ≤ 1 / 32 := by norm_num
    have hu2 : (2 : ℚ) ^ (-53 : ℤ) ≤ 1 / 1000 := by norm_num
    have h248 : (2 : ℚ) ^ 48 = 281474976710656 := by norm_num
    rw [h248] at hF2 hu1
    generalize (2 : ℚ) ^ (-53 : ℤ) = u at ha hb hu0 hu1 hu2
    -- the quotient is at most `F * (1 + u)`
    have h1 : f64 ((F : ℚ) * (R : ℚ)) / (T : ℚ) ≤ (F : ℚ) * (1 + u) := by
      rw [div_le_iff₀ hTq]
      have : (F : ℚ) * (R : ℚ) * (1 + u) ≤ (F : ℚ) * (1 + u) * (T : ℚ) := by
        have h3 : (F : ℚ) * (R : ℚ) ≤ (F : ℚ) * (T : ℚ) :=
          mul_le_mul_of_nonneg_left hRT (by linarith)
        have h4 : (F : ℚ) * (R : ℚ) * (1 + u) ≤ (F : ℚ) * (T : ℚ) * (1 + u) :=
          mul_le_mul_of_nonneg_right h3 (by linarith)
        calc (F : ℚ) * (R : ℚ) * (1 + u) ≤ (F : ℚ) * (T : ℚ) * (1 + u) := h4
          _ = (F : ℚ) * (1 + u) * (T : ℚ) := by ring
      linarith
    have h2 : f64 (f64 ((F : ℚ) * (R : ℚ)) / (T : ℚ)) ≤ (F : ℚ) * (1 + u) * (1 + u) := by
      calc f64 (f64 ((F : ℚ) * (R : ℚ)) / (T : ℚ))
          ≤ f64 ((F : ℚ) * (R : ℚ)) / (T : ℚ) * (1 + u) := hb
        _ ≤ (F : ℚ) * (1 + u) * (1 + u) := mul_le_mul_of_nonneg_right h1 (by linarith)
    have hFu : (F : ℚ) * u ≤ 1 / 32 := by
      calc (F : ℚ) * u ≤ 281474976710656 * u := mul_le_mul_of_nonneg_right hF2 (by linarith)
        _ = u * 281474976710656 := by ring
        _ ≤ 1 / 32 := hu1
    have hFuu : (F : ℚ) * u * u ≤ 1 / 32 := by
      calc (F : ℚ) * u * u ≤ 1 / 32 * u := mul_le_mul_of_nonneg_right hFu (by linarith)
        _ ≤ 1 / 32 := by linarith
    have h5 : (F : ℚ) * (1 + u) * (1 + u) = (F : ℚ) + 2 * ((F : ℚ) * u) + (F : ℚ) * u * u := by
      ring
    have h6 : ⌊f64 (f64 ((F : ℚ) * (R : ℚ)) / (T : ℚ)) + 1 / 2⌋ < F + 1 := by
      rw [Int.floor_lt]
      push_cast
      linarith
    omega
  · push_neg at hR0
    have hRq : ((R : ℤ) : ℚ) ≤ 0 := by exact_mod_cast (by omega : R ≤ 0)
    have hr : float64 R ≤ 0 := f64_nonpos _ hRq
    have hprod : (F : ℚ) * float64 R ≤ 0 := mul_nonpos_of_nonneg_of_nonpos (by linarith) hr
    have ha := f64_nonpos _ hprod
    have hq : f64 ((F : ℚ) * float64 R) / (T : ℚ) ≤ 0 :=
      div_nonpos_of_nonpos_of_nonneg ha (le_of_lt hTq)
    have hb := f64_nonpos _ hq
    have := truncInt_mathRound_nonpos _ hb
    omega

theorem lt_two_zpow_binExp_succ (x : ℚ) (hx : 0 < x) : x < (2 : ℚ) ^ (binExp x + 1) := by
  have h2 : (2 : ℚ) ≠ 0 := by norm_num
  have hnum : 0 < x.num := Rat.num_pos.mpr hx
  have hn0 : x.num.natAbs ≠ 0 := by
    intro hc
    have := Int.natAbs_eq_zero.mp hc
    omega
  have hd0 : x.den ≠ 0 := x.den_nz
  have h1 := lt_two_pow_bitLen x.num.natAbs
  have h3 := two_pow_bitLen_le x.den hd0
  have hb := bitLen_pos x.den hd0
  have hxeq : x = (x.num.natAbs : ℚ) / (x.den : ℚ) := by
    have hz : ((x.num.natAbs : ℕ) : ℤ) = x.num := Int.natAbs_of_nonneg hnum.le
    have : (x.num.natAbs : ℚ) = (x.num : ℚ) := by
      calc (x.num.natAbs : ℚ) = (((x.num.natAbs : ℕ) : ℤ) : ℚ) := (Int.cast_natCast _).symm
        _ = (x.num : ℚ) := by rw [hz]
    rw [this]
    exact (Rat.num_div_den x).symm
  have hdpos : (0 : ℚ) < (x.den : ℚ) := by exact_mod_cast x.den_pos
  -- the bound with the first guess of the exponent
  have hmain : x < (2 : ℚ) ^ ((bitLen x.num.natAbs : ℤ) - (bitLen x.den : ℤ) + 1) := by
    have e1 : ((bitLen x.num.natAbs : ℤ) - (bitLen x.den : ℤ) + 1)
        = ((bitLen x.num.natAbs : ℕ) : ℤ) - (((bitLen x.den - 1 : ℕ)) : ℤ) := by
      omega
    rw [e1, zpow_sub₀ h2, zpow_natCast, zpow_natCast]
    have h1q : (x.num.natAbs : ℚ) < (2 : ℚ) ^ (bitLen x.num.natAbs) := by
      exact_mod_cast h1
    have h3q : (2 : ℚ) ^ (bitLen x.den - 1) ≤ (x.den : ℚ) := by
      exact_mod_cast h3
    have hp : (0 : ℚ) < (2 : ℚ) ^ (bitLen x.den - 1) := by positivity
    calc x = (x.num.natAbs : ℚ) / (x.den : ℚ) := hxeq
      _ ≤ (x.num.natAbs : ℚ) / (2 : ℚ) ^ (bitLen x.den - 1) := by
          exact div_le_div_of_nonneg_left (by positivity) hp h3q
      _ < (2 : ℚ) ^ (bitLen x.num.natAbs) / (2 : ℚ) ^ (bitLen x.den - 1) := by
          exact div_lt_div_of_pos_right h1q hp
  unfold binExp
  simp only
  split_ifs with h
  · exact hmain
  · push_neg at h
    have : (bitLen x.num.natAbs : ℤ) - (bitLen x.den : ℤ) - 1 + 1
        = (bitLen x.num.natAbs : ℤ) - (bitLen x.den : ℤ) := by ring
    rw [this]
    exact h

theorem roundHalfEven_bounds (y : ℚ) : ⌊y⌋ ≤ roundHalfEven y ∧ roundHalfEven y ≤ ⌊y⌋ + 1 := by
  unfold roundHalfEven
  simp only
  split_ifs <;> constructor <;> omega

theorem roundHalfEven_mono (y1 y2 : ℚ) (h : y1 ≤ y2) : roundHalfEven y1 ≤ roundHalfEven y2 := by
  have hf : ⌊y1⌋ ≤ ⌊y2⌋ := Int.floor_mono h
  rcases lt_or_eq_of_le hf with hlt | heq
  · have h1 := (roundHalfEven_bounds y1).2
    have h2 := (roundHalfEven_bounds y2).1
    omega
  · unfold roundHalfEven
    simp only
    rw [heq]
    have hr : y1 - ((⌊y2⌋ : ℤ) : ℚ) ≤ y2 - ((⌊y2⌋ : ℤ) : ℚ) := by linarith
    by_cases a1 : y2 - ((⌊y2⌋ : ℤ) : ℚ) < 1 / 2
    · rw [if_pos a1, if_pos (lt_of_le_of_lt hr a1)]
    · rw [if_neg a1]
      by_cases a2 : 1 / 2 < y2 - ((⌊y2⌋ : ℤ) : ℚ)
      · rw [if_pos a2]
        split_ifs <;> omega
      · rw [if_neg a2]
        have heq2 : y2 - ((⌊y2⌋ : ℤ) : ℚ) = 1 / 2 := le_antisymm (not_lt.mp a2) (not_lt.mp a1)
        by_cases b1 : y1 - ((⌊y2⌋ : ℤ) : ℚ) < 1 / 2
        · rw [if_pos b1]
          split_ifs <;> omega
        · rw [if_neg b1]
          have hb2 : ¬ (1 / 2 < y1 - ((⌊y2⌋ : ℤ) : ℚ)) := by
            rw [heq2] at hr
            exact not_lt.mpr hr
          rw [if_neg hb2]

theorem f64pos_mono (x y : ℚ) (hx : 0 < x) (hxy : x ≤ y) : f64pos x ≤ f64pos y := by
  have h2 : (2 : ℚ) ≠ 0 := by norm_num
  have hy : 0 < y := lt_of_lt_of_le hx hxy
  have hx1 := two_zpow_binExp_le x hx
  have hx2 := lt_two_zpow_binExp_succ x hx
  have hy1 := two_zpow_binExp_le y hy
  have hy2 := lt_two_zpow_binExp_succ y hy
  have hle : binExp x ≤ binExp y := by
    by_contra hc
    push_neg at hc
    have h3 : (2 : ℚ) ^ (binExp y + 1) ≤ (2 : ℚ) ^ binExp x :=
      zpow_le_zpow_right₀ (by norm_num) (by omega)
    linarith
  rcases lt_or_eq_of_le hle with hlt | heq
  · -- different binades: a power of two lies between the two roundings
    unfold f64pos
    simp only
    have hxs : x * (2 : ℚ) ^ (52 - binExp x) ≤ (((2 : ℤ) ^ 53 : ℤ) : ℚ) := by
      have : x * (2 : ℚ) ^ (52 - binExp x)
          ≤ (2 : ℚ) ^ (binExp x + 1) * (2 : ℚ) ^ (52 - binExp x) :=
        mul_le_mul_of_nonneg_right hx2.le (by positivity)
      rw [← zpow_add₀ h2] at this
      have e : binExp x + 1 + (52 - binExp x) = 53 := by ring
      rw [e] at this
      calc x * (2 : ℚ) ^ (52 - binExp x) ≤ (2 : ℚ) ^ (53 : ℤ) := this
        _ = (((2 : ℤ) ^ 53 : ℤ) : ℚ) := by norm_num
    have hys : (((2 : ℤ) ^ 52 : ℤ) : ℚ) ≤ y * (2 : ℚ) ^ (52 - binExp y) := by
      have : (2 : ℚ) ^ binExp y * (2 : ℚ) ^ (52 - binExp y) ≤ y * (2 : ℚ) ^ (52 - binExp y) :=
        mul_le_mul_of_nonneg_right hy1 (by positivity)
      rw [← zpow_add₀ h2] at this
      have e : binExp y + (52 - binExp y) = 52 := by ring
      rw [e] at this
      calc (((2 : ℤ) ^ 52 : ℤ) : ℚ) = (2 : ℚ) ^ (52 : ℤ) := by norm_num
        _ ≤ y * (2 : ℚ) ^ (52 - binExp y) := this
    have hrx := roundHalfEven_mono _ _ hxs
    have hry := roundHalfEven_mono _ _ hys
    rw [roundHalfEven_intCast] at hrx hry
    have hrxq : (roundHalfEven (x * (2 : ℚ) ^ (52 - binExp x)) : ℚ) ≤ (2 : ℚ) ^ (53 : ℤ) := by
      have : ((roundHalfEven (x * (2 : ℚ) ^ (52 - binExp x)) : ℤ) : ℚ) ≤ (((2 : ℤ) ^ 53 : ℤ) : ℚ) :=
        Int.cast_le.mpr hrx
      calc (roundHalfEven (x * (2 : ℚ) ^ (52 - binExp x)) : ℚ) ≤ (((2 : ℤ) ^ 53 : ℤ) : ℚ) := this
        _ = (2 : ℚ) ^ (53 : ℤ) := by norm_num
    have hryq : (2 : ℚ) ^ (52 : ℤ) ≤ (roundHalfEven (y * (2 : ℚ) ^ (52 - binExp y)) : ℚ) := by
      have : (((2 : ℤ) ^ 52 : ℤ) : ℚ) ≤ ((roundHalfEven (y * (2 : ℚ) ^ (52 - binExp y)) : ℤ) : ℚ) :=
        Int.cast_le.mpr hry
      calc (2 : ℚ) ^ (52 : ℤ) = (((2 : ℤ) ^ 52 : ℤ) : ℚ) := by norm_num
        _ ≤ (roundHalfEven (y * (2 : ℚ) ^ (52 - binExp y)) : ℚ) := this
    have hA : (roundHalfEven (x * (2 : ℚ) ^ (52 - binExp x)) : ℚ) * (2 : ℚ) ^ (-(52 - binExp x))
        ≤ (2 : ℚ) ^ (binExp x + 1) := by
      have : (roundHalfEven (x * (2 : ℚ) ^ (52 - binExp x)) : ℚ) * (2 : ℚ) ^ (-(52 - binExp x))
          ≤ (2 : ℚ) ^ (53 : ℤ) * (2 : ℚ) ^ (-(52 - binExp x)) :=
        mul_le_mul_of_nonneg_right hrxq (by positivity)
      rw [← zpow_add₀ h2] at this
      have e : (53 : ℤ) + -(52 - binExp x) = binExp x + 1 := by ring
      rw [e] at this
      exact this
    have hB : (2 : ℚ) ^ binExp y
        ≤ (roundHalfEven (y * (2 : ℚ) ^ (52 - binExp y)) : ℚ) * (2 : ℚ) ^ (-(52 - binExp y)) := by
      have : (2 : ℚ) ^ (52 : ℤ) * (2 : ℚ) ^ (-(52 - binExp y))
          ≤ (roundHalfEven (y * (2 : ℚ) ^ (52 - binExp y)) : ℚ) * (2 : ℚ) ^ (-(52 - binExp y)) :=
        mul_le_mul_of_nonneg_right hryq (by positivity)
      rw [← zpow_add₀ h2] at this
      have e : (52 : ℤ) + -(52 - binExp y) = binExp y := by ring
      rw [e] at this
      exact this
    have hC : (2 : ℚ) ^ (binExp x + 1) ≤ (2 : ℚ) ^ binExp y :=
      zpow_le_zpow_right₀ (by norm_num) (by omega)
    linarith
  · -- the same binade: the scaled values are rounded by the same rule
    unfold f64pos
    simp only
    rw [heq]
    have hs : x * (2 : ℚ) ^ (52 - binExp y) ≤ y * (2 : ℚ) ^ (52 - binExp y) :=
      mul_le_mul_of_nonneg_right hxy (by positivity)
    have hr := roundHalfEven_mono _ _ hs
    have hrq : (roundHalfEven (x * (2 : ℚ) ^ (52 - binExp y)) : ℚ)
        ≤ (roundHalfEven (y * (2 : ℚ) ^ (52 - binExp y)) : ℚ) := Int.cast_le.mpr hr
    exact mul_le_mul_of_nonneg_right hrq (by positivity)

theorem f64_mono (x y : ℚ) (hxy : x ≤ y) : f64 x ≤ f64 y := by
  by_cases hx : 0 < x
  · rw [f64_of_pos x hx, f64_of_pos y (lt_of_lt_of_le hx hxy)]
    exact f64pos_mono x y hx hxy
  · push_neg at hx
    by_cases hy : y < 0
    · have hx2 : 0 < -x := by linarith
      have hy2 : 0 < -y := by linarith
      have h1 := f64pos_mono (-y) (-x) hy2 (by linarith)
      have e1 : f64 x = -f64pos (-x) := by
        have := f64_neg (-x)
        rw [neg_neg] at this
        rw [this, f64_of_pos _ hx2]
      have e2 : f64 y = -f64pos (-y) := by
        have := f64_neg (-y)
        rw [neg_neg] at this
        rw [this, f64_of_pos _ hy2]
      rw [e1, e2]
      linarith
    · push_neg at hy
      have h1 := f64_nonpos x hx
      have h2 := f64_nonneg y hy
      linarith

theorem required_mono (T g1 g2 : ℤ) (hT : 0 ≤ T) (hg : g1 ≤ g2) :
    truncInt (mathCeil (fdiv (fmul (float64 T) (float64 g1)) 100))
      ≤ truncInt (mathCeil (fdiv (fmul (float64 T) (float64 g2)) 100)) := by
  rw [truncInt_mathCeil, truncInt_mathCeil]
  apply Int.ceil_mono
  unfold fdiv fmul float64
  have hTq : (0 : ℚ) ≤ f64 (T : ℚ) := f64_nonneg _ (by exact_mod_cast hT)
  have h1 : f64 (g1 : ℚ) ≤ f64 (g2 : ℚ) := f64_mono _ _ (by exact_mod_cast hg)
  have h2 : f64 (T : ℚ) * f64 (g1 : ℚ) ≤ f64 (T : ℚ) * f64 (g2 : ℚ) :=
    mul_le_mul_of_nonneg_left h1 hTq
  have h3 := f64_mono _ _ h2
  have h4 : f64 (f64 (T : ℚ) * f64 (g1 : ℚ)) / 100 ≤ f64 (f64 (T : ℚ) * f64 (g2 : ℚ)) / 100 :=
    div_le_div_of_nonneg_right h3 (by norm_num)
  exact f64_mono _ _ h4

/-! ## Lemmas on the figures derived from the goal at 64 bits -/

theorem stats_derived (p : TimePeriod) (b : BadgeEntryData) (h : HolidayData)
    (v : VacationData) (g : Int) (today : Option Int) (clock : Int) :
    (CalculatePeriodStats p b h v g today clock).1.DaysRequired
      = toInt (mathCeil (fdiv (fmul
          (float64 (CalculatePeriodStats p b h v g today clock).1.TotalDays) (float64 g)) 100)) ∧
    (CalculatePeriodStats p b h v g today clock).1.DaysStillNeeded
      = (if wrap64 ((CalculatePeriodStats p b h v g today clock).1.DaysRequired
            - (CalculatePeriodStats p b h v g today clock).1.DaysBadgedIn) < 0 then 0
         else wrap64 ((CalculatePeriodStats p b h v g today clock).1.DaysRequired
            - (CalculatePeriodStats p b h v g today clock).1.DaysBadgedIn)) ∧
    (CalculatePeriodStats p b h v g today clock).1.DaysAheadOfPace
      = (if (CalculatePeriodStats p b h v g today clock).1.DaysThusFar > 0
            ∧ (CalculatePeriodStats p b h v g today clock).1.TotalDays > 0 then
           wrap64 ((CalculatePeriodStats p b h v g today clock).1.DaysBadgedIn
             - toInt (mathRound (fdiv
                 (fmul (float64 (CalculatePeriodStats p b h v g today clock).1.DaysThusFar)
                   (float64 (CalculatePeriodStats p b h v g today clock).1.DaysRequired))
                 (float64 (CalculatePeriodStats p b h v g today clock).1.TotalDays))))
         else 0) ∧
    (CalculatePeriodStats p b h v g today clock).1.DaysLeft
      = (CalculatePeriodStats p b h v g today clock).1.TotalDays
        - (CalculatePeriodStats p b h v g today clock).1.DaysThusFar ∧
    (CalculatePeriodStats p b h v g today clock).1.ComplianceStatus
      = determineComplianceStatus (CalculatePeriodStats p b h v g today clock).1.DaysBadgedIn
          (CalculatePeriodStats p b h v g today clock).1.DaysRequired
          (CalculatePeriodStats p b h v g today clock).1.DaysAheadOfPace
          (CalculatePeriodStats p b h v g today clock).1.DaysStillNeeded
          (CalculatePeriodStats p b h v g today clock).1.DaysLeft p.EndDate
          (refDate today clock) ∧
    (CalculatePeriodStats p b h v g today clock).1.ProjectedCompletionDate
      = (if (CalculatePeriodStats p b h v g today clock).1.DaysBadgedIn > 0
            ∧ (CalculatePeriodStats p b h v g today clock).1.DaysThusFar > 0
            ∧ (CalculatePeriodStats p b h v g today clock).1.DaysStillNeeded > 0 then
           (if fdiv (float64 (CalculatePeriodStats p b h v g today clock).1.DaysBadgedIn)
                 (float64 (CalculatePeriodStats p b h v g today clock).1.DaysThusFar) > 0 then
              some (AddDate (refDate today clock) (toInt (mathCeil (fdiv
                (float64 (CalculatePeriodStats p b h v g today clock).1.DaysStillNeeded)
                (fdiv (float64 (CalculatePeriodStats p b h v g today clock).1.DaysBadgedIn)
                  (float64 (CalculatePeriodStats p b h v g today clock).1.DaysThusFar))))))
            else none)
         else none) := by
  rw [CalculatePeriodStats_fst]
  exact ⟨rfl, rfl, rfl, rfl, rfl, rfl⟩

theorem required_trunc_bounds (T g : ℤ) (hb : |T * g| < (2 : ℤ) ^ 62) :
    -(2 : ℤ) ^ 57 ≤ truncInt (mathCeil (fdiv (fmul (float64 T) (float64 g)) 100)) ∧
    truncInt (mathCeil (fdiv (fmul (float64 T) (float64 g)) 100)) ≤ (2 : ℤ) ^ 57 := by
  rw [truncInt_mathCeil]
  unfold fdiv fmul float64
  have hu0 : (0 : ℚ) < (2 : ℚ) ^ (-53 : ℤ) := by positivity
  have hu1 : (2 : ℚ) ^ (-53 : ℤ) ≤ 1 / 1000 := by norm_num
  have hA := abs_f64_le (T : ℚ)
  have hB := abs_f64_le (g : ℚ)
  have hC := abs_f64_le (f64 (T : ℚ) * f64 (g : ℚ))
  have hD := abs_f64_le (f64 (f64 (T : ℚ) * f64 (g : ℚ)) / 100)
  have hP : |(T : ℚ)| * |(g : ℚ)| ≤ 4611686018427387904 := by
    rw [← abs_mul]
    have : |((T * g : ℤ) : ℚ)| < (((2 : ℤ) ^ 62 : ℤ) : ℚ) := by
      rw [← Int.cast_abs]
      exact Int.cast_lt.mpr hb
    push_cast at this
    exact this.le
  generalize (2 : ℚ) ^ (-53 : ℤ) = u at hA hB hC hD hu0 hu1
  have hu4 : (1 + u) ≤ 1001 / 1000 := by linarith
  have h1 : |f64 (T : ℚ) * f64 (g : ℚ)| ≤ 4611686018427387904 * (1001 / 1000) ^ 2 := by
    rw [abs_mul]
    calc |f64 (T : ℚ)| * |f64 (g : ℚ)|
        ≤ (|(T : ℚ)| * (1 + u)) * (|(g : ℚ)| * (1 + u)) :=
          mul_le_mul hA hB (abs_nonneg _) (by positivity)
      _ = (|(T : ℚ)| * |(g : ℚ)|) * ((1 + u) * (1 + u)) := by ring
      _ ≤ 4611686018427387904 * ((1001 / 1000) * (1001 / 1000)) := by
          apply mul_le_mul hP _ (by positivity) (by norm_num)
          exact mul_le_mul hu4 hu4 (by linarith) (by norm_num)
      _ = 4611686018427387904 * (1001 / 1000) ^ 2 := by ring
  have h2 : |f64 (f64 (T : ℚ) * f64 (g : ℚ))| ≤ 4611686018427387904 * (1001 / 1000) ^ 3 := by
    calc |f64 (f64 (T : ℚ) * f64 (g : ℚ))|
        ≤ |f64 (T : ℚ) * f64 (g : ℚ)| * (1 + u) := hC
      _ ≤ (4611686018427387904 * (1001 / 1000) ^ 2) * (1001 / 1000) :=
          mul_le_mul h1 hu4 (by linarith) (by norm_num)
      _ = 4611686018427387904 * (1001 / 1000) ^ 3 := by ring
  have h3 : |f64 (f64 (T : ℚ) * f64 (g : ℚ)) / 100|
      ≤ 4611686018427387904 * (1001 / 1000) ^ 3 / 100 := by
    rw [abs_div]
    have : |(100 : ℚ)| = 100 := abs_of_pos (by norm_num)
    rw [this]
    exact div_le_div_of_nonneg_right h2 (by norm_num)
  have h4 : |f64 (f64 (f64 (T : ℚ) * f64 (g : ℚ)) / 100)| ≤ 72057594037927936 := by
    calc |f64 (f64 (f64 (T : ℚ) * f64 (g : ℚ)) / 100)|
        ≤ |f64 (f64 (T : ℚ) * f64 (g : ℚ)) / 100| * (1 + u) := hD
      _ ≤ (4611686018427387904 * (1001 / 1000) ^ 3 / 100) * (1001 / 1000) :=
          mul_le_mul h3 hu4 (by linarith) (by norm_num)
      _ ≤ 72057594037927936 := by norm_num
  have h5 := abs_le.mp h4
  constructor
  · have : ((-(2 : ℤ) ^ 57 : ℤ) : ℚ) ≤ ((⌈f64 (f64 (f64 (T : ℚ) * f64 (g : ℚ)) / 100)⌉ : ℤ) : ℚ) := by
      have := Int.le_ceil (f64 (f64 (f64 (T : ℚ) * f64 (g : ℚ)) / 100))
      push_cast
      linarith
    exact_mod_cast this
  · rw [Int.ceil_le]
    push_cast
    linarith

theorem required_toInt_eq (T g : ℤ) (hb : |T * g| < (2 : ℤ) ^ 62) :
    toInt (mathCeil (fdiv (fmul (float64 T) (float64 g)) 100))
      = truncInt (mathCeil (fdiv (fmul (float64 T) (float64 g)) 100)) := by
  obtain ⟨h1, h2⟩ := required_trunc_bounds T g hb
  apply toInt_of_range
  · unfold minInt64
    omega
  · unfold maxInt64
    omega

theorem required_toInt_le_total (T g : ℤ) (hT0 : 0 ≤ T) (hT : T ≤ (2 : ℤ) ^ 48) (hg : g ≤ 100) :
    toInt (mathCeil (fdiv (fmul (float64 T) (float64 g)) 100)) ≤ T :=
  toInt_le_of_truncInt_le _ _ (required_le_total T g hT0 hT hg) (by unfold minInt64; omega)

theorem abs_mathRound_le (z : ℚ) : |mathRound z| ≤ |z| + 1 / 2 := by
  unfold mathRound
  split_ifs with h0
  · have h1 : (0 : ℤ) ≤ ⌊z + 1 / 2⌋ := Int.floor_nonneg.mpr (by linarith)
    have h2 : ((⌊z + 1 / 2⌋ : ℤ) : ℚ) ≤ z + 1 / 2 := Int.floor_le _
    have h3 : (0 : ℚ) ≤ ((⌊z + 1 / 2⌋ : ℤ) : ℚ) := by exact_mod_cast h1
    rw [abs_of_nonneg h3, abs_of_nonneg h0]
    exact h2
  · push_neg at h0
    have h1 : (0 : ℤ) ≤ ⌊-z + 1 / 2⌋ := Int.floor_nonneg.mpr (by linarith)
    have h2 : ((⌊-z + 1 / 2⌋ : ℤ) : ℚ) ≤ -z + 1 / 2 := Int.floor_le _
    have h3 : (0 : ℚ) ≤ ((⌊-z + 1 / 2⌋ : ℤ) : ℚ) := by exact_mod_cast h1
    rw [abs_neg, abs_of_nonneg h3, abs_of_neg h0]
    exact h2

theorem expected_trunc_bounds (F R T : ℤ) (hF : 1 ≤ F) (hFT : F ≤ T) (hT : T ≤ (2 : ℤ) ^ 48)
    (hR : |R| ≤ (2 : ℤ) ^ 57) :
    -(2 : ℤ) ^ 58 ≤ truncInt (mathRound (fdiv (fmul (float64 F) (float64 R)) (float64 T))) ∧
    truncInt (mathRound (fdiv (fmul (float64 F) (float64 R)) (float64 T))) ≤ (2 : ℤ) ^ 58 := by
  rw [float64_of_bounded F (by omega) (by omega), float64_of_bounded T (by omega) hT]
  unfold fdiv fmul float64
  have hTq : (0 : ℚ) < (T : ℚ) := by exact_mod_cast (by omega : 0 < T)
  have hFq : (0 : ℚ) < (F : ℚ) := by exact_mod_cast (by omega : 0 < F)
  have hFTq : (F : ℚ) ≤ (T : ℚ) := by exact_mod_cast hFT
  have hu0 : (0 : ℚ) < (2 : ℚ) ^ (-53 : ℤ) := by positivity
  have hu1 : (2 : ℚ) ^ (-53 : ℤ) ≤ 1 / 1000 := by norm_num
  have hB := abs_f64_le (R : ℚ)
  have hC := abs_f64_le ((F : ℚ) * f64 (R : ℚ))
  have hD := abs_f64_le (f64 ((F : ℚ) * f64 (R : ℚ)) / (T : ℚ))
  have hRq : |(R : ℚ)| ≤ 144115188075855872 := by
    have : |((R : ℤ) : ℚ)| ≤ (((2 : ℤ) ^ 57 : ℤ) : ℚ) := by
      rw [← Int.cast_abs]
      exact Int.cast_le.mpr hR
    push_cast at this
    exact this
  generalize (2 : ℚ) ^ (-53 : ℤ) = u at hB hC hD hu0 hu1
  have hu4 : (1 + u) ≤ 1001 / 1000 := by linarith
  have h1 : |f64 (R : ℚ)| ≤ 144115188075855872 * (1001 / 1000) := by
    calc |f64 (R : ℚ)| ≤ |(R : ℚ)| * (1 + u) := hB
      _ ≤ 144115188075855872 * (1001 / 1000) := mul_le_mul hRq hu4 (by linarith) (by norm_num)
  have h2 : |f64 ((F : ℚ) * f64 (R : ℚ))| ≤ (F : ℚ) * (144115188075855872 * (1001 / 1000) ^ 2) := by
    calc |f64 ((F : ℚ) * f64 (R : ℚ))| ≤ |(F : ℚ) * f64 (R : ℚ)| * (1 + u) := hC
      _ = (F : ℚ) * |f64 (R : ℚ)| * (1 + u) := by rw [abs_mul, abs_of_pos hFq]
      _ ≤ (F : ℚ) * (144115188075855872 * (1001 / 1000)) * (1001 / 1000) := by
          apply mul_le_mul _ hu4 (by linarith) (by positivity)
          exact mul_le_mul_of_nonneg_left h1 hFq.le
      _ = (F : ℚ) * (144115188075855872 * (1001 / 1000) ^ 2) := by ring
  have h3 : |f64 ((F : ℚ) * f64 (R : ℚ)) / (T : ℚ)| ≤ 144115188075855872 * (1001 / 1000) ^ 2 := by
    rw [abs_div, abs_of_pos hTq, div_le_iff₀ hTq]
    calc |f64 ((F : ℚ) * f64 (R : ℚ))| ≤ (F : ℚ) * (144115188075855872 * (1001 / 1000) ^ 2) := h2
      _ ≤ (T : ℚ) * (144115188075855872 * (1001 / 1000) ^ 2) :=
          mul_le_mul_of_nonneg_right hFTq (by norm_num)
      _ = 144115188075855872 * (1001 / 1000) ^ 2 * (T : ℚ) := by ring
  have h4 : |f64 (f64 ((F : ℚ) * f64 (R : ℚ)) / (T : ℚ))| ≤ 144115188075855872 * (1001 / 1000) ^ 3 := by
    calc |f64 (f64 ((F : ℚ) * f64 (R : ℚ)) / (T : ℚ))|
        ≤ |f64 ((F : ℚ) * f64 (R : ℚ)) / (T : ℚ)| * (1 + u) := hD
      _ ≤ (144115188075855872 * (1001 / 1000) ^ 2) * (1001 / 1000) :=
          mul_le_mul h3 hu4 (by linarith) (by norm_num)
      _ = 144115188075855872 * (1001 / 1000) ^ 3 := by ring
  have h5 := abs_mathRound_le (f64 (f64 ((F : ℚ) * f64 (R : ℚ)) / (T : ℚ)))
  have h6 : |mathRound (f64 (f64 ((F : ℚ) * f64 (R : ℚ)) / (T : ℚ)))|
      ≤ (((2 : ℤ) ^ 58 : ℤ) : ℚ) := by
    push_cast
    have : (144115188075855872 : ℚ) * (1001 / 1000) ^ 3 + 1 / 2 ≤ (2 : ℚ) ^ 58 := by norm_num
    linarith
  have h7 := truncInt_abs_le _ _ h6
  exact h7

theorem stillNeeded_of_no_wrap (R B S : ℤ)
    (hS : S = (if wrap64 (R - B) < 0 then 0 else wrap64 (R - B)))
    (h1 : minInt64 ≤ R - B) (h2 : R - B ≤ maxInt64) :
    S = max 0 (R - B) ∧ (S = 0 ↔ B ≥ R) := by
  rw [wrap64_of_range _ h1 h2] at hS
  rw [hS]
  constructor
  · split_ifs with hc
    · rw [max_eq_left (by omega)]
    · rw [max_eq_right (by omega)]
  · split_ifs with hc <;> omega

theorem stats_span_bounds (p : TimePeriod) (b : BadgeEntryData) (h : HolidayData)
    (v : VacationData) (g : Int) (today : Option Int) (clock : Int)
    (hspan : p.EndDate - p.StartDate < 2 ^ 48) :
    (0 ≤ (CalculatePeriodStats p b h v g today clock).1.DaysThusFar ∧
      (CalculatePeriodStats p b h v g today clock).1.DaysThusFar
        ≤ (CalculatePeriodStats p b h v g today clock).1.TotalDays) ∧
    (0 ≤ (CalculatePeriodStats p b h v g today clock).1.DaysBadgedIn ∧
      (CalculatePeriodStats p b h v g today clock).1.DaysBadgedIn
        ≤ (CalculatePeriodStats p b h v g today clock).1.TotalDays) ∧
    (CalculatePeriodStats p b h v g today clock).1.TotalDays ≤ (2 : ℤ) ^ 48 := by
  obtain ⟨b1, b2, b3, b4, b5, b6⟩ := CalculatePeriodStats_bounds p b h v g today clock
  have : max 0 (p.EndDate - p.StartDate + 1) ≤ (2 : ℤ) ^ 48 := by
    apply max_le
    · norm_num
    · omega
  exact ⟨⟨b1, b2⟩, ⟨by omega, b5⟩, by omega⟩

theorem stats_no_wrap_of_bound (p : TimePeriod) (b : BadgeEntryData) (h : HolidayData)
    (v : VacationData) (g : Int) (today : Option Int) (clock : Int)
    (hspan : p.EndDate - p.StartDate < 2 ^ 48)
    (hb : |(CalculatePeriodStats p b h v g today clock).1.TotalDays * g| < 2 ^ 62) :
    -(2 : ℤ) ^ 57 ≤ (CalculatePeriodStats p b h v g today clock).1.DaysRequired ∧
    (CalculatePeriodStats p b h v g today clock).1.DaysRequired ≤ (2 : ℤ) ^ 57 ∧
    minInt64 ≤ (CalculatePeriodStats p b h v g today clock).1.DaysRequired
      - (CalculatePeriodStats p b h v g today clock).1.DaysBadgedIn := by
  obtain ⟨-, ⟨-, s2⟩, s3⟩ := stats_span_bounds p b h v g today clock hspan
  obtain ⟨dR, -, -, -, -, -⟩ := stats_derived p b h v g today clock
  have hR := required_trunc_bounds _ g hb
  rw [← required_toInt_eq _ g hb, ← dR] at hR
  refine ⟨hR.1, hR.2, ?_⟩
  unfold minInt64
  omega

theorem pace_ne_zero_of_unreachable (F T R : ℤ) (hF : 1 ≤ F) (hFT : F ≤ T)
    (hT : T ≤ (2 : ℤ) ^ 48) (hR : R ≤ T) (hgt : T - F < R) :
    wrap64 (0 - toInt (mathRound (fdiv (fmul (float64 F) (float64 R)) (float64 T)))) ≠ 0 := by
  have hFR : T ≤ F * R := by nlinarith
  have h1 := expected_pos F R T hF (by omega) (by omega) (by omega) (by omega) hT hFR
  have h2 := expected_le_elapsed F R T hF hFT hT hR
  rw [toInt_of_range _ (by unfold minInt64; omega) (by unfold maxInt64; omega),
    wrap64_of_range _ (by unfold minInt64; omega) (by unfold maxInt64; omega)]
  omega

theorem stats_impossible_of_gt (p : TimePeriod) (b : BadgeEntryData) (h : HolidayData)
    (v : VacationData) (g : Int) (today : Option Int) (clock : Int)
    (hg : g ≤ 100) (hspan : p.EndDate - p.StartDate < 2 ^ 48)
    (hlo : -(2 ^ 62) < (CalculatePeriodStats p b h v g today clock).1.TotalDays * g)
    (hgt : (CalculatePeriodStats p b h v g today clock).1.DaysStillNeeded
      > (CalculatePeriodStats p b h v g today clock).1.DaysLeft) :
    (CalculatePeriodStats p b h v g today clock).1.ComplianceStatus = "Impossible" := by
  obtain ⟨⟨s0, s1⟩, ⟨s2, s3⟩, s4⟩ := stats_span_bounds p b h v g today clock hspan
  obtain ⟨dR, dS, dP, dL, dSt, -⟩ := stats_derived p b h v g today clock
  have hT0 : 0 ≤ (CalculatePeriodStats p b h v g today clock).1.TotalDays := by omega
  have hb : |(CalculatePeriodStats p b h v g today clock).1.TotalDays * g| < 2 ^ 62 := by
    rw [abs_lt]
    refine ⟨hlo, ?_⟩
    have : (CalculatePeriodStats p b h v g today clock).1.TotalDays * g
        ≤ (CalculatePeriodStats p b h v g today clock).1.TotalDays * 100 :=
      mul_le_mul_of_nonneg_left hg hT0
    omega
  obtain ⟨r1, r2, r3⟩ := stats_no_wrap_of_bound p b h v g today clock hspan hb
  have hRT : (CalculatePeriodStats p b h v g today clock).1.DaysRequired
      ≤ (CalculatePeriodStats p b h v g today clock).1.TotalDays := by
    rw [dR]
    exact required_toInt_le_total _ g hT0 s4 hg
  have hS := (stillNeeded_of_no_wrap _ _ _ dS r3 (by unfold maxInt64; omega)).1
  rw [dSt]
  rw [dL] at hgt ⊢
  clear dSt dL
  generalize (CalculatePeriodStats p b h v g today clock).1.DaysRequired = R at *
  generalize (CalculatePeriodStats p b h v g today clock).1.DaysBadgedIn = B at *
  generalize (CalculatePeriodStats p b h v g today clock).1.DaysThusFar = F at *
  generalize (CalculatePeriodStats p b h v g today clock).1.TotalDays = T at *
  generalize (CalculatePeriodStats p b h v g today clock).1.DaysStillNeeded = S at *
  generalize (CalculatePeriodStats p b h v g today clock).1.DaysAheadOfPace = P at *
  have hRB : T - F < R - B := by
    rcases max_cases 0 (R - B) with ⟨hm, -⟩ | ⟨hm, -⟩ <;> omega
  unfold determineComplianceStatus
  rw [if_neg (by omega)]
  have h2 : ¬ (P = 0 ∧ B = 0) := by
    rintro ⟨hP, hB⟩
    subst hB
    have hF1 : 1 ≤ F := by omega
    rw [if_pos ⟨by omega, by omega⟩] at dP
    exact pace_ne_zero_of_unreachable F T R hF1 s1 s4 hRT (by omega) (dP.symm.trans hP)
  rw [if_neg h2, if_pos hgt]

/-- C3: for every goal percent from 1 to 100, and more generally from `-2 ^ 13`
to 100, the status returned by `CalculatePeriodStats` is "Impossible" if and
only if `DaysStillNeeded > DaysLeft`.  The period spans fewer than `2 ^ 48`
days, as any two `time.Time` values do; the lower bound on the goal keeps
`DaysRequired - DaysBadgedIn` within 64 bits. -/
theorem C3_impossible_iff_unreachable (p : TimePeriod) (b : BadgeEntryData) (h : HolidayData)
    (v : VacationData) (g : Int) (today : Option Int) (clock : Int)
    (hg0 : -(2 ^ 13) ≤ g) (hg : g ≤ 100) (hspan : p.EndDate - p.StartDate < 2 ^ 48) :
    (CalculatePeriodStats p b h v g today clock).1.ComplianceStatus = "Impossible" ↔
      (CalculatePeriodStats p b h v g today clock).1.DaysStillNeeded
        > (CalculatePeriodStats p b h v g today clock).1.DaysLeft := by
  constructor
  · intro hst
    rw [CalculatePeriodStats_fst] at hst ⊢
    exact deriveStats_gt_of_impossible _ _ _ _ _ hst
  · intro hgt
    obtain ⟨⟨s0, s1⟩, -, s4⟩ := stats_span_bounds p b h v g today clock hspan
    have hT0 : 0 ≤ (CalculatePeriodStats p b h v g today clock).1.TotalDays := by omega
    have hlo : -(2 ^ 62) < (CalculatePeriodStats p b h v g today clock).1.TotalDays * g := by
      have h1 : (CalculatePeriodStats p b h v g today clock).1.TotalDays * (-(2 ^ 13))
          ≤ (CalculatePeriodStats p b h v g today clock).1.TotalDays * g :=
        mul_le_mul_of_nonneg_left hg0 hT0
      omega
    exact stats_impossible_of_gt p b h v g today clock hg hspan hlo hgt

/-- C3 (witness): the one-day period 2025-01-02, no badge entry, goal 50, seen
from 2025-01-03: the status is "Impossible". -/
theorem C3_impossible_iff_unreachable_witness :
    (-(2 ^ 13) ≤ (50 : Int) ∧ (50 : Int) ≤ 100
      ∧ oneDayPeriod.EndDate - oneDayPeriod.StartDate < 2 ^ 48) ∧
    (CalculatePeriodStats oneDayPeriod NewBadgeEntryData NewHolidayData NewVacationData 50
        (some (civil 2025 1 3)) 0).1.ComplianceStatus = "Impossible" :=
  ⟨by decide,
    (C3_impossible_iff_unreachable oneDayPeriod NewBadgeEntryData NewHolidayData NewVacationData
      50 (some (civil 2025 1 3)) 0 (by decide) (by decide) (by decide)).mpr (by decide!)⟩

/-- C18 (amended): if `DaysThusFar > 0` and `TotalDays > 0` then
`DaysAheadOfPace` is the 64-bit difference of `DaysBadgedIn` and the `int` of
the rounding (ties away from zero) of the float64 value
`float64(DaysThusFar) * float64(DaysRequired) / float64(TotalDays)`, and
otherwise it is `0`; when `|DaysThusFar * DaysRequired| < 2 ^ 52`, on a period
of fewer than `2 ^ 48` days, it is `DaysBadgedIn` minus the rounding, ties away
from zero, of the exact rational `DaysThusFar * DaysRequired / TotalDays`. -/
theorem C18_daysAheadOfPace_rounding (p : TimePeriod) (b : BadgeEntryData) (h : HolidayData)
    (v : VacationData) (g : Int) (today : Option Int) (clock : Int) :
    (¬ ((CalculatePeriodStats p b h v g today clock).1.DaysThusFar > 0
        ∧ (CalculatePeriodStats p b h v g today clock).1.TotalDays > 0) →
      (CalculatePeriodStats p b h v g today clock).1.DaysAheadOfPace = 0) ∧
    ((CalculatePeriodStats p b h v g today clock).1.DaysThusFar > 0
        ∧ (CalculatePeriodStats p b h v g today clock).1.TotalDays > 0 →
      (CalculatePeriodStats p b h v g today clock).1.DaysAheadOfPace
        = wrap64 ((CalculatePeriodStats p b h v g today clock).1.DaysBadgedIn
          - toInt (mathRound (fdiv
              (fmul (float64 (CalculatePeriodStats p b h v g today clock).1.DaysThusFar)
                (float64 (CalculatePeriodStats p b h v g today clock).1.DaysRequired))
              (float64 (CalculatePeriodStats p b h v g today clock).1.TotalDays))))) ∧
    ((CalculatePeriodStats p b h v g today clock).1.DaysThusFar > 0
        ∧ (CalculatePeriodStats p b h v g today clock).1.TotalDays > 0 →
      p.EndDate - p.StartDate < 2 ^ 48 →
      |(CalculatePeriodStats p b h v g today clock).1.DaysThusFar
        * (CalculatePeriodStats p b h v g today clock).1.DaysRequired| < 2 ^ 52 →
      (CalculatePeriodStats p b h v g today clock).1.DaysAheadOfPace
        = (CalculatePeriodStats p b h v g today clock).1.DaysBadgedIn
          - (if 0 ≤ (CalculatePeriodStats p b h v g today clock).1.DaysThusFar
                  * (CalculatePeriodStats p b h v g today clock).1.DaysRequired then
              ⌊(((CalculatePeriodStats p b h v g today clock).1.DaysThusFar
                  * (CalculatePeriodStats p b h v g today clock).1.DaysRequired : ℤ) : ℚ)
                / ((CalculatePeriodStats p b h v g today clock).1.TotalDays : ℚ) + 1 / 2⌋
             else
              -⌊-((((CalculatePeriodStats p b h v g today clock).1.DaysThusFar
                  * (CalculatePeriodStats p b h v g today clock).1.DaysRequired : ℤ) : ℚ)
                / ((CalculatePeriodStats p b h v g today clock).1.TotalDays : ℚ)) + 1 / 2⌋)) := by
  obtain ⟨-, -, dP, -, -, -⟩ := stats_derived p b h v g today clock
  refine ⟨?_, ?_, ?_⟩
  · intro hc
    rw [dP, if_neg hc]
  · intro hc
    rw [dP, if_pos hc]
  · intro hc hspan hprod
    obtain ⟨⟨s0, s1⟩, ⟨s2, s3⟩, s4⟩ := stats_span_bounds p b h v g today clock hspan
    rw [dP, if_pos hc]
    generalize (CalculatePeriodStats p b h v g today clock).1.DaysRequired = R at *
    generalize (CalculatePeriodStats p b h v g today clock).1.DaysBadgedIn = B at *
    generalize (CalculatePeriodStats p b h v g today clock).1.DaysThusFar = F at *
    generalize (CalculatePeriodStats p b h v g today clock).1.TotalDays = T at *
    have hR : |R| ≤ (2 : ℤ) ^ 57 := by
      have h1 : |F * R| = F * |R| := by rw [abs_mul, abs_of_pos hc.1]
      have h2 : 0 ≤ |R| := abs_nonneg R
      have h3 : 1 * |R| ≤ F * |R| := mul_le_mul_of_nonneg_right (by omega) h2
      omega
    obtain ⟨e1, e2⟩ := expected_trunc_bounds F R T (by omega) s1 s4 hR
    rw [toInt_of_range _ (by unfold minInt64; omega) (by unfold maxInt64; omega),
      wrap64_of_range _ (by unfold minInt64; omega) (by unfold maxInt64; omega),
      expected_exact F R T hc.1 (by omega) hc.2 s4 hprod]

/-- C18 (witness): seven weeks, three badge-ins, goal 50, seen from 2025-01-21:
11 days elapsed of 36, 18 required, 198 / 36 = 5.5 rounds to 6 and the pace is
3 - 6. -/
theorem C18_daysAheadOfPace_rounding_witness :
    (((CalculatePeriodStats sevenWeekPeriod threeBadges NewHolidayData NewVacationData 50
        (some (civil 2025 1 21)) 0).1.DaysThusFar > 0
      ∧ (CalculatePeriodStats sevenWeekPeriod threeBadges NewHolidayData NewVacationData 50
        (some (civil 2025 1 21)) 0).1.TotalDays > 0) ∧
      sevenWeekPeriod.EndDate - sevenWeekPeriod.StartDate < 2 ^ 48 ∧
      |(CalculatePeriodStats sevenWeekPeriod threeBadges NewHolidayData NewVacationData 50
          (some (civil 2025 1 21)) 0).1.DaysThusFar
        * (CalculatePeriodStats sevenWeekPeriod threeBadges NewHolidayData NewVacationData 50
          (some (civil 2025 1 21)) 0).1.DaysRequired| < 2 ^ 52) ∧
    (CalculatePeriodStats sevenWeekPeriod threeBadges NewHolidayData NewVacationData 50
        (some (civil 2025 1 21)) 0).1.DaysAheadOfPace
      = (CalculatePeriodStats sevenWeekPeriod threeBadges NewHolidayData NewVacationData 50
        (some (civil 2025 1 21)) 0).1.DaysBadgedIn
        - (if 0 ≤ (CalculatePeriodStats sevenWeekPeriod threeBadges NewHolidayData NewVacationData
                50 (some (civil 2025 1 21)) 0).1.DaysThusFar
              * (CalculatePeriodStats sevenWeekPeriod threeBadges NewHolidayData NewVacationData
                50 (some (civil 2025 1 21)) 0).1.DaysRequired then
            ⌊(((CalculatePeriodStats sevenWeekPeriod threeBadges NewHolidayData NewVacationData
                50 (some (civil 2025 1 21)) 0).1.DaysThusFar
              * (CalculatePeriodStats sevenWeekPeriod threeBadges NewHolidayData NewVacationData
                50 (some (civil 2025 1 21)) 0).1.DaysRequired : ℤ) : ℚ)
              / ((CalculatePeriodStats sevenWeekPeriod threeBadges NewHolidayData NewVacationData
                50 (some (civil 2025 1 21)) 0).1.TotalDays : ℚ) + 1 / 2⌋
           else
            -⌊-((((CalculatePeriodStats sevenWeekPeriod threeBadges NewHolidayData NewVacationData
                50 (some (civil 2025 1 21)) 0).1.DaysThusFar
              * (CalculatePeriodStats sevenWeekPeriod threeBadges NewHolidayData NewVacationData
                50 (some (civil 2025 1 21)) 0).1.DaysRequired : ℤ) : ℚ)
              / ((CalculatePeriodStats sevenWeekPeriod threeBadges NewHolidayData NewVacationData
                50 (some (civil 2025 1 21)) 0).1.TotalDays : ℚ)) + 1 / 2⌋) ∧
    (CalculatePeriodStats sevenWeekPeriod threeBadges NewHolidayData NewVacationData 50
        (some (civil 2025 1 21)) 0).1.DaysAheadOfPace = -3 :=
  ⟨⟨by decide!, by decide, by decide!⟩,
    (C18_daysAheadOfPace_rounding sevenWeekPeriod threeBadges NewHolidayData NewVacationData 50
      (some (civil 2025 1 21)) 0).2.2 (by decide!) (by decide) (by decide!),
    by decide!⟩

theorem required_trunc_le_of_lt (T g : ℤ) (hT : 0 ≤ T) (hb : T * g < (2 : ℤ) ^ 62) :
    truncInt (mathCeil (fdiv (fmul (float64 T) (float64 g)) 100)) ≤ maxInt64 := by
  have h57 : (2 : ℤ) ^ 57 ≤ maxInt64 := by
    unfold maxInt64
    norm_num
  by_cases hg : g ≤ 0
  · have h1 := required_mono T g 0 hT hg
    have h2 := (required_trunc_bounds T 0 (by simp)).2
    omega
  · have h0 : 0 ≤ T * g := mul_nonneg hT (by omega)
    have h2 := (required_trunc_bounds T g (by rw [abs_of_nonneg h0]; exact hb)).2
    omega

/-- C25 (amended): for a fixed period, fixed collections and a fixed today,
`TotalDays` does not depend on the goal percent.  For goals `g1 ≤ g2` with
`TotalDays * g2 < 2 ^ 62` the result for `g2` requires at least as many days as
the result for `g1`; when `TotalDays * g1` and `TotalDays * g2` are below
`2 ^ 53` in absolute value, `TotalDays * (g2 - g1) ≥ 100` makes the second
requirement strictly greater. -/
theorem C25_daysRequired_monotone_in_goal (p : TimePeriod) (b : BadgeEntryData)
    (h : HolidayData) (v : VacationData) (g1 g2 : Int) (today : Option Int) (clock : Int)
    (hg : g1 ≤ g2) :
    (CalculatePeriodStats p b h v g2 today clock).1.TotalDays
      = (CalculatePeriodStats p b h v g1 today clock).1.TotalDays ∧
    ((CalculatePeriodStats p b h v g1 today clock).1.TotalDays * g2 < 2 ^ 62 →
      (CalculatePeriodStats p b h v g1 today clock).1.DaysRequired
        ≤ (CalculatePeriodStats p b h v g2 today clock).1.DaysRequired) ∧
    (|(CalculatePeriodStats p b h v g1 today clock).1.TotalDays * g1| < 2 ^ 53 →
      |(CalculatePeriodStats p b h v g1 today clock).1.TotalDays * g2| < 2 ^ 53 →
      (CalculatePeriodStats p b h v g1 today clock).1.TotalDays * (g2 - g1) ≥ 100 →
      (CalculatePeriodStats p b h v g1 today clock).1.DaysRequired
        < (CalculatePeriodStats p b h v g2 today clock).1.DaysRequired) := by
  obtain ⟨r1, -, -, -, -, -⟩ := stats_derived p b h v g1 today clock
  obtain ⟨r2, -, -, -, -, -⟩ := stats_derived p b h v g2 today clock
  obtain ⟨b1, b2, -⟩ := CalculatePeriodStats_bounds p b h v g1 today clock
  have hT : (CalculatePeriodStats p b h v g2 today clock).1.TotalDays
      = (CalculatePeriodStats p b h v g1 today clock).1.TotalDays := by
    rw [CalculatePeriodStats_fst, CalculatePeriodStats_fst]
    rfl
  rw [hT] at r2
  rw [r1, r2]
  generalize (CalculatePeriodStats p b h v g1 today clock).1.TotalDays = T at b1 b2 hT ⊢
  refine ⟨hT, ?_, ?_⟩
  · intro hb
    exact toInt_mono_of_truncInt_le _ _ (required_mono T g1 g2 (by omega) hg)
      (required_trunc_le_of_lt T g2 (by omega) hb)
  · intro hb1 hb2 hdiff
    obtain ⟨e1, -⟩ := required_toInt_exact T g1 hb1
    obtain ⟨-, e2⟩ := required_toInt_exact T g2 hb2
    have : T * (g2 - g1) = T * g2 - T * g1 := by ring
    omega

/-- C25 (witness): the scenario of `TestConfigurableGoalPercentage`, the first
quarter of 2025 with goals of 50 and 75 percent: 32 and 48 days of 64. -/
theorem C25_daysRequired_monotone_in_goal_witness :
    ((50 : Int) ≤ 75 ∧
      |(CalculatePeriodStats q1Period NewBadgeEntryData NewHolidayData NewVacationData 50
          (some (civil 2025 3 31)) 0).1.TotalDays * 50| < 2 ^ 53 ∧
      |(CalculatePeriodStats q1Period NewBadgeEntryData NewHolidayData NewVacationData 50
          (some (civil 2025 3 31)) 0).1.TotalDays * 75| < 2 ^ 53 ∧
      (CalculatePeriodStats q1Period NewBadgeEntryData NewHolidayData NewVacationData 50
          (some (civil 2025 3 31)) 0).1.TotalDays * (75 - 50) ≥ 100) ∧
    (CalculatePeriodStats q1Period NewBadgeEntryData NewHolidayData NewVacationData 50
        (some (civil 2025 3 31)) 0).1.DaysRequired
      < (CalculatePeriodStats q1Period NewBadgeEntryData NewHolidayData NewVacationData 75
        (some (civil 2025 3 31)) 0).1.DaysRequired ∧
    (CalculatePeriodStats q1Period NewBadgeEntryData NewHolidayData NewVacationData 50
        (some (civil 2025 3 31)) 0).1.DaysRequired = 32 ∧
    (CalculatePeriodStats q1Period NewBadgeEntryData NewHolidayData NewVacationData 75
        (some (civil 2025 3 31)) 0).1.DaysRequired = 48 :=
  ⟨⟨by decide, by decide!, by decide!, by decide!⟩,
   (C25_daysRequired_monotone_in_goal q1Period NewBadgeEntryData NewHolidayData NewVacationData
      50 75 (some (civil 2025 3 31)) 0 (by decide)).2.2 (by decide!) (by decide!) (by decide!),
   by decide!, by decide!⟩

/-- C25 (counterexample): on the one-day period 2025-01-02 the goals `2 ^ 60` and
`2 ^ 60 + 100` differ by 100 with `TotalDays = 1`, yet both are the same
`float64` and require the same number of days.  On the first half of 2025, 129
qualifying days, the goal 100 requires 129 days and the greater goal
`math.MaxInt64` requires `math.MinInt64` days: the float64 value `129 * 2 ^ 63
/ 100` is no `int`, and the conversion of amd64 yields `math.MinInt64`. -/
theorem C25_huge_goals_require_the_same :
    ((CalculatePeriodStats oneDayPeriod NewBadgeEntryData NewHolidayData NewVacationData
        1152921504606846976 (some (civil 2025 1 2)) 0).1.TotalDays = 1 ∧
    (1 : Int) * (1152921504606847076 - 1152921504606846976) ≥ 100 ∧
    (CalculatePeriodStats oneDayPeriod NewBadgeEntryData NewHolidayData NewVacationData
        1152921504606846976 (some (civil 2025 1 2)) 0).1.DaysRequired = 11529215046068470 ∧
    (CalculatePeriodStats oneDayPeriod NewBadgeEntryData NewHolidayData NewVacationData
        1152921504606847076 (some (civil 2025 1 2)) 0).1.DaysRequired = 11529215046068470 ∧
    ¬ ((CalculatePeriodStats oneDayPeriod NewBadgeEntryData NewHolidayData NewVacationData
        1152921504606846976 (some (civil 2025 1 2)) 0).1.DaysRequired
      < (CalculatePeriodStats oneDayPeriod NewBadgeEntryData NewHolidayData NewVacationData
        1152921504606847076 (some (civil 2025 1 2)) 0).1.DaysRequired)) ∧
    ((100 : Int) ≤ 9223372036854775807 ∧
    (CalculatePeriodStats halfYearPeriod NewBadgeEntryData NewHolidayData NewVacationData
        100 (some (civil 2025 1 6)) 0).1.TotalDays = 129 ∧
    (CalculatePeriodStats halfYearPeriod NewBadgeEntryData NewHolidayData NewVacationData
        100 (some (civil 2025 1 6)) 0).1.DaysRequired = 129 ∧
    (CalculatePeriodStats halfYearPeriod NewBadgeEntryData NewHolidayData NewVacationData
        9223372036854775807 (some (civil 2025 1 6)) 0).1.DaysRequired
      = -9223372036854775808 ∧
    ¬ ((CalculatePeriodStats halfYearPeriod NewBadgeEntryData NewHolidayData NewVacationData
        100 (some (civil 2025 1 6)) 0).1.DaysRequired
      ≤ (CalculatePeriodStats halfYearPeriod NewBadgeEntryData NewHolidayData NewVacationData
        9223372036854775807 (some (civil 2025 1 6)) 0).1.DaysRequired)) := by
  decide!

end Rto
